import Mathlib

/-!
# Shuffle backend: the workflow execution engine of `backend/go-app/walkoff.go`

A shallow embedding of the result-ingestion handler (`handleWorkflowQueue`),
the abort handler (`abortExecution`), the queue acknowledgement
(`handleGetWorkflowqueueConfirm`), the start of an execution
(`handleExecution`), the schedules (`createSchedule`, `deleteSchedule`,
`stopSchedule`), the usage of credentials (`updateAppAuth`), the save of a
workflow (`saveWorkflow`) and the helpers they call, followed by theorems about
them.

Conventions of the embedding.

* Go strings are Lean strings; `len(s)` is the byte length `String.utf8ByteSize`.
* A Go slice is a Lean list.  The one loop of the source that rewrites a slice
  while ranging over it (lines 1114-1136) is embedded over an explicit backing
  array with a current length, see `reconcileSkipped`.
* A kind of the datastore that a handler writes, and the map `scheduledJobs`,
  is an association list from key to entity, passed in and returned.
* Everything else the handlers obtain from their surroundings (the clock, the
  JSON codec, the cloud dispatcher, the datastore client's error result, the
  session check, the queries of kinds that are only read) is a field of `Env`.
* A handler returns a `Reply` together with the datastore it leaves behind.
  `Reply.panicked` is a Go run-time panic inside the handler (the HTTP server
  recovers it, nothing is written), `Reply.overflow` is the unbounded recursion
  of `findChildNodes`, reached in the model when the fuel runs out.
* Statistics counters (`increaseStatisticsField`, `handleExecutionStatistics`)
  live in other entities and never feed back into an execution; they are left
  out.
-/

namespace Shuffle

/-! ## Data model (lines 58-68, 105-129, 168-400) -/

/-- The anonymous struct used for `ExecutionVariable`, `ExecutionVariables` and
`WorkflowVariables`. -/
structure Variable where
  Description : String := ""
  ID : String := ""
  Name : String := ""
  Value : String := ""
  deriving DecidableEq, Repr, Inhabited

/-- The fields of `WorkflowAppActionParameter` read by the engine. -/
structure WorkflowAppActionParameter where
  Name : String := ""
  Value : String := ""
  Variant : String := ""
  Required : Bool := false
  Configuration : Bool := false
  deriving DecidableEq, Repr, Inhabited

/-- A node of a workflow (`type Action struct`); position and sharing fields
are not read by the engine and are left out. -/
structure Action where
  AppName : String := ""
  AppVersion : String := ""
  AppID : String := ""
  Errors : List String := []
  ID : String := ""
  IsValid : Bool := false
  IsStartNode : Bool := false
  Label : String := ""
  Environment : String := ""
  Name : String := ""
  Parameters : List WorkflowAppActionParameter := []
  ExecutionVariable : Variable := {}
  AuthenticationId : String := ""
  LargeImage : String := ""
  deriving DecidableEq, Repr, Inhabited

/-- A user-input, webhook or schedule node (`type Trigger struct`). -/
structure Trigger where
  AppName : String := ""
  Status : String := ""
  ID : String := ""
  TriggerType : String := ""
  Name : String := ""
  Parameters : List WorkflowAppActionParameter := []
  deriving DecidableEq, Repr, Inhabited

/-- A directed edge of the workflow (`type Branch struct`). -/
structure Branch where
  DestinationID : String := ""
  ID : String := ""
  SourceID : String := ""
  Label : String := ""
  deriving DecidableEq, Repr, Inhabited

/-- The `Configuration` struct of a workflow. -/
structure Configuration where
  ExitOnError : Bool := false
  StartFromTop : Bool := false
  deriving DecidableEq, Repr, Inhabited

/-- An organisation (`type Org struct`, lines 105-117), reduced to the fields
the handlers read. -/
structure Org where
  Name : String := ""
  Id : String := ""
  deriving DecidableEq, Repr, Inhabited

/-- A workflow definition (`type Workflow struct`). -/
structure Workflow where
  Actions : List Action := []
  Branches : List Branch := []
  Triggers : List Trigger := []
  Configuration : Configuration := {}
  Errors : List String := []
  ID : String := ""
  IsValid : Bool := false
  Name : String := ""
  Start : String := ""
  Owner : String := ""
  ExecutingOrg : Org := {}
  OrgId : String := ""
  WorkflowVariables : List Variable := []
  ExecutionVariables : List Variable := []
  deriving DecidableEq, Repr, Inhabited

/-- The outcome of one node in one execution (`type ActionResult struct`). -/
structure ActionResult where
  Action : Action := {}
  ExecutionId : String := ""
  Authorization : String := ""
  Result : String := ""
  StartedAt : Int := 0
  CompletedAt : Int := 0
  Status : String := ""
  deriving DecidableEq, Repr, Inhabited

/-- One run of a workflow (`type WorkflowExecution struct`; `ExecutionType` is
the field `Type` of the source). -/
structure WorkflowExecution where
  ExecutionType : String := ""
  Status : String := ""
  Start : String := ""
  ExecutionArgument : String := ""
  ExecutionId : String := ""
  ExecutionSource : String := ""
  ExecutionOrg : String := ""
  WorkflowId : String := ""
  LastNode : String := ""
  Authorization : String := ""
  Result : String := ""
  StartedAt : Int := 0
  CompletedAt : Int := 0
  Workflow : Workflow := {}
  Results : List ActionResult := []
  ExecutionVariables : List Variable := []
  OrgId : String := ""
  ProjectId : String := ""
  Locations : List String := []
  deriving DecidableEq, Repr, Inhabited

/-- A pending request to run an execution (`type ExecutionRequest struct`;
`RequestType` is the field `Type` of the source). -/
structure ExecutionRequest where
  ExecutionId : String := ""
  ExecutionArgument : String := ""
  ExecutionSource : String := ""
  WorkflowId : String := ""
  Environments : List String := []
  Authorization : String := ""
  Status : String := ""
  Start : String := ""
  RequestType : String := ""
  deriving DecidableEq, Repr, Inhabited

/-- The session user returned by `handleApiAuthentication`. -/
structure User where
  Username : String := ""
  Id : String := ""
  Role : String := ""
  ActiveOrg : Org := {}
  deriving DecidableEq, Repr, Inhabited

/-- One field of a stored credential (`type AuthenticationStore struct`,
lines 397-400). -/
structure AuthenticationStore where
  Key : String := ""
  Value : String := ""
  deriving DecidableEq, Repr, Inhabited

/-- The nodes of one workflow that use a credential (`type AuthenticationUsage
struct`, lines 131-134). -/
structure AuthenticationUsage where
  WorkflowId : String := ""
  Nodes : List String := []
  deriving DecidableEq, Repr, Inhabited

/-- A stored credential of an organisation (`type AppAuthenticationStorage
struct`, lines 119-129); the app is left out.  The counters are `int64`. -/
structure AppAuthenticationStorage where
  Active : Bool := false
  Label : String := ""
  Id : String := ""
  Fields : List AuthenticationStore := []
  Usage : List AuthenticationUsage := []
  WorkflowCount : Int := 0
  NodeCount : Int := 0
  OrgId : String := ""
  deriving DecidableEq, Repr, Inhabited

/-- Modelled from the spec: `type Environment struct` is declared outside
`walkoff.go`; these are the three fields `handleExecution` reads, a name, a
kind that is `cloud` or `onprem` (`EnvironmentType` is the field `Type` of the
source) and the archive flag. -/
structure Environment where
  Name : String := ""
  EnvironmentType : String := ""
  Archived : Bool := false
  deriving DecidableEq, Repr, Inhabited

/-- The part of the HTTP request `handleExecution` reads: the method, the
body with the error of reading it, and the first value of the query keys
`start`, `answer`, `reference_execution` and `note` (`none` for a key that is
absent). -/
structure StartRequest where
  Method : String := "GET"
  Body : String := ""
  BodyError : Option String := none
  start : Option String := none
  answer : Option String := none
  referenceExecution : Option String := none
  note : Option String := none
  deriving DecidableEq, Repr, Inhabited

/-- An action of an app (`type WorkflowAppAction struct`, lines 189-214),
reduced to the fields `saveWorkflow` reads. -/
structure WorkflowAppAction where
  Name : String := ""
  Parameters : List WorkflowAppActionParameter := []
  deriving DecidableEq, Repr, Inhabited

/-- An app (`type WorkflowApp struct`, lines 138-166), reduced to the fields
`saveWorkflow` reads. -/
structure WorkflowApp where
  Name : String := ""
  ID : String := ""
  AppVersion : String := ""
  Actions : List WorkflowAppAction := []
  deriving DecidableEq, Repr, Inhabited

/-- Modelled from the spec: `type ScheduleOld struct` is declared outside
`walkoff.go`; this is the durable declaration of a schedule with the fields of
the record `ScheduleOld` of the spec, as lines 574-586 and 3550-3562 fill
them. -/
structure ScheduleOld where
  Id : String := ""
  WorkflowId : String := ""
  StartNode : String := ""
  Argument : String := ""
  WrappedArgument : String := ""
  Seconds : Int := 0
  Frequency : String := ""
  CreationTime : Int := 0
  LastModificationtime : Int := 0
  LastRuntime : Int := 0
  Org : String := ""
  Environment : String := ""
  deriving DecidableEq, Repr, Inhabited

/-- A timer handle of the scheduler library (`*newscheduler.Job`) as far as
the file uses it: the interval in seconds and the request of the closure of
lines 550-560 it runs at each firing, and whether `Lock()` was called on it. -/
structure Job where
  Seconds : Int := 0
  WorkflowId : String := ""
  OrgId : String := ""
  Body : String := ""
  Locked : Bool := false
  deriving DecidableEq, Repr, Inhabited

/-- The job handed to the cloud synchronisation channel by `handleUserInput`
(`JobType` is the field `Type` of the source). -/
structure CloudSyncJob where
  JobType : String := ""
  Action : String := ""
  OrgId : String := ""
  PrimaryItemId : String := ""
  SecondaryItem : String := ""
  ThirdItem : String := ""
  FourthItem : String := ""
  FifthItem : String := ""
  deriving DecidableEq, Repr, Inhabited

/-! ## The outside world -/

/-- Everything the handlers read from their surroundings and do not write.
An error result is `some message`, success is `none`. -/
structure Env where
  /-- `time.Now().Unix()`. -/
  now : Int := 0
  /-- `strings.ToLower`, applied to the execution id by `getWorkflowExecution`. -/
  toLower : String → String := fun s => s
  /-- `json.Unmarshal` of a result payload into a `Trigger`. -/
  unmarshalTrigger : String → Option Trigger := fun _ => none
  /-- `getOrg`, reduced to the sync api key it is called for. -/
  getOrg : String → Except String String := fun _ => .ok ""
  /-- `executeCloudAction`. -/
  executeCloudAction : CloudSyncJob → String → Option String := fun _ _ => none
  /-- `json.Marshal` of an execution: the length of the encoding, `none` on error. -/
  marshalLen : WorkflowExecution → Option Nat := fun _ => some 0
  /-- The error of `dbclient.Put` for an execution. -/
  putError : WorkflowExecution → Option String := fun _ => none
  /-- `handleApiAuthentication` for the request at hand. -/
  apiAuthentication : Except String User := .error "no session"
  /-- The error of `dbclient.Put` for the queue stored under a key. -/
  queuePutError : String → List ExecutionRequest → Option String := fun _ _ => none
  /-- `getWorkflow` (lines 3786-3794), for the handlers that only read the kind
  `workflow`. -/
  getWorkflow : String → Except String Workflow := fun _ => .error "datastore: no such entity"
  /-- `json.Unmarshal` of a request body into an `ExecutionRequest`; an error
  is only logged, so the value is the request as far as it was decoded. -/
  unmarshalExecutionRequest : String → ExecutionRequest := fun _ => {}
  /-- `uuid.NewV4().String()` of lines 2568-2569 and 2643-2644. -/
  newExecutionId : String := ""
  /-- `uuid.NewV4().String()` of line 2686. -/
  newAuthorization : String := ""
  /-- The package variable `gceProject`. -/
  gceProject : String := ""
  /-- The package variable `baseDockerName`. -/
  baseDockerName : String := ""
  /-- `getAllWorkflowAppAuth` (lines 5790-5800), the credentials of an
  organisation. -/
  getAllWorkflowAppAuth : String → Except String (List AppAuthenticationStorage) :=
    fun _ => .ok []
  /-- `getEnvironments` (lines 3796-3806), the environments of an organisation. -/
  getEnvironments : String → Except String (List Environment) := fun _ => .ok []
  /-- The error of `imageCheckBuilder` for a list of image names. -/
  imageCheckBuilder : List String → Option String := fun _ => none
  /-- `handleVerifyCloudsync`: the flag `Workflows.Active` of the feature list
  and the error. -/
  handleVerifyCloudsync : String → Bool × Option String := fun _ => (false, none)
  /-- The error of `newscheduler.Every(n).Seconds().NotImmediately().Run(job)`
  for the interval `n`. -/
  schedulerRunError : Int → Option String := fun _ => none
  /-- The error of `dbclient.Put` inside `setSchedule` for a declaration. -/
  schedulePutError : ScheduleOld → Option String := fun _ => none
  /-- The error of `DeleteKey` for a kind and a key. -/
  deleteKeyError : String → String → Option String := fun _ _ => none
  /-- The `Id` of the organisation `getOrg` returns for a key. -/
  orgIdOf : String → String := fun id => id
  /-- The error of `dbclient.Put` inside `setWorkflowAppAuthDatastore`. -/
  authPutError : AppAuthenticationStorage → String → Option String := fun _ _ => none
  /-- The error of `dbclient.Put` inside `setWorkflow`. -/
  workflowPutError : Workflow → String → Option String := fun _ _ => none
  /-- `getAllWorkflowApps` (lines 5778-5788). -/
  getAllWorkflowApps : Except String (List WorkflowApp) := .ok []
  /-- `getHook`, reduced to the `Id` of the hook; `none` is the error. -/
  getHook : String → Option String := fun _ => none

/-- The `workflowexecution` kind of the datastore. -/
abbrev Datastore := List (String × WorkflowExecution)

/-- The value stored under a key, `dbclient.Get`. -/
def dbGet : Datastore → String → Option WorkflowExecution
  | [], _ => none
  | (k, v) :: rest, key => if k = key then some v else dbGet rest key

/-- Store a value under a key, replacing the value already there, `dbclient.Put`. -/
def dbPut : Datastore → String → WorkflowExecution → Datastore
  | [], key, e => [(key, e)]
  | (k, v) :: rest, key, e =>
    if k = key then (key, e) :: rest else (k, v) :: dbPut rest key e

/-- What a handler answers. -/
inductive Reply where
  | status (code : Nat)
  | panicked
  | overflow
  deriving DecidableEq, Repr, Inhabited

/-- Lines 3749-3764, `setWorkflowExecution`. -/
def setWorkflowExecution (env : Env) (db : Datastore) (workflowExecution : WorkflowExecution) :
    Except String Datastore :=
  if workflowExecution.ExecutionId.utf8ByteSize = 0 then
    .error "ExecutionId can't be empty."
  else
    match env.putError workflowExecution with
    | some err => .error err
    | none => .ok (dbPut db workflowExecution.ExecutionId workflowExecution)

/-- Lines 3766-3774, `getWorkflowExecution`. -/
def getWorkflowExecution (env : Env) (db : Datastore) (id : String) : Option WorkflowExecution :=
  dbGet db (env.toLower id)

/-! ## `findChildNodes` (lines 794-841) -/

/-- The loop of lines 808-820: append every node of `childNodes` that
`allChildren` does not hold yet. -/
def appendMissing (allChildren : List String) : List String → List String
  | [] => allChildren
  | bottomChild :: rest =>
    if allChildren.contains bottomChild then appendMissing allChildren rest
    else appendMissing (allChildren ++ [bottomChild]) rest

/-- The loop of lines 825-838, "Remove potential duplicates". -/
def removeDuplicates (newNodes : List String) : List String → List String
  | [] => newNodes
  | tmpnode :: rest =>
    if newNodes.contains tmpnode then removeDuplicates newNodes rest
    else removeDuplicates (newNodes ++ [tmpnode]) rest

/-- The loop of lines 802-822 for the node `nodeId`; `recurse` is the recursive
call of line 807 and the state is `allChildren`.  `none` when a recursive call
does not come back. -/
def childLoop (recurse : String → Option (List String)) (nodeId : String) :
    List Branch → List String → Option (List String)
  | [], allChildren => some allChildren
  | branch :: rest, allChildren =>
    if branch.SourceID = nodeId then
      match recurse branch.DestinationID with
      | none => none
      | some childNodes =>
        childLoop recurse nodeId rest
          (appendMissing (allChildren ++ [branch.DestinationID]) childNodes)
    else childLoop recurse nodeId rest allChildren

/-- Lines 796-841.  The Go function recurses without a visited set; `fuel`
bounds the recursion depth and `none` stands for a recursion that went deeper. -/
def findChildNodes : Nat → WorkflowExecution → String → Option (List String)
  | 0, _, _ => none
  | fuel + 1, workflowExecution, nodeId =>
    match childLoop (findChildNodes fuel workflowExecution) nodeId
        workflowExecution.Workflow.Branches [nodeId] with
    | none => none
    | some allChildren => some (removeDuplicates [] allChildren)

/-! ## `handleUserInput` (lines 6167-6245) -/

/-- `strings.Contains`. -/
def stringsContains (s substr : String) : Bool :=
  s.data.tails.any fun t => substr.data.isPrefixOf t

/-- The parameter scan of lines 6173-6183; the state is
`(sms, email, triggerType, triggerInformation)`. -/
def userInputParameters :
    List WorkflowAppActionParameter → String × String × String × String →
      String × String × String × String
  | [], st => st
  | item :: rest, (sms, email, triggerType, triggerInformation) =>
    if item.Name = "alertinfo" then
      userInputParameters rest (sms, email, triggerType, item.Value)
    else if item.Name = "type" then
      userInputParameters rest (sms, email, item.Value, triggerInformation)
    else if item.Name = "email" then
      userInputParameters rest (sms, item.Value, triggerType, triggerInformation)
    else if item.Name = "sms" then
      userInputParameters rest (item.Value, email, triggerType, triggerInformation)
    else userInputParameters rest (sms, email, triggerType, triggerInformation)

/-- One of the two dispatch blocks (lines 6193-6217 and 6218-6242): look up
the organisation, then hand the job to the cloud channel. -/
def sendCloudJob (env : Env) (organizationId : String) (job : CloudSyncJob) : Option String :=
  match env.getOrg organizationId with
  | .error err => some err
  | .ok apikey => env.executeCloudAction job apikey

/-- Lines 6167-6245; the result is the returned error, `none` for `nil`. -/
def handleUserInput (env : Env) (trigger : Trigger)
    (organizationId workflowId referenceExecution : String) : Option String :=
  match userInputParameters trigger.Parameters ("", "", "", "") with
  | (sms, email, triggerType, triggerInformation) =>
    if triggerType.utf8ByteSize = 0 then some "No type specified for user input node"
    else
      let startNode := trigger.ID
      let emailErr :=
        if stringsContains triggerType "email" then
          sendCloudJob env organizationId
            { JobType := "user_input", Action := "send_email", OrgId := organizationId,
              PrimaryItemId := workflowId, SecondaryItem := startNode,
              ThirdItem := triggerInformation, FourthItem := email,
              FifthItem := referenceExecution }
        else none
      match emailErr with
      | some err => some err
      | none =>
        if stringsContains triggerType "sms" then
          sendCloudJob env organizationId
            { JobType := "user_input", Action := "send_sms", OrgId := organizationId,
              PrimaryItemId := workflowId, SecondaryItem := startNode,
              ThirdItem := triggerInformation, FourthItem := sms,
              FifthItem := referenceExecution }
        else none

/-! ## `handleWorkflowQueue` (lines 843-1255), block by block -/

/-- The write at the end of both arms of the user-input block (lines 938-943
and 956-961): an error of `setWorkflowExecution` is logged and dropped. -/
def putIgnoringError (env : Env) (db : Datastore) (workflowExecution : WorkflowExecution) :
    Datastore :=
  match setWorkflowExecution env db workflowExecution with
  | .error _ => db
  | .ok db' => db'

/-- Lines 915-965, entered when the submitted result is a WAITING result of the
"User Input" app. -/
def userInputBranch (env : Env) (db : Datastore) (workflowExecution : WorkflowExecution)
    (actionResult : ActionResult) : Reply × Datastore :=
  match env.unmarshalTrigger actionResult.Result with
  | none => (.status 401, db)
  | some trigger =>
    let orgId :=
      if workflowExecution.OrgId.utf8ByteSize = 0 ∧
          workflowExecution.Workflow.OrgId.utf8ByteSize > 0 then
        workflowExecution.Workflow.OrgId
      else workflowExecution.ExecutionOrg
    match handleUserInput env trigger orgId workflowExecution.Workflow.ID
        workflowExecution.ExecutionId with
    | some err =>
      let actionResult := { actionResult with Result := "Cloud error: " ++ err }
      (.status 401, putIgnoringError env db
        { workflowExecution with
          Results := workflowExecution.Results ++ [actionResult], Status := "ABORTED" })
    | none =>
      let actionResult :=
        { actionResult with Result := "Waiting for user feedback based on configuration" }
      (.status 200, putIgnoringError env db
        { workflowExecution with
          Results := workflowExecution.Results ++ [actionResult],
          Status := actionResult.Status })

/-- Lines 1003-1020: does some branch into `nodeId` start outside `childNodes`? -/
def skipNodeAdd (branches : List Branch) (childNodes : List String) (nodeId : String) : Bool :=
  branches.any fun branch =>
    branch.DestinationID = nodeId ∧ ¬ childNodes.contains branch.SourceID

/-- Lines 981-1036: the SKIPPED results synthesised for the nodes below a failed
node, in the order of `childNodes`. -/
def skippedResults (workflowExecution : WorkflowExecution) (actionResult : ActionResult)
    (childNodes : List String) : List String → List ActionResult
  | [] => []
  | nodeId :: rest =>
    if nodeId = actionResult.Action.ID then
      skippedResults workflowExecution actionResult childNodes rest
    else
      let curAction :=
        (workflowExecution.Workflow.Actions.find? fun action => action.ID = nodeId).getD
          { ID := "" }
      if curAction.ID.utf8ByteSize = 0 then
        skippedResults workflowExecution actionResult childNodes rest
      else if skipNodeAdd workflowExecution.Workflow.Branches childNodes nodeId then
        skippedResults workflowExecution actionResult childNodes rest
      else
        { Action := curAction, ExecutionId := actionResult.ExecutionId,
          Authorization := actionResult.Authorization,
          Result := "Skipped because of previous node",
          StartedAt := 0, CompletedAt := 0, Status := "SKIPPED" } ::
          skippedResults workflowExecution actionResult childNodes rest

/-- The body of the loops of lines 1042-1053 and 2378-2389 up to the append:
an EXECUTING result takes the given status and the fixed payload. -/
def abortRunning (status : String) (result : ActionResult) : ActionResult :=
  if result.Status = "EXECUTING" then
    { result with Status := status, Result := "Aborted because of error in another node" }
  else result

/-- The variable `lastResult` of the same loops, read after the loop over the
rewritten results: the last payload of positive length, starting from `init`. -/
def lastNonEmpty (init : String) : List ActionResult → String
  | [] => init
  | result :: rest =>
    if result.Result.utf8ByteSize > 0 then lastNonEmpty result.Result rest
    else lastNonEmpty init rest

/-- Lines 967-1069, entered when the submitted status is ABORTED or FAILURE.
`none` when `findChildNodes` does not come back. -/
def failureBranch (fuel : Nat) (workflowExecution : WorkflowExecution)
    (actionResult : ActionResult) : Option WorkflowExecution :=
  let rewritten := workflowExecution.Results.map (abortRunning actionResult.Status)
  if workflowExecution.Workflow.Configuration.ExitOnError then
    some { workflowExecution with
      Status := actionResult.Status
      LastNode := actionResult.Action.ID
      Result := lastNonEmpty "" rewritten
      Results := rewritten }
  else
    match findChildNodes fuel workflowExecution actionResult.Action.ID with
    | none => none
    | some childNodes =>
      some { workflowExecution with
        Result := lastNonEmpty "" rewritten
        Results := skippedResults workflowExecution actionResult childNodes childNodes ++
          rewritten }

/-- Lines 1078-1084: the index of the first result of the given action. -/
def findResult : List ActionResult → String → Option Nat
  | [], _ => none
  | item :: rest, id =>
    if item.Action.ID = id then some 0 else (findResult rest id).map (· + 1)

/-- Lines 1093-1099: write `value` into the first execution variable named
`actionVarName`. -/
def setExecutionVariable (actionVarName value : String) : List Variable → List Variable
  | [] => []
  | execvar :: rest =>
    if execvar.Name = actionVarName then { execvar with Value := value } :: rest
    else execvar :: setExecutionVariable actionVarName value rest

/-- Lines 1074-1111, the merge of the submitted result into `Results`. -/
def mergeResult (workflowExecution : WorkflowExecution) (actionResult : ActionResult) :
    WorkflowExecution :=
  if workflowExecution.Results.length > 0 then
    match findResult workflowExecution.Results actionResult.Action.ID with
    | some outerindex =>
      let actionVarName :=
        (workflowExecution.Results.getD outerindex {}).Action.ExecutionVariable.Name
      let executionVariables :=
        if actionVarName.utf8ByteSize > 0 then
          setExecutionVariable actionVarName actionResult.Result
            workflowExecution.ExecutionVariables
        else workflowExecution.ExecutionVariables
      { workflowExecution with
        ExecutionVariables := executionVariables
        Results := workflowExecution.Results.set outerindex actionResult }
    | none =>
      { workflowExecution with Results := workflowExecution.Results ++ [actionResult] }
  else
    { workflowExecution with Results := workflowExecution.Results ++ [actionResult] }

/-- The test of lines 1122-1133 and 1167-1176: does `results` hold a result of
the action `sourceID` whose status is neither SKIPPED nor FAILURE? -/
def parentNotSkipped (results : List ActionResult) (sourceID : String) : Bool :=
  results.any fun subresult =>
    subresult.Action.ID = sourceID ∧ subresult.Status ≠ "SKIPPED" ∧ subresult.Status ≠ "FAILURE"

/-- Line 1128, `append(Results[:resultIndex], Results[resultIndex+1:]...)`, on
the backing array `arr` of which the slice `Results` is the first `n` cells.
`Results[resultIndex+1:]` panics when `resultIndex + 1 > n`.  Otherwise the
append fits the capacity and moves the cells `resultIndex+1 .. n-1` one place
down inside the backing array; cell `n-1` and the cells after it keep their
content, and the slice becomes one shorter. -/
def removeResult (arr : List ActionResult) (n resultIndex : Nat) :
    Option (List ActionResult × Nat) :=
  if resultIndex + 1 > n then none
  else
    some (arr.take resultIndex ++
      ((arr.drop (resultIndex + 1)).take (n - (resultIndex + 1)) ++ arr.drop (n - 1)), n - 1)

/-- Lines 1120-1135, the loop over the branches for one SKIPPED `result` read
at `resultIndex`.  The `break` of line 1130 leaves the loop over the results
only, so every further branch is tried on the shortened slice. -/
def reconcileBranches (result : ActionResult) (resultIndex : Nat) :
    List Branch → List ActionResult → Nat → Option (List ActionResult × Nat)
  | [], arr, n => some (arr, n)
  | branch :: rest, arr, n =>
    if branch.DestinationID = result.Action.ID ∧
        parentNotSkipped (arr.take n) branch.SourceID then
      match removeResult arr n resultIndex with
      | none => none
      | some (arr', n') => reconcileBranches result resultIndex rest arr' n'
    else reconcileBranches result resultIndex rest arr n

/-- Lines 1114-1136.  The `range` fixed the number of iterations when the loop
was entered (`remaining` of them are left) and reads cell `resultIndex` of the
backing array at the start of each iteration. -/
def reconcileLoop (branches : List Branch) :
    Nat → Nat → List ActionResult → Nat → Option (List ActionResult × Nat)
  | 0, _, arr, n => some (arr, n)
  | remaining + 1, resultIndex, arr, n =>
    match arr[resultIndex]? with
    | none => some (arr, n)
    | some result =>
      if result.Status ≠ "SKIPPED" then reconcileLoop branches remaining (resultIndex + 1) arr n
      else
        match reconcileBranches result resultIndex branches arr n with
        | none => none
        | some (arr', n') => reconcileLoop branches remaining (resultIndex + 1) arr' n'

/-- Lines 1113-1136 as a function of the slice: the results left by the
skip-dependency reconciliation, `none` when the loop panics. -/
def reconcileSkipped (branches : List Branch) (results : List ActionResult) :
    Option (List ActionResult) :=
  match reconcileLoop branches results.length 0 results results.length with
  | none => none
  | some (arr, n) => some (arr.take n)

/-- Lines 1138-1144. -/
def extraInputs (results : List ActionResult) : Nat :=
  (results.filter fun result =>
    result.Action.Name = "User Input" ∧ result.Action.AppName = "User Input").length

/-- Lines 1165-1182, the loop over the branches inside the termination scan;
the state is `finished`. -/
def finishedBranches (results : List ActionResult) (result : ActionResult) :
    List Branch → Bool → Bool
  | [], finished => finished
  | branch :: rest, finished =>
    let finished :=
      if branch.DestinationID = result.Action.ID ∧ parentNotSkipped results branch.SourceID
      then false else finished
    if !finished then finished else finishedBranches results result rest finished

/-- Lines 1154-1186, the termination scan; the state is `(finished, lastResult)`. -/
def finishedScan (branches : List Branch) (results : List ActionResult) :
    List ActionResult → Bool × String → Bool × String
  | [], st => st
  | result :: rest, (finished, lastResult) =>
    if result.Status = "EXECUTING" then (false, lastResult)
    else
      let finished :=
        if result.Status = "SKIPPED" then finishedBranches results result branches finished
        else finished
      finishedScan branches results rest (finished, result.Result)

/-- Lines 1138-1211, the termination check. -/
def checkFinished (env : Env) (workflowExecution : WorkflowExecution)
    (actionResult : ActionResult) : WorkflowExecution :=
  if workflowExecution.Results.length =
      workflowExecution.Workflow.Actions.length + extraInputs workflowExecution.Results then
    match finishedScan workflowExecution.Workflow.Branches workflowExecution.Results
        workflowExecution.Results (true, "") with
    | (true, lastResult) =>
      { workflowExecution with
        Result := lastResult
        Status := "FINISHED"
        CompletedAt := env.now
        LastNode :=
          if workflowExecution.LastNode = "" then actionResult.Action.ID
          else workflowExecution.LastNode }
    | (false, _) => workflowExecution
  else workflowExecution

/-- Lines 1220-1239, the reduction of an execution whose encoding is too long. -/
def reduceResults (env : Env) (workflowExecution : WorkflowExecution) : WorkflowExecution :=
  match env.marshalLen workflowExecution with
  | none => workflowExecution
  | some len =>
    if len ≥ 1048487 then
      { workflowExecution with
        Results := workflowExecution.Results.map fun item =>
          if item.Result.utf8ByteSize > 500000 then
            { item with Result :=
                "[ERROR] Result too large to handle (https://github.com/frikky/shuffle/issues/171)" }
          else item }
    else workflowExecution

/-- Lines 967-1111 on the execution in memory: the failure block, entered when
the submitted status is ABORTED or FAILURE, followed by the merge.  `none` when
`findChildNodes` does not come back. -/
def mergeStage (fuel : Nat) (workflowExecution : WorkflowExecution)
    (actionResult : ActionResult) : Option WorkflowExecution :=
  let afterFailure :=
    if actionResult.Status = "ABORTED" ∨ actionResult.Status = "FAILURE" then
      failureBranch fuel workflowExecution actionResult
    else some workflowExecution
  match afterFailure with
  | none => none
  | some workflowExecution => some (mergeResult workflowExecution actionResult)

/-- Lines 967-1211 on the execution in memory: `mergeStage`, the
reconciliation and the termination check.  `.error .overflow` when
`findChildNodes` does not come back, `.error .panicked` when the
reconciliation loop panics. -/
def mergeAndCheck (fuel : Nat) (env : Env) (workflowExecution : WorkflowExecution)
    (actionResult : ActionResult) : Except Reply WorkflowExecution :=
  match mergeStage fuel workflowExecution actionResult with
  | none => .error .overflow
  | some workflowExecution =>
    match reconcileSkipped workflowExecution.Workflow.Branches workflowExecution.Results with
    | none => .error .panicked
    | some results =>
      .ok (checkFinished env { workflowExecution with Results := results } actionResult)

/-- Lines 877-1255, `handleWorkflowQueue` from the decoded `ActionResult` on. -/
def handleWorkflowQueue (fuel : Nat) (env : Env) (db : Datastore) (actionResult : ActionResult) :
    Reply × Datastore :=
  match getWorkflowExecution env db actionResult.ExecutionId with
  | none => (.status 401, db)
  | some workflowExecution =>
    if workflowExecution.Authorization ≠ actionResult.Authorization then (.status 401, db)
    else if workflowExecution.Status = "FINISHED" then (.status 401, db)
    else if (workflowExecution.Status = "ABORTED" ∨ workflowExecution.Status = "FAILURE") ∧
        workflowExecution.Workflow.Configuration.ExitOnError = true then (.status 401, db)
    else if actionResult.Status = "WAITING" ∧ actionResult.Action.AppName = "User Input" then
      userInputBranch env db workflowExecution actionResult
    else
      match mergeAndCheck fuel env workflowExecution actionResult with
      | .error reply => (reply, db)
      | .ok workflowExecution =>
        match setWorkflowExecution env db (reduceResults env workflowExecution) with
        | .error _ => (.status 401, db)
        | .ok db' => (.status 200, db')

/-! ## `abortExecution` (lines 2293-2420) -/

/-- `strings.Split(s, " ")` on the characters of `s`; `cur` is the piece being
read, in reverse. -/
def splitSpaces : List Char → List Char → List String
  | [], cur => [String.mk cur.reverse]
  | c :: rest, cur =>
    if c = ' ' then String.mk cur.reverse :: splitSpaces rest []
    else splitSpaces rest (c :: cur)

/-- Lines 2333-2340: the key of an `Authorization: Bearer <key>` header. -/
def parsedKey (apikey : String) : String :=
  if "Bearer ".data.isPrefixOf apikey.data then
    match splitSpaces apikey.data [] with
    | [_, key] => key
    | _ => ""
  else ""

/-- Lines 2342-2361: the caller presents the execution's authorization, or a
session of the workflow's owner or of an admin. -/
def abortAuthorized (env : Env) (workflowExecution : WorkflowExecution) (apikey : String) :
    Bool :=
  if workflowExecution.Authorization ≠ parsedKey apikey then
    match env.apiAuthentication with
    | .error _ => false
    | .ok user =>
      if user.Id ≠ workflowExecution.Workflow.Owner ∧ user.Role ≠ "admin" then false else true
  else true

/-- Lines 2370-2394 on the execution in memory. -/
def abortedExecution (env : Env) (workflowExecution : WorkflowExecution) : WorkflowExecution :=
  let newResults := workflowExecution.Results.map (abortRunning "ABORTED")
  let lastResult := lastNonEmpty "" newResults
  { workflowExecution with
    CompletedAt := env.now
    Status := "ABORTED"
    Results := newResults
    Result :=
      if workflowExecution.Result.utf8ByteSize = 0 then lastResult
      else workflowExecution.Result }

/-- Lines 2311-2411, `abortExecution` from the path segments on: `fileId` is
`location[4]`, `executionId` is `location[6]` and `apikey` is the
`Authorization` header. -/
def abortExecution (env : Env) (db : Datastore) (fileId executionId apikey : String) :
    Reply × Datastore :=
  if fileId.utf8ByteSize ≠ 36 then (.status 401, db)
  else if executionId.utf8ByteSize ≠ 36 then (.status 401, db)
  else
    match getWorkflowExecution env db executionId with
    | none => (.status 401, db)
    | some workflowExecution =>
      if !abortAuthorized env workflowExecution apikey then (.status 401, db)
      else if workflowExecution.Status = "ABORTED" ∨ workflowExecution.Status = "FAILURE" ∨
          workflowExecution.Status = "FINISHED" then (.status 401, db)
      else
        match setWorkflowExecution env db (abortedExecution env workflowExecution) with
        | .error _ => (.status 401, db)
        | .ok db' => (.status 200, db')

/-! ## The queue of an environment (lines 56-68, 402-404, 472-492, 601-694) -/

/-- The `workflowqueue` kind of the datastore: under each key the `Data` of
an `ExecutionRequestWrapper`. -/
abbrev QueueStore := List (String × List ExecutionRequest)

/-- The value stored under a key, `dbclient.Get`. -/
def queueGet : QueueStore → String → Option (List ExecutionRequest)
  | [], _ => none
  | (k, v) :: rest, key => if k = key then some v else queueGet rest key

/-- Store a value under a key, replacing the value already there, `dbclient.Put`. -/
def queuePut : QueueStore → String → List ExecutionRequest → QueueStore
  | [], key, data => [(key, data)]
  | (k, v) :: rest, key, data =>
    if k = key then (key, data) :: rest else (k, v) :: queuePut rest key data

/-- Lines 484-492, `getWorkflowQueue`; `none` is the error of a missing entity. -/
def getWorkflowQueue (queues : QueueStore) (id : String) : Option (List ExecutionRequest) :=
  queueGet queues id

/-- Lines 472-482, `setWorkflowQueue`. -/
def setWorkflowQueue (env : Env) (queues : QueueStore) (data : List ExecutionRequest)
    (id : String) : Except String QueueStore :=
  match env.queuePutError id data with
  | some err => .error err
  | none => .ok (queuePut queues id data)

/-- Lines 663-668: is `execution` named by one of the requests to remove? -/
def confirmed (removeData : List ExecutionRequest) (execution : ExecutionRequest) : Bool :=
  removeData.any fun removeExecution =>
    removeExecution.ExecutionId = execution.ExecutionId ∧
      removeExecution.WorkflowId = execution.WorkflowId

/-- Lines 661-673: the requests that are not named by a request to remove,
appended one by one to `newExecutionRequests.Data`. -/
def remainingRequests (removeData : List ExecutionRequest) :
    List ExecutionRequest → List ExecutionRequest → List ExecutionRequest
  | [], newData => newData
  | execution :: rest, newData =>
    if confirmed removeData execution then remainingRequests removeData rest newData
    else remainingRequests removeData rest (newData ++ [execution])

/-- Lines 607-693, `handleGetWorkflowqueueConfirm` from the request on: `id` is
the `Org-Id` header and `body` the decoded `Data` of the request body, `none`
when the body cannot be read or decoded. -/
def handleGetWorkflowqueueConfirm (env : Env) (queues : QueueStore) (id : String)
    (body : Option (List ExecutionRequest)) : Reply × QueueStore :=
  if id.utf8ByteSize = 0 then (.status 401, queues)
  else
    match getWorkflowQueue queues id with
    | none => (.status 401, queues)
    | some data =>
      if data.length = 0 then (.status 401, queues)
      else
        match body with
        | none => (.status 401, queues)
        | some removeData =>
          if removeData.length = 0 then (.status 401, queues)
          else
            let newData := remainingRequests removeData data []
            if data.length ≠ newData.length then
              match setWorkflowQueue env queues newData id with
              | .error _ => (.status 200, queues)
              | .ok queues' => (.status 200, queues')
            else (.status 200, queues)

/-! ## `handleExecution` (lines 2463-2993) -/

/-- How `handleExecution` returns: `failed` is a return with a message and
the `error` value of the source (`none` for a nil error), `answered` the
return of line 2626 after a refusal was recorded, `started` the return of
line 2992, `panicked` an index out of range and `overflow` the recursion of
`findChildNodes` that never returns. -/
inductive StartResult
  | failed (message : String) (err : Option String)
  | answered
  | started (workflowExecution : WorkflowExecution)
  | panicked
  | overflow
  deriving DecidableEq, Repr, Inhabited

/-- How the request block of lines 2512-2657 ends: with a return of
`handleExecution`, or with the execution to go on with and the flag `makeNew`. -/
inductive RequestOutcome
  | stop (result : StartResult) (db : Datastore)
  | proceed (workflowExecution : WorkflowExecution) (makeNew : Bool)
  deriving DecidableEq, Repr, Inhabited

/-- Lines 2465-2496: the workflow that is run.  The empty slices of lines
2480-2491 are the empty lists already. -/
def resolveWorkflow (env : Env) (id : String) (workflow : Workflow) :
    Except StartResult Workflow :=
  match (if workflow.ID = "" ∨ workflow.ID ≠ id then env.getWorkflow id else .ok workflow) with
  | .error err => .error (.failed "Failed getting workflow" (some err))
  | .ok workflow =>
    if workflow.ExecutingOrg.Id.utf8ByteSize = 0 then
      .error (.failed "Workflow has no executing org defined"
        (some "Workflow has no executing org defined"))
    else if workflow.IsValid = false then
      .error (.failed ("workflow " ++ workflow.ID ++ " is invalid")
        (some "Failed getting workflow"))
    else .ok workflow

/-- Lines 2565-2570: the execution id of a POST request. -/
def assignExecutionId (env : Env) (execution : ExecutionRequest)
    (workflowExecution : WorkflowExecution) : WorkflowExecution :=
  if execution.ExecutionId.utf8ByteSize = 36 then
    { workflowExecution with ExecutionId := execution.ExecutionId }
  else { workflowExecution with ExecutionId := env.newExecutionId }

/-- Lines 2513-2570: a POST request. -/
def postExecution (env : Env) (workflow : Workflow) (request : StartRequest)
    (workflowExecution : WorkflowExecution) : Except StartResult WorkflowExecution :=
  match request.BodyError with
  | some err => .error (.failed "Failed getting body" (some err))
  | none =>
    let decoded := env.unmarshalExecutionRequest request.Body
    let execution :=
      if decoded.Start = "" ∧ request.Body.utf8ByteSize > 0 then
        { decoded with ExecutionArgument := request.Body }
      else decoded
    let workflowExecution :=
      if execution.ExecutionArgument.utf8ByteSize > 0 then
        { workflowExecution with ExecutionArgument := execution.ExecutionArgument }
      else workflowExecution
    let workflowExecution :=
      if execution.ExecutionSource.utf8ByteSize > 0 then
        { workflowExecution with ExecutionSource := execution.ExecutionSource }
      else workflowExecution
    if execution.Start.utf8ByteSize = 36 then
      if workflow.Actions.any (fun action => action.ID = workflow.Start) then
        .ok (assignExecutionId env execution { workflowExecution with Start := execution.Start })
      else
        .error (.failed ("Startnode " ++ workflow.Start ++ " was not found in actions")
          (some ("Startnode " ++ workflow.Start ++ " was not found in actions")))
    else if execution.Start.utf8ByteSize > 0 then
      .error (.failed ("Startnode " ++ execution.Start ++ " was not found in actions")
        (some ("Startnode " ++ execution.Start ++ " was not found in actions")))
    else .ok (assignExecutionId env execution workflowExecution)

/-- Lines 2601-2606: the payload a refusal writes. -/
def refusalPayload (answer : String) (note : Option String) : String :=
  match note with
  | some text => "User note: " ++ text
  | none => "User clicked " ++ answer

/-- Lines 2596-2619: the reference execution after its results were rewritten
for a refusal; the loop runs over the results as they were on entry. -/
def refuseLoop (env : Env) (start answer : String) (note : Option String) :
    List ActionResult → WorkflowExecution → List ActionResult → WorkflowExecution
  | [], oldExecution, newResults => { oldExecution with Results := newResults }
  | result :: rest, oldExecution, newResults =>
    if result.Action.ID = start then
      let result := { result with
        Result := refusalPayload answer note
        CompletedAt := env.now
        Status := "ABORTED" }
      refuseLoop env start answer note rest
        { oldExecution with
          Status := result.Status, Result := result.Result, LastNode := result.Action.ID }
        (newResults ++ [result])
    else refuseLoop env start answer note rest oldExecution (newResults ++ [result])

/-- Lines 2581-2627: the answer `false` to a user-input node of a reference
execution.  Line 2599 reads `start[0]` at each result, which is out of range when the
query has no `start`. -/
def refuseExecution (env : Env) (db : Datastore) (id : String) (request : StartRequest)
    (answer referenceId : String) : StartResult × Datastore :=
  match getWorkflowExecution env db referenceId with
  | none =>
    (.failed ("Failed getting execution ID " ++ referenceId ++ " because it doesn't exist.")
      (some "datastore: no such entity"), db)
  | some oldExecution =>
    if oldExecution.Workflow.ID ≠ id then
      (.failed ("Bad ID [" ++ referenceId ++ "]") (some "Bad ID"), db)
    else
      match oldExecution.Results, request.start with
      | _ :: _, none => (.panicked, db)
      | results, start =>
        match setWorkflowExecution env db
            (refuseLoop env (start.getD "") answer request.note results oldExecution []) with
        | .error err =>
          (.failed ("Failed setting workflowexecution actionresult in execution: " ++ err)
            (some err), db)
        | .ok db' => (.answered, db')

/-- Lines 2642-2655: the execution id and the start node of a request that
is not a POST; an execution that has an id already is not made anew. -/
def continueExecution (env : Env) (request : StartRequest)
    (workflowExecution : WorkflowExecution) : RequestOutcome :=
  let makeNew := decide (workflowExecution.ExecutionId.utf8ByteSize = 0)
  let workflowExecution :=
    if workflowExecution.ExecutionId.utf8ByteSize = 0 then
      { workflowExecution with ExecutionId := env.newExecutionId }
    else workflowExecution
  match request.start with
  | some start => .proceed { workflowExecution with Start := start } makeNew
  | none => .proceed workflowExecution makeNew

/-- Lines 2571-2657: a request that is not a POST. -/
def getExecution (env : Env) (db : Datastore) (id : String) (request : StartRequest)
    (workflowExecution : WorkflowExecution) : RequestOutcome :=
  match request.referenceExecution with
  | some referenceId =>
    if request.answer = some "false" then
      .stop (refuseExecution env db id request "false" referenceId).1
        (refuseExecution env db id request "false" referenceId).2
    else
      match getWorkflowExecution env db referenceId with
      | none =>
        .stop (.failed ("Failed getting execution ID " ++ referenceId ++
          " because it doesn't exist.") (some "datastore: no such entity")) db
      | some oldExecution => continueExecution env request oldExecution
  | none => continueExecution env request workflowExecution

/-- Lines 2512-2657: the execution the request asks for. -/
def readRequest (env : Env) (db : Datastore) (id : String) (workflow : Workflow)
    (request : StartRequest) : RequestOutcome :=
  if request.Method = "POST" then
    match postExecution env workflow request { Workflow := workflow } with
    | .error result => .stop result db
    | .ok workflowExecution => .proceed workflowExecution true
  else getExecution env db id request { Workflow := workflow }

/-- Lines 2676-2715: the fields of a new execution and the defaults. -/
def initExecution (env : Env) (workflow : Workflow) (workflowExecution : WorkflowExecution)
    (makeNew : Bool) : WorkflowExecution :=
  let workflowExecution :=
    if makeNew then
      { workflowExecution with
        ExecutionType := "workflow"
        ProjectId := env.gceProject
        Locations := ["europe-west2"]
        WorkflowId := workflow.ID
        StartedAt := env.now
        CompletedAt := 0
        Authorization := env.newAuthorization
        Status := "EXECUTING" }
    else workflowExecution
  let workflowExecution :=
    if workflowExecution.ExecutionSource.utf8ByteSize = 0 then
      { workflowExecution with ExecutionSource := "default" }
    else workflowExecution
  let workflowExecution :=
    { workflowExecution with ExecutionVariables := workflow.ExecutionVariables }
  if workflowExecution.Start.utf8ByteSize = 0 then
    { workflowExecution with Start := workflowExecution.Workflow.Start }
  else workflowExecution

/-- Lines 2761-2774: the parameters with the values of the credential, each
parameter taking the value of the first field whose key is its name. -/
def authParameters (curAuth : AppAuthenticationStorage)
    (parameters : List WorkflowAppActionParameter) : List WorkflowAppActionParameter :=
  parameters.map fun param =>
    match curAuth.Fields.find? (fun authparam => param.Name = authparam.Key) with
    | some authparam => { param with Value := authparam.Value }
    | none => param

/-- Lines 2739-2777: the action with the values of its credential.  The
source keeps the list of credentials once it was loaded non-empty; the list is
the same at every call, so it is read anew here. -/
def injectAuth (env : Env) (orgId : String) (action : Action) : Except StartResult Action :=
  if action.AuthenticationId.utf8ByteSize > 0 then
    match env.getAllWorkflowAppAuth orgId with
    | .error err =>
      .error (.failed ("Api authentication failed in get all app auth: " ++ err) (some err))
    | .ok allAuths =>
      let curAuth : AppAuthenticationStorage :=
        (allAuths.find? (fun auth => auth.Id = action.AuthenticationId)).getD { Id := "" }
      if curAuth.Id.utf8ByteSize = 0 then
        .error (.failed ("Auth ID " ++ action.AuthenticationId ++ " doesn't exist")
          (some ("Auth ID " ++ action.AuthenticationId ++ " doesn't exist")))
      else .ok { action with Parameters := authParameters curAuth action.Parameters }
  else .ok action

/-- Lines 2785-2793: the results of a continued execution, a waiting node
counted as finished. -/
def continuedResults (results : List ActionResult) : List ActionResult :=
  results.map fun result =>
    if result.Status = "WAITING" then
      { result with Status := "FINISHED", Result := "Continuing" }
    else result

/-- Lines 2809-2817: the result of a node that is not under the start node. -/
def skippedStart (workflowExecution : WorkflowExecution) (action : Action) : ActionResult :=
  { Action := action
    ExecutionId := workflowExecution.ExecutionId
    Authorization := workflowExecution.Authorization
    Result := "Skipped because it's not under the startnode"
    StartedAt := 0
    CompletedAt := 0
    Status := "SKIPPED" }

/-- Lines 2784-2819: the initial results after one more action. -/
def nextResults (workflowExecution : WorkflowExecution) (childNodes : List String)
    (action : Action) (defaultResults : List ActionResult) : List ActionResult :=
  if workflowExecution.Results.length > 0 then continuedResults workflowExecution.Results
  else if workflowExecution.Workflow.Configuration.StartFromTop = false then
    if childNodes.any (fun nodeId => nodeId = action.ID) then defaultResults
    else if action.ID = workflowExecution.Start then defaultResults
    else defaultResults ++ [skippedStart workflowExecution action]
  else defaultResults

/-- Lines 2727-2820: the loop over the actions, with `startFound`, `newActions`
and `defaultResults` as they stand. -/
def actionLoop (env : Env) (orgId : String) (workflowExecution : WorkflowExecution)
    (childNodes : List String) :
    List Action → Bool → List Action → List ActionResult →
      Except StartResult (Bool × List Action × List ActionResult)
  | [], startFound, newActions, defaultResults => .ok (startFound, newActions, defaultResults)
  | action :: rest, startFound, newActions, defaultResults =>
    if action.Environment = "" then
      .error (.failed ("Environment is not defined for " ++ action.Name)
        (some "Environment not defined!"))
    else
      match injectAuth env orgId { action with LargeImage := "" } with
      | .error result => .error result
      | .ok stored =>
        actionLoop env orgId workflowExecution childNodes rest
          (startFound || decide (action.ID = workflowExecution.Start)) (newActions ++ [stored])
          (nextResults workflowExecution childNodes stored defaultResults)

/-- Lines 2718-2839: the execution with its actions rebuilt and its initial
results. -/
def prepareExecution (fuel : Nat) (env : Env) (workflow : Workflow)
    (workflowExecution : WorkflowExecution) : Except StartResult WorkflowExecution :=
  match findChildNodes fuel workflowExecution workflowExecution.Start with
  | none => .error .overflow
  | some childNodes =>
    match actionLoop env workflow.ExecutingOrg.Id workflowExecution childNodes
        workflowExecution.Workflow.Actions false [] [] with
    | .error result => .error result
    | .ok (startFound, newActions, defaultResults) =>
      if (startFound || workflowExecution.Workflow.Triggers.any (fun trigger =>
          decide (trigger.ID = workflowExecution.Start) &&
            decide (trigger.AppName = "User Input"))) = false then
        .error (.failed
          ("Workflow action " ++ workflowExecution.Start ++ " doesn't exist in workflow")
          (some ("Workflow start node \"" ++ workflowExecution.Start ++
            "\" doesn't exist. Exiting!")))
      else
        .ok { workflowExecution with
          Results := defaultResults
          Workflow := { workflowExecution.Workflow with Actions := newActions } }

/-- `strings.ReplaceAll(name, " ", "-")`. -/
def dashed (name : String) : String :=
  String.mk (name.data.map fun c => if c = ' ' then '-' else c)

/-- Lines 2877-2918: the environments the actions run in, the image names and
whether one of the environments is of the kind `cloud`. -/
def environmentLoop (allEnvs : List Environment) (executionOrg baseDockerName : String) :
    List Action → List String → List String → Bool →
      Except StartResult (List String × List String × Bool)
  | [], environments, imageNames, cloudExec => .ok (environments, imageNames, cloudExec)
  | action :: rest, environments, imageNames, cloudExec =>
    match allEnvs.find? (fun env => env.Name = action.Environment) with
    | none =>
      .error (.failed "Couldn't find the environment"
        (some ("Couldn't find env " ++ action.Environment ++ " in org " ++ executionOrg)))
    | some env =>
      if env.EnvironmentType = "cloud" ∨ env.EnvironmentType = "onprem" then
        environmentLoop allEnvs executionOrg baseDockerName rest
          (if environments.any (fun name => name = action.Environment) then environments
           else environments ++ [action.Environment])
          (imageNames ++
            [baseDockerName ++ ":" ++ dashed action.AppName ++ "_" ++ action.AppVersion])
          (cloudExec || decide (env.EnvironmentType = "cloud"))
      else
        .error (.failed "No active environments found"
          (some ("No handler for environment type " ++ env.EnvironmentType)))

/-- Lines 2843-2924: the checks on the organisation, its environments and the
images. -/
def checkEnvironments (env : Env) (workflow : Workflow)
    (workflowExecution : WorkflowExecution) :
    Except StartResult (WorkflowExecution × List String × Bool) :=
  let workflowExecution :=
    if workflowExecution.ExecutionOrg.utf8ByteSize = 0 ∧
        workflow.ExecutingOrg.Id.utf8ByteSize > 0 then
      { workflowExecution with ExecutionOrg := workflow.ExecutingOrg.Id }
    else workflowExecution
  if workflowExecution.ExecutionOrg.utf8ByteSize > 0 then
    match env.getEnvironments workflowExecution.ExecutionOrg with
    | .error _ =>
      .error (.failed "Workflow environments not found for this org"
        (some "Workflow environments not found for this org"))
    | .ok allEnvironments =>
      let allEnvs := allEnvironments.filter fun curenv => curenv.Archived = false
      if allEnvs.length = 0 then
        .error (.failed "No active environments found"
          (some ("No active env found for org " ++ workflowExecution.ExecutionOrg)))
      else
        match environmentLoop allEnvs workflowExecution.ExecutionOrg env.baseDockerName
            workflowExecution.Workflow.Actions [] [] false with
        | .error result => .error result
        | .ok (environments, imageNames, cloudExec) =>
          match env.imageCheckBuilder imageNames with
          | some err => .error (.failed "Failed building missing Docker images" (some err))
          | none => .ok (workflowExecution, environments, cloudExec)
  else
    .error (.failed "No org identified for execution" (some "No org identified for execution"))

/-- Lines 2936-2960: one request per environment appended to its queue; an
error of `setWorkflowQueue` is logged and the loop goes on. -/
def enqueueExecution (env : Env) (workflowExecution : WorkflowExecution)
    (environments : List String) : List String → QueueStore → QueueStore
  | [], queues => queues
  | environment :: rest, queues =>
    let executionRequest : ExecutionRequest :=
      { ExecutionId := workflowExecution.ExecutionId
        WorkflowId := workflowExecution.Workflow.ID
        Authorization := workflowExecution.Authorization
        Environments := environments }
    let data :=
      match getWorkflowQueue queues environment with
      | none => [executionRequest]
      | some data => data ++ [executionRequest]
    match setWorkflowQueue env queues data environment with
    | .error _ => enqueueExecution env workflowExecution environments rest queues
    | .ok queues' => enqueueExecution env workflowExecution environments rest queues'

/-- Lines 2964-2985: a workflow with a `cloud` environment never starts. -/
def cloudExecution (env : Env) (workflowExecution : WorkflowExecution) : StartResult :=
  let verified := env.handleVerifyCloudsync workflowExecution.ExecutionOrg
  if verified.1 = false ∨ verified.2.isSome then
    .failed "Cloud not implemented yet" (some "Cloud not implemented yet")
  else if workflowExecution.Workflow.Actions.length = 1 then
    .failed "Cloud not implemented yet (1)" (some "Cloud not implemented yet")
  else .failed "Cloud not implemented yet (2)" (some "Cloud not implemented yet")

/-- Lines 2463-2993, `handleExecution`, with the two datastore kinds it writes.
`fuel` bounds the depth of the recursion of `findChildNodes`.  The copy of the
workflow through `json.Marshal` and `json.Unmarshal` (lines 2498-2510) is the
identity on the fields modelled; the statistics counter of line 2987, whose
error is only logged, is left out. -/
def handleExecution (fuel : Nat) (env : Env) (db : Datastore) (queues : QueueStore)
    (id : String) (workflow : Workflow) (request : StartRequest) :
    StartResult × Datastore × QueueStore :=
  match resolveWorkflow env id workflow with
  | .error result => (result, db, queues)
  | .ok workflow =>
    match readRequest env db id workflow request with
    | .stop result db' => (result, db', queues)
    | .proceed workflowExecution makeNew =>
      if workflowExecution.ExecutionId.utf8ByteSize ≠ 36 then
        (.failed "Invalid uuid" none, db, queues)
      else
        match prepareExecution fuel env workflow
            (initExecution env workflow workflowExecution makeNew) with
        | .error result => (result, db, queues)
        | .ok workflowExecution =>
          match checkEnvironments env workflow workflowExecution with
          | .error result => (result, db, queues)
          | .ok (workflowExecution, environments, cloudExec) =>
            match setWorkflowExecution env db workflowExecution with
            | .error err => (.failed "Failed getting workflowexecution" (some err), db, queues)
            | .ok db' =>
              let queues' :=
                enqueueExecution env workflowExecution environments environments queues
              if cloudExec then (cloudExecution env workflowExecution, db', queues')
              else (.started workflowExecution, db', queues')

/-! ## Schedules: `createSchedule` (lines 511-599), `deleteSchedule` (lines 3352-3370), `stopSchedule` (lines 3134-3261) -/

/-- The value stored under a key of a kind of the datastore or of a Go map. -/
def assocGet {α : Type} : List (String × α) → String → Option α
  | [], _ => none
  | (k, v) :: rest, key => if k = key then some v else assocGet rest key

/-- Store a value under a key, replacing the value already there. -/
def assocPut {α : Type} : List (String × α) → String → α → List (String × α)
  | [], key, value => [(key, value)]
  | (k, v) :: rest, key, value =>
    if k = key then (key, value) :: rest else (k, v) :: assocPut rest key value

/-- Remove what is stored under a key, if there is anything. -/
def assocDelete {α : Type} : List (String × α) → String → List (String × α)
  | [], _ => []
  | (k, v) :: rest, key =>
    if k = key then assocDelete rest key else (k, v) :: assocDelete rest key

/-- The `schedules` kind of the datastore: the declarations. -/
abbrev ScheduleStore := List (String × ScheduleOld)

/-- The map `scheduledJobs` of line 46: the timers by schedule id. -/
abbrev Registry := List (String × Job)

/-- Modelled from the spec: `setSchedule` is declared outside `walkoff.go`; it
persists the declaration under its id in the kind `schedules` or returns the
error of the datastore. -/
def setSchedule (env : Env) (schedules : ScheduleStore) (schedule : ScheduleOld) :
    Except String ScheduleStore :=
  match env.schedulePutError schedule with
  | some err => .error err
  | none => .ok (assocPut schedules schedule.Id schedule)

/-- Modelled from the spec: `getSchedule` is declared outside `walkoff.go`; it
reads the declaration stored under an id, `none` is the error of a missing
entity. -/
def getSchedule (schedules : ScheduleStore) (id : String) : Option ScheduleOld :=
  assocGet schedules id

/-- Modelled from the spec: `DeleteKey` is declared outside `walkoff.go`; it
removes the entity stored under a key of the kind `schedules` or returns the
error of the datastore.  Removing a key that is not there is no error. -/
def DeleteKey (env : Env) (schedules : ScheduleStore) (id : String) :
    Except String ScheduleStore :=
  match env.deleteKeyError "schedules" id with
  | some err => .error err
  | none => .ok (assocDelete schedules id)

/-- The loop of `strconv.Atoi` over the digits: the value of a run of decimal
digits read after `n`, `none` at any other character. -/
def atoiDigits : List Char → Nat → Option Nat
  | [], n => some n
  | ch :: rest, n =>
    if '0' ≤ ch ∧ ch ≤ '9' then atoiDigits rest (n * 10 + (ch.toNat - '0'.toNat)) else none

/-- `strconv.Atoi` for a 64-bit `int`: an optional sign and at least one
decimal digit, with a value that fits; the error is the message.  The quoting
of special characters inside the message is not modelled. -/
def atoi (s : String) : Except String Int :=
  let digits :=
    if "-".data.isPrefixOf s.data ∨ "+".data.isPrefixOf s.data then s.data.tail else s.data
  if digits = [] then .error ("strconv.Atoi: parsing \"" ++ s ++ "\": invalid syntax")
  else
    match atoiDigits digits 0 with
    | none => .error ("strconv.Atoi: parsing \"" ++ s ++ "\": invalid syntax")
    | some n =>
      if "-".data.isPrefixOf s.data then
        if n ≤ 2 ^ 63 then .ok (-(n : Int))
        else .error ("strconv.Atoi: parsing \"" ++ s ++ "\": value out of range")
      else if n < 2 ^ 63 then .ok (n : Int)
      else .error ("strconv.Atoi: parsing \"" ++ s ++ "\": value out of range")

/-- Lines 514-530: `cronJob` and `newfrequency`, or the error of `Atoi`.
`strings.Split(frequency, "*")` has one piece more than `frequency` has
asterisks. -/
def parseFrequency (frequency : String) : Except String (String × Int) :=
  if frequency.data.count '*' + 1 > 5 then .ok (frequency, 0)
  else
    match atoi frequency with
    | .error err => .error err
    | .ok newfrequency => .ok ("", newfrequency)

/-- Line 547, `strings.Replace(body, "\"", "\\\"", -1)`. -/
def escapeQuotes (body : String) : String :=
  String.join (body.data.map fun c => if c = '"' then "\\\"" else String.singleton c)

/-- Line 548, the body of the request the timer posts. -/
def bodyWrapper (startNode body : String) : String :=
  "\x7b\"start\": \"" ++ startNode ++
    "\", \"execution_source\": \"schedule\", \"execution_argument\": \"" ++
    escapeQuotes body ++ "\"\x7d"

/-- Lines 512-599, `createSchedule`, with the registry of timers and the
store of declarations it leaves behind; the first component is the returned
error, `none` for `nil`.  The parameter `name` of the source is not read. -/
def createSchedule (env : Env) (jobs : Registry) (schedules : ScheduleStore)
    (scheduleId workflowId startNode frequency orgId body : String) :
    Option String × Registry × ScheduleStore :=
  match parseFrequency frequency with
  | .error err => (some err, jobs, schedules)
  | .ok (cronJob, newfrequency) =>
    if cronJob.utf8ByteSize > 0 then (some "cronJob isn't formatted correctly", jobs, schedules)
    else if newfrequency < 1 then (some "Frequency has to be more than 0", jobs, schedules)
    else
      match env.schedulerRunError newfrequency with
      | some err => (some err, jobs, schedules)
      | none =>
        let jobret : Job :=
          { Seconds := newfrequency, WorkflowId := workflowId, OrgId := orgId,
            Body := bodyWrapper startNode body }
        let jobs' := assocPut jobs scheduleId jobret
        let schedule : ScheduleOld :=
          { Id := scheduleId
            WorkflowId := workflowId
            StartNode := startNode
            Argument := body
            WrappedArgument := bodyWrapper startNode body
            Seconds := newfrequency
            CreationTime := env.now
            LastModificationtime := env.now
            LastRuntime := env.now
            Org := orgId
            Environment := "onprem" }
        match setSchedule env schedules schedule with
        | .error err => (some err, jobs', schedules)
        | .ok schedules' => (none, jobs', schedules')

/-- Lines 3352-3370, `deleteSchedule`; `Lock()` on the timer found is recorded
in the registry. -/
def deleteSchedule (env : Env) (jobs : Registry) (schedules : ScheduleStore) (id : String) :
    Option String × Registry × ScheduleStore :=
  match DeleteKey env schedules id with
  | .error err => (some err, jobs, schedules)
  | .ok schedules' =>
    match assocGet jobs id with
    | some value => (none, assocPut jobs id { value with Locked := true }, schedules')
    | none => (some "Can't find the schedule.", jobs, schedules')

/-- Lines 3194-3235 of `stopSchedule`: a schedule that runs in the cloud.  When
`getOrg` fails the handler returns without writing a header, which the server
sends as 200. -/
def stopCloudSchedule (env : Env) (schedules : ScheduleStore) (user : User)
    (workflow : Workflow) (schedule : ScheduleOld) (scheduleId : String) :
    Reply × ScheduleStore :=
  match env.getOrg user.ActiveOrg.Id with
  | .error _ => (.status 200, schedules)
  | .ok apikey =>
    match env.executeCloudAction
        { JobType := "schedule", Action := "stop", OrgId := env.orgIdOf user.ActiveOrg.Id,
          PrimaryItemId := scheduleId, SecondaryItem := schedule.Frequency,
          ThirdItem := workflow.ID } apikey with
    | some _ => (.status 401, schedules)
    | none =>
      match DeleteKey env schedules scheduleId with
      | .error _ => (.status 401, schedules)
      | .ok schedules' => (.status 200, schedules')

/-- Lines 3140-3261, `stopSchedule` from the path segments on: `fileId` is
`location[4]` and `scheduleId` is `location[6]`. -/
def stopSchedule (env : Env) (jobs : Registry) (schedules : ScheduleStore)
    (fileId scheduleId : String) : Reply × Registry × ScheduleStore :=
  match env.apiAuthentication with
  | .error _ => (.status 401, jobs, schedules)
  | .ok user =>
    if fileId.utf8ByteSize ≠ 36 then (.status 401, jobs, schedules)
    else if scheduleId.utf8ByteSize ≠ 36 then (.status 401, jobs, schedules)
    else
      match env.getWorkflow fileId with
      | .error _ => (.status 401, jobs, schedules)
      | .ok workflow =>
        if user.Id ≠ workflow.Owner ∧ user.Role ≠ "admin" ∧ user.Role ≠ "scheduler" then
          (.status 401, jobs, schedules)
        else
          match getSchedule schedules scheduleId with
          | none => (.status 401, jobs, schedules)
          | some schedule =>
            if schedule.Environment = "cloud" then
              ((stopCloudSchedule env schedules user workflow schedule scheduleId).1, jobs,
                (stopCloudSchedule env schedules user workflow schedule scheduleId).2)
            else
              match deleteSchedule env jobs schedules scheduleId with
              | (some err, jobs', schedules') =>
                if stringsContains err "Job not found" then (.status 200, jobs', schedules')
                else (.status 401, jobs', schedules')
              | (none, jobs', schedules') => (.status 200, jobs', schedules')

/-! ## `updateAppAuth` (lines 1685-1737, 5802-5812) -/

/-- The `workflowappauth` kind of the datastore. -/
abbrev AuthStore := List (String × AppAuthenticationStorage)

/-- Lines 5802-5812, `setWorkflowAppAuthDatastore`. -/
def setWorkflowAppAuthDatastore (env : Env) (auths : AuthStore)
    (workflowappauth : AppAuthenticationStorage) (id : String) : Except String AuthStore :=
  match env.authPutError workflowappauth id with
  | some err => .error err
  | none => .ok (assocPut auths id workflowappauth)

/-- The value of an `int64` after an addition: the sum reduced to the range
from `-2^63` to `2^63 - 1`. -/
def wrapInt64 (x : Int) : Int :=
  (x + 2 ^ 63) % 2 ^ 64 - 2 ^ 63

/-- Lines 1687-1705: `(workflowFound, workflowIndex, nodeFound)` after the scan
of the usage from position `index` on; the scan stops at the first entry of the
workflow. -/
def findUsage (workflowId nodeId : String) : List AuthenticationUsage → Nat → Bool × Nat × Bool
  | [], _ => (false, 0, false)
  | workflow :: rest, index =>
    if workflow.WorkflowId = workflowId then
      (true, index, workflow.Nodes.any fun actionId => actionId = nodeId)
    else findUsage workflowId nodeId rest (index + 1)

/-- Line 1721, `auth.Usage[workflowIndex].Nodes = append(..., nodeId)`; `none` is
an index out of range. -/
def appendNode (nodeId : String) : List AuthenticationUsage → Nat →
    Option (List AuthenticationUsage)
  | [], _ => none
  | usage :: rest, 0 => some ({ usage with Nodes := usage.Nodes ++ [nodeId] } :: rest)
  | usage :: rest, index + 1 => (appendNode nodeId rest index).map fun rest' => usage :: rest'

/-- Lines 1687-1725: the credential `updateAppAuth` hands to the datastore;
`.ok none` when `updateAuth` stays false, `.error` for a panic. -/
def updatedAuth (auth : AppAuthenticationStorage) (workflowId nodeId : String) (add : Bool) :
    Except Unit (Option AppAuthenticationStorage) :=
  match findUsage workflowId nodeId auth.Usage 0 with
  | (workflowFound, workflowIndex, nodeFound) =>
    if !workflowFound && add then
      .ok (some { auth with
        Usage := auth.Usage ++ [{ WorkflowId := workflowId, Nodes := [nodeId] }]
        WorkflowCount := wrapInt64 (auth.WorkflowCount + 1)
        NodeCount := wrapInt64 (auth.NodeCount + 1) })
    else if !nodeFound && add then
      match appendNode nodeId auth.Usage workflowIndex with
      | none => .error ()
      | some usage =>
        .ok (some { auth with Usage := usage, NodeCount := wrapInt64 (auth.NodeCount + 1) })
    else .ok none

/-- What `updateAppAuth` comes back with: the returned error (`none` for
`nil`), or a panic. -/
inductive UpdateResult
  | returned (err : Option String)
  | panicked
  deriving DecidableEq, Repr, Inhabited

/-- Lines 1686-1737, `updateAppAuth`, with the store of credentials it leaves
behind. -/
def updateAppAuth (env : Env) (auths : AuthStore) (auth : AppAuthenticationStorage)
    (workflowId nodeId : String) (add : Bool) : UpdateResult × AuthStore :=
  match updatedAuth auth workflowId nodeId add with
  | .error _ => (.panicked, auths)
  | .ok none => (.returned none, auths)
  | .ok (some written) =>
    match setWorkflowAppAuthDatastore env auths written written.Id with
    | .error err => (.returned (some err), auths)
    | .ok auths' => (.returned none, auths')

/-! ## `saveWorkflow` (lines 1740-2256, 3786-3844) -/

/-- The `workflow` kind of the datastore. -/
abbrev WorkflowStore := List (String × Workflow)

/-- Lines 3786-3794, `getWorkflow`, on the store; `none` is the error. -/
def getWorkflow (env : Env) (workflows : WorkflowStore) (id : String) : Option Workflow :=
  assocGet workflows (env.toLower id)

/-- Lines 3834-3844, `setWorkflow`. -/
def setWorkflow (env : Env) (workflows : WorkflowStore) (workflow : Workflow) (id : String) :
    Except String WorkflowStore :=
  match env.workflowPutError workflow id with
  | some err => .error err
  | none => .ok (assocPut workflows id workflow)

/-- Lines 1840-1866: the first pass over the actions; `none` is a return with
401.  The errors an action came with are cleared. -/
def resetActions : List Action → List Action → Option (List Action)
  | [], newActions => some newActions
  | action :: rest, newActions =>
    let action :=
      if action.Errors.length > 0 then { action with IsValid := true, Errors := [] }
      else action
    if action.Environment = "" then none
    else if action.IsValid = false ∧ action.Errors.length > 0 then none
    else resetActions rest (newActions ++ [action])

/-- Lines 1872-1938: one trigger; `none` is a return with 401. -/
def checkTrigger (env : Env) (schedules : ScheduleStore) (trigger : Trigger) : Option Trigger :=
  if trigger.TriggerType = "SCHEDULE" ∧ trigger.Status ≠ "uninitialized" then
    match getSchedule schedules trigger.ID with
    | none => some { trigger with Status := "stopped" }
    | some schedule =>
      if schedule.Id = "" then some { trigger with Status := "stopped" } else some trigger
  else if trigger.TriggerType = "WEBHOOK" ∧ trigger.Status ≠ "uninitialized" then
    match env.getHook trigger.ID with
    | none => some { trigger with Status := "stopped" }
    | some hookId =>
      if hookId = "" then some { trigger with Status := "stopped" } else some trigger
  else if trigger.TriggerType = "USERINPUT" then
    match userInputParameters trigger.Parameters ("", "", "", "") with
    | (sms, email, triggerType, _) =>
      if triggerType.utf8ByteSize = 0 then none
      else if stringsContains triggerType "email" ∧ email = "test@test.com" then none
      else if stringsContains triggerType "sms" ∧ sms = "0000000" then none
      else some trigger
  else some trigger

/-- Lines 1871-1943: the pass over the triggers; `none` is a return with 401. -/
def checkTriggers (env : Env) (schedules : ScheduleStore) :
    List Trigger → List Trigger → Option (List Trigger)
  | [], newTriggers => some newTriggers
  | trigger :: rest, newTriggers =>
    match checkTrigger env schedules trigger with
    | none => none
    | some trigger => checkTriggers env schedules rest (newTriggers ++ [trigger])

/-- Lines 1980-1991: the nodes that are an end of some branch. -/
def foundNodes (branches : List Branch) (allNodes : List String) : List String :=
  allNodes.filter fun node =>
    branches.any fun branch => node = branch.DestinationID ∨ node = branch.SourceID

/-- Lines 1994-2028: a workflow that came in as invalid and has a node without
a branch, or no action, marks the stored workflow invalid; `none` is a return
with 401. -/
def markInvalid (env : Env) (workflows : WorkflowStore) (fileId : String)
    (workflow : Workflow) (allNodes : List String) : Option WorkflowStore :=
  if (foundNodes workflow.Branches allNodes).length ≠ allNodes.length ∨
      workflow.Actions.length ≤ 0 then
    if workflow.IsValid = false then
      match getWorkflow env workflows fileId with
      | none => none
      | some oldworkflow =>
        match setWorkflow env workflows { oldworkflow with IsValid := false } fileId with
        | .error _ => none
        | .ok workflows' => some workflows'
    else some workflows
  else some workflows

/-- Lines 2051-2067: the start node has to be among the actions, and the first
action is flagged as start node; `none` is a return with 401. -/
def flagStartNode (workflow : Workflow) : Option Workflow :=
  match workflow.Actions with
  | [] => some workflow
  | first :: rest =>
    if workflow.Actions.any (fun action => workflow.Start = action.ID) then
      some { workflow with Actions := { first with IsStartNode := true } :: rest }
    else none

/-- Lines 2176-2210: the parameters of the app action as the workflow action
fills them; `none` is a return with 401. -/
def checkParameters (action : Action) :
    List WorkflowAppActionParameter → List WorkflowAppActionParameter →
      Option (List WorkflowAppActionParameter)
  | [], newParams => some newParams
  | param :: rest, newParams =>
    match action.Parameters.find? (fun actionParam => actionParam.Name = param.Name) with
    | some actionParam =>
      if actionParam.Value = "" ∧ actionParam.Variant = "STATIC_VALUE" ∧
          actionParam.Required = true then none
      else
        checkParameters action rest
          (newParams ++ [if actionParam.Variant = "" then
            { actionParam with Variant := "STATIC_VALUE" } else actionParam])
    | none => if param.Required then none else checkParameters action rest newParams

/-- Lines 2098-2122: an action whose authentication id is the id of no
credential of the organisation; the state is the errors and the validity of
the workflow, and the action. -/
def checkAuth (allAuths : List AppAuthenticationStorage) (action : Action)
    (errors : List String) (isValid : Bool) : List String × Bool × Action :=
  if action.AuthenticationId.utf8ByteSize > 0 then
    if allAuths.any (fun auth => auth.Id = action.AuthenticationId) then
      (errors, isValid, action)
    else
      (errors ++ ["App authentication for " ++ action.AppName ++ " doesn't exist!"], false,
        { action with
          Errors := action.Errors ++ ["App authentication doesn't exist"]
          IsValid := false
          AuthenticationId := "" })
  else (errors, isValid, action)

/-- Lines 2127-2140: the app of an action, the empty app when there is none. -/
def findApp (workflowApps : List WorkflowApp) (action : Action) : WorkflowApp :=
  (workflowApps.find? fun app =>
    app.ID = action.AppID ∨ (app.Name = action.AppName ∧ app.AppVersion = action.AppVersion)).getD
    {}

/-- Lines 2079-2216: the second pass over the actions; the state is the errors
and the validity of the workflow and `newActions`, `none` is a return with
401.  The goroutine of line 2105 writes to the credential kind only; it is
`updateAppAuth` and is not run here. -/
def checkActions (allAuths : List AppAuthenticationStorage) (workflowApps : List WorkflowApp) :
    List Action → List String → Bool → List Action → Option (List String × Bool × List Action)
  | [], errors, isValid, newActions => some (errors, isValid, newActions)
  | action :: rest, errors, isValid, newActions =>
    let builtin := ["0ca8887e-b4af-4e3e-887c-87e9d3bc3d3e"].any fun id => id = action.AppID
    match checkAuth allAuths action errors isValid with
    | (errors, isValid, action) =>
      if builtin then
        checkActions allAuths workflowApps rest errors isValid (newActions ++ [action])
      else
        let curapp := findApp workflowApps action
        if curapp.Name ≠ action.AppName then
          checkActions allAuths workflowApps rest
            (errors ++ ["App " ++ action.AppName ++ " doesn't exist"]) false
            (newActions ++
              [{ action with Errors := action.Errors ++ ["This app doesn't exist."],
                             IsValid := false }])
        else
          let curappaction : WorkflowAppAction :=
            (curapp.Actions.find? fun curAction => action.Name = curAction.Name).getD {}
          if curappaction.Name ≠ action.Name then none
          else
            match checkParameters action curappaction.Parameters [] with
            | none => none
            | some newParams =>
              checkActions allAuths workflowApps rest errors isValid
                (newActions ++ [{ action with Parameters := newParams }])

/-- Lines 1824-2228 of `saveWorkflow`, from the decoded workflow on; `none` is
a return with 401, with the store as it is then.  An error of
`getAllWorkflowAppAuth` is not looked at (line 2070 tests `userErr`), the list
is empty then. -/
def validateWorkflow (env : Env) (workflows : WorkflowStore) (schedules : ScheduleStore)
    (user : User) (fileId : String) (workflow : Workflow) : Reply × WorkflowStore :=
  let workflow := if workflow.Owner = "" then { workflow with Owner := user.Id } else workflow
  let workflow :=
    if workflow.ExecutingOrg.Id.utf8ByteSize = 0 then
      { workflow with ExecutingOrg := user.ActiveOrg }
    else workflow
  let allNodes := workflow.Actions.map fun action => action.ID
  match resetActions workflow.Actions [] with
  | none => (.status 401, workflows)
  | some newActions =>
    let workflow := { workflow with Actions := newActions }
    match checkTriggers env schedules workflow.Triggers [] with
    | none => (.status 401, workflows)
    | some newTriggers =>
      let allNodes := allNodes ++ workflow.Triggers.map fun trigger => trigger.ID
      let workflow := { workflow with Triggers := newTriggers }
      if workflow.WorkflowVariables.any (fun item => item.Value.utf8ByteSize = 0) then
        (.status 401, workflows)
      else
        match markInvalid env workflows fileId workflow allNodes with
        | none => (.status 401, workflows)
        | some workflows =>
          match env.getAllWorkflowApps with
          | .error _ => (.status 401, workflows)
          | .ok workflowApps =>
            match flagStartNode workflow with
            | none => (.status 401, workflows)
            | some workflow =>
              let allAuths :=
                match env.getAllWorkflowAppAuth user.ActiveOrg.Id with
                | .ok allAuths => allAuths
                | .error _ => []
              match checkActions allAuths workflowApps workflow.Actions workflow.Errors
                  workflow.IsValid [] with
              | none => (.status 401, workflows)
              | some (errors, _, newActions) =>
                match setWorkflow env workflows
                    { workflow with Actions := newActions, Errors := errors, IsValid := true }
                    fileId with
                | .error _ => (.status 401, workflows)
                | .ok workflows' => (.status 200, workflows')

/-- Lines 1747-2256, `saveWorkflow` from the path segment on: `fileId` is
`location[4]` and `body` the workflow decoded from the request body, `none`
when the body cannot be read or decoded. -/
def saveWorkflow (env : Env) (workflows : WorkflowStore) (schedules : ScheduleStore)
    (fileId : String) (body : Option Workflow) : Reply × WorkflowStore :=
  match env.apiAuthentication with
  | .error _ => (.status 401, workflows)
  | .ok user =>
    if fileId.utf8ByteSize ≠ 36 then (.status 401, workflows)
    else
      match getWorkflow env workflows fileId with
      | none => (.status 401, workflows)
      | some tmpworkflow =>
        if user.Id ≠ tmpworkflow.Owner ∧ user.Role ≠ "admin" then (.status 401, workflows)
        else
          match body with
          | none => (.status 401, workflows)
          | some workflow =>
            if fileId ≠ workflow.ID then (.status 401, workflows)
            else validateWorkflow env workflows schedules user fileId workflow

/-! ## Predicates used in the statements -/

/-- The guard of lines 893-913: the statuses on which ingestion stops. -/
def rejectsSubmit (workflowExecution : WorkflowExecution) : Prop :=
  workflowExecution.Status = "FINISHED" ∨
    ((workflowExecution.Status = "ABORTED" ∨ workflowExecution.Status = "FAILURE") ∧
      workflowExecution.Workflow.Configuration.ExitOnError = true)

/-- The status with which an execution leaves the failure block (lines 972-974):
the submitted status when that is ABORTED or FAILURE and `exit_on_error` is
set, the old status otherwise. -/
def statusAfterFailure (workflowExecution : WorkflowExecution)
    (actionResult : ActionResult) : String :=
  if (actionResult.Status = "ABORTED" ∨ actionResult.Status = "FAILURE") ∧
      workflowExecution.Workflow.Configuration.ExitOnError = true
  then actionResult.Status else workflowExecution.Status

/-- The branches into the action of `result` whose source has, among
`results`, a result that is neither SKIPPED nor FAILURE: the branches on which
the reconciliation (lines 1120-1135) removes an entry. -/
def blockingBranches (branches : List Branch) (results : List ActionResult)
    (result : ActionResult) : List Branch :=
  branches.filter fun branch =>
    branch.DestinationID = result.Action.ID ∧ parentNotSkipped results branch.SourceID

/-- The number of removals the reconciliation performs when it reads `result`
while the slice is `results`: none unless the result is SKIPPED. -/
def removalCount (branches : List Branch) (results : List ActionResult)
    (result : ActionResult) : Nat :=
  if result.Status = "SKIPPED" then (blockingBranches branches results result).length else 0

/-- The removals asked for by all entries of `results` together. -/
def pendingRemovals (branches : List Branch) (results : List ActionResult) : Nat :=
  (results.map (removalCount branches results)).sum

/-- Every branch into a SKIPPED result starts at an action that has a result
with status SKIPPED or FAILURE (invariant 4 of the specification). -/
def skippedParentsSettled (workflowExecution : WorkflowExecution) : Prop :=
  ∀ result ∈ workflowExecution.Results, result.Status = "SKIPPED" →
    ∀ branch ∈ workflowExecution.Workflow.Branches,
      branch.DestinationID = result.Action.ID →
        ∃ parent ∈ workflowExecution.Results, parent.Action.ID = branch.SourceID ∧
          (parent.Status = "SKIPPED" ∨ parent.Status = "FAILURE")

instance (workflowExecution : WorkflowExecution) :
    Decidable (skippedParentsSettled workflowExecution) := by
  unfold skippedParentsSettled
  infer_instance

/-- Every result of an action from which a branch leads into a SKIPPED result
has status SKIPPED or FAILURE; the action may have no result. -/
def skippedParentsNotRun (workflowExecution : WorkflowExecution) : Prop :=
  ∀ result ∈ workflowExecution.Results, result.Status = "SKIPPED" →
    ∀ branch ∈ workflowExecution.Workflow.Branches,
      branch.DestinationID = result.Action.ID →
        ∀ parent ∈ workflowExecution.Results, parent.Action.ID = branch.SourceID →
          parent.Status = "SKIPPED" ∨ parent.Status = "FAILURE"

instance (workflowExecution : WorkflowExecution) :
    Decidable (skippedParentsNotRun workflowExecution) := by
  unfold skippedParentsNotRun
  infer_instance

/-- The last non-empty payload among `results`, in the words of the
specification: the payload of the last result whose payload has positive
length, the empty string when there is none. -/
def lastNonEmptyPayload (results : List ActionResult) : String :=
  (((results.filter fun result => result.Result.utf8ByteSize > 0).getLast?).map
    fun result => result.Result).getD ""

/-- A branch of the workflow leads from node `a` to node `b`. -/
def branchStep (branches : List Branch) (a b : String) : Prop :=
  ∃ branch ∈ branches, branch.SourceID = a ∧ branch.DestinationID = b

/-- Node `b` is reached from node `a` by following branches from source to
destination in zero or more steps: `b` is in `descendants(a)`. -/
def reachable (branches : List Branch) (a b : String) : Prop :=
  Relation.ReflTransGen (branchStep branches) a b

/-- No node is reached from itself in one or more steps. -/
def acyclic (branches : List Branch) : Prop :=
  ∀ a, ¬ Relation.TransGen (branchStep branches) a a

/-- The results on which the termination check of a submit runs: the results
after the merge and the reconciliation.  `none` when the submit does not get
there: a WAITING "User Input" result is stored before (lines 915-965), and the
handler does not come back from `findChildNodes` or from a panic of the
reconciliation. -/
def resultsAtCheck (fuel : Nat) (workflowExecution : WorkflowExecution)
    (actionResult : ActionResult) : Option (List ActionResult) :=
  if actionResult.Status = "WAITING" ∧ actionResult.Action.AppName = "User Input" then none
  else
    match mergeStage fuel workflowExecution actionResult with
    | none => none
    | some merged => reconcileSkipped merged.Workflow.Branches merged.Results

/-- The termination condition in the words of the specification: as many
results as the workflow has actions plus the results of "User Input" nodes, no
result EXECUTING, and no SKIPPED result below a parent whose result is neither
SKIPPED nor FAILURE. -/
def terminationCondition (workflow : Workflow) (results : List ActionResult) : Prop :=
  results.length = workflow.Actions.length +
      (results.filter fun result =>
        result.Action.Name = "User Input" ∧ result.Action.AppName = "User Input").length ∧
    (∀ result ∈ results, result.Status ≠ "EXECUTING") ∧
    ∀ result ∈ results, result.Status = "SKIPPED" →
      ∀ branch ∈ workflow.Branches, branch.DestinationID = result.Action.ID →
        ∀ parent ∈ results, parent.Action.ID = branch.SourceID →
          parent.Status = "SKIPPED" ∨ parent.Status = "FAILURE"

instance (workflow : Workflow) (results : List ActionResult) :
    Decidable (terminationCondition workflow results) := by
  unfold terminationCondition
  infer_instance

/-- A request that starts an execution anew and does not continue a reference
execution: a POST, or a request without the query key `reference_execution`. -/
def freshStart (request : StartRequest) : Prop :=
  request.Method = "POST" ∨ request.referenceExecution = none

instance (request : StartRequest) : Decidable (freshStart request) := by
  unfold freshStart; infer_instance

/-- The frequency string parses as an integer that is at least 1. -/
def positiveFrequency (frequency : String) : Bool :=
  match atoi frequency with
  | .ok n => decide (1 ≤ n)
  | .error _ => false

/-- The counters of a credential agree with its usage: `workflow_count` is the
number of usage entries and `node_count` the number of nodes in all of them. -/
def usageInvariant (auth : AppAuthenticationStorage) : Prop :=
  auth.WorkflowCount = auth.Usage.length ∧
    auth.NodeCount = ((auth.Usage.map fun usage => usage.Nodes.length).sum : Nat)

instance (auth : AppAuthenticationStorage) : Decidable (usageInvariant auth) := by
  unfold usageInvariant; infer_instance

/-- The datastore after the results of a list were submitted one after the
other, whatever the answers were. -/
def submitEach (fuel : Nat) (env : Env) : Datastore → List ActionResult → Datastore
  | db, [] => db
  | db, actionResult :: rest =>
    submitEach fuel env (handleWorkflowQueue fuel env db actionResult).2 rest

/-- The results stored for an execution, each as the id of its action and its
status. -/
def storedStatuses (db : Datastore) (id : String) : List (String × String) :=
  match dbGet db id with
  | none => []
  | some workflowExecution =>
    workflowExecution.Results.map fun result => (result.Action.ID, result.Status)

/-- The requests of `data` whose pair of execution id and workflow id is the
pair of no request of `removeData`, in their order in `data`. -/
def unacknowledged (removeData data : List ExecutionRequest) : List ExecutionRequest :=
  data.filter fun execution =>
    ∀ removeExecution ∈ removeData,
      ¬ (removeExecution.ExecutionId = execution.ExecutionId ∧
        removeExecution.WorkflowId = execution.WorkflowId)

/-! ## Concrete workflows and executions -/

def demoId : String := "11111111-2222-3333-4444-555555555555"

def actionA : Action := { ID := "A", Name := "fetch", AppName := "http" }
def actionB : Action := { ID := "B", Name := "parse", AppName := "tools" }
def actionC : Action := { ID := "C", Name := "notify", AppName := "email" }

def successA : ActionResult :=
  { Action := actionA, ExecutionId := demoId, Authorization := "key-1", Status := "SUCCESS",
    Result := "done" }

/-- One action, no branch. -/
def singleWorkflow : Workflow :=
  { ID := "w1", Owner := "owner-1", Start := "A", Actions := [actionA] }

def runningSingle : WorkflowExecution :=
  { ExecutionId := demoId, Authorization := "key-1", Status := "EXECUTING",
    Workflow := singleWorkflow,
    Results := [{ Action := actionA, ExecutionId := demoId, Authorization := "key-1",
                  Status := "EXECUTING" }] }

def finishedSingle : WorkflowExecution :=
  { runningSingle with
    Status := "FINISHED"
    Results := [successA] }

/-- The execution `runningSingle` after the result `successA` came in. -/
def succeededSingle : WorkflowExecution :=
  { runningSingle with
    Status := "FINISHED", Result := "done", LastNode := "A", Results := [successA] }

def abortedSingle : WorkflowExecution := { runningSingle with Status := "ABORTED", Results := [] }

def failureB : ActionResult :=
  { Action := actionB, ExecutionId := demoId, Authorization := "key-1", Status := "FAILURE",
    Result := "connection refused" }

def forgedA : ActionResult := { successA with Authorization := "guess" }

/-- Three actions in a line, `exit_on_error` set. -/
def lineWorkflowExit : Workflow :=
  { ID := "w2", Owner := "owner-1", Start := "A", Actions := [actionA, actionB, actionC],
    Branches :=
      [{ SourceID := "A", DestinationID := "B" }, { SourceID := "B", DestinationID := "C" }],
    Configuration := { ExitOnError := true } }

def failedExit : WorkflowExecution :=
  { ExecutionId := demoId, Authorization := "key-1", Status := "FAILURE", LastNode := "B",
    Workflow := lineWorkflowExit,
    Results := [successA, failureB] }

def failureA : ActionResult :=
  { Action := actionA, ExecutionId := demoId, Authorization := "key-1", Status := "FAILURE",
    Result := "connection refused" }

/-- Three actions, one branch A → B, `exit_on_error` not set. -/
def forkWorkflow : Workflow :=
  { ID := "w3", Owner := "owner-1", Start := "A", Actions := [actionA, actionB, actionC],
    Branches := [{ SourceID := "A", DestinationID := "B" }] }

/-- A fresh execution of `forkWorkflow`. -/
def runningFork : WorkflowExecution :=
  { ExecutionId := demoId, Authorization := "key-1", Status := "EXECUTING",
    Workflow := forkWorkflow }

/-- Two actions A → B; A binds its result to the execution variable `ip`. -/
def pairWorkflow : Workflow :=
  { ID := "w4", Owner := "owner-1", Start := "A",
    Actions := [{ actionA with ExecutionVariable := { Name := "ip" } }, actionB],
    Branches := [{ SourceID := "A", DestinationID := "B" }],
    ExecutionVariables := [{ Name := "ip" }] }

/-- A fresh execution of `pairWorkflow`. -/
def runningPair : WorkflowExecution :=
  { ExecutionId := demoId, Authorization := "key-1", Status := "EXECUTING",
    Workflow := pairWorkflow, ExecutionVariables := [{ Name := "ip" }] }

def boundA : ActionResult :=
  { Action := { actionA with ExecutionVariable := { Name := "ip" } }, ExecutionId := demoId,
    Authorization := "key-1", Status := "SUCCESS", Result := "10.0.0.1" }

/-- A fresh execution of `lineWorkflowExit`. -/
def runningExit : WorkflowExecution :=
  { ExecutionId := demoId, Authorization := "key-1", Status := "EXECUTING",
    Workflow := lineWorkflowExit, Results := [successA] }

def actionD : Action := { ID := "D", Name := "close", AppName := "ticket" }

/-- A → C, B → C, C → D, `exit_on_error` not set. -/
def joinWorkflow : Workflow :=
  { ID := "w5", Owner := "owner-1", Start := "A",
    Actions := [actionA, actionB, actionC, actionD],
    Branches := [{ SourceID := "A", DestinationID := "C" },
      { SourceID := "B", DestinationID := "C" }, { SourceID := "C", DestinationID := "D" }] }

/-- A fresh execution of `joinWorkflow`. -/
def runningJoin : WorkflowExecution :=
  { ExecutionId := demoId, Authorization := "key-1", Status := "EXECUTING",
    Workflow := joinWorkflow }

/-- What the submit of `failureA` stores for `runningJoin`. -/
def failedJoin : WorkflowExecution :=
  { runningJoin with
    Results :=
      [{ Action := actionD, ExecutionId := demoId, Authorization := "key-1",
         Result := "Skipped because of previous node", Status := "SKIPPED" }, failureA] }

/-- The execution `runningFork` after the result `failureA` came in: B is
skipped below the failed A. -/
def skippedFork : WorkflowExecution :=
  { runningFork with
    Results :=
      [{ Action := actionB, ExecutionId := demoId, Authorization := "key-1",
         Result := "Skipped because of previous node", Status := "SKIPPED" }, failureA] }

/-- The execution `skippedFork` after the merge of `successA`. -/
def mergedFork : WorkflowExecution :=
  { runningFork with
    Results :=
      [{ Action := actionB, ExecutionId := demoId, Authorization := "key-1",
         Result := "Skipped because of previous node", Status := "SKIPPED" }, successA] }

/-- An execution of `forkWorkflow` that already carries a workflow-level
result while it is still running. -/
def annotatedFork : WorkflowExecution :=
  { runningFork with Result := "connection refused", Results := [successA] }

def requestOne : ExecutionRequest :=
  { ExecutionId := demoId, WorkflowId := "w1", Authorization := "key-1",
    Environments := ["onprem"] }

def requestTwo : ExecutionRequest :=
  { ExecutionId := "66666666-7777-8888-9999-000000000000", WorkflowId := "w1",
    Authorization := "key-2", Environments := ["onprem"] }

def requestThree : ExecutionRequest := { requestOne with WorkflowId := "w2" }

/-- A queue in which `requestOne` waits twice. -/
def demoQueues : QueueStore := [("onprem", [requestOne, requestTwo, requestOne, requestThree])]

/-- A diamond A → B → D, A → C → D in which the branch A → B is listed twice. -/
def diamondWorkflow : Workflow :=
  { ID := "w6", Owner := "owner-1", Start := "A",
    Actions := [actionA, actionB, actionC, actionD],
    Branches :=
      [{ SourceID := "A", DestinationID := "B" }, { SourceID := "A", DestinationID := "C" },
       { SourceID := "B", DestinationID := "D" }, { SourceID := "C", DestinationID := "D" },
       { SourceID := "A", DestinationID := "B" }] }

/-- A fresh execution of `diamondWorkflow`. -/
def runningDiamond : WorkflowExecution :=
  { ExecutionId := demoId, Authorization := "key-1", Status := "EXECUTING",
    Workflow := diamondWorkflow }

/-- A position of the nodes A to D that falls along every branch of
`diamondWorkflow`. -/
def demoRank (node : String) : Nat :=
  if node = "A" then 3 else if node = "B" then 2 else if node = "C" then 1 else 0

def successB : ActionResult :=
  { Action := actionB, ExecutionId := demoId, Authorization := "key-1", Status := "SUCCESS",
    Result := "parsed" }

def successC : ActionResult :=
  { Action := actionC, ExecutionId := demoId, Authorization := "key-1", Status := "SUCCESS",
    Result := "mail sent" }

def failureC : ActionResult :=
  { Action := actionC, ExecutionId := demoId, Authorization := "key-1", Status := "FAILURE",
    Result := "smtp timeout" }

/-- An execution of `lineWorkflowExit` in which only C is outstanding. -/
def nearlyDoneExit : WorkflowExecution :=
  { ExecutionId := demoId, Authorization := "key-1", Status := "EXECUTING",
    Workflow := lineWorkflowExit, Results := [successA, successB] }

/-- The execution `nearlyDoneExit` after the result `successC` came in. -/
def doneExit : WorkflowExecution :=
  { nearlyDoneExit with
    Status := "FINISHED", Result := "mail sent", LastNode := "C",
    Results := [successA, successB, successC] }

/-- An action without an id. -/
def blankAction : Action := { ID := "", Name := "draft", AppName := "tools" }

/-- Action A with a branch to an action whose id is empty. -/
def blankWorkflow : Workflow :=
  { ID := "w8", Owner := "owner-1", Start := "A", Actions := [actionA, blankAction],
    Branches := [{ SourceID := "A", DestinationID := "" }] }

/-- A fresh execution of `blankWorkflow`. -/
def runningBlank : WorkflowExecution :=
  { ExecutionId := demoId, Authorization := "key-1", Status := "EXECUTING",
    Workflow := blankWorkflow }

/-- A → B with a branch from B to itself. -/
def tailLoopWorkflow : Workflow :=
  { ID := "w9", Owner := "owner-1", Start := "A", Actions := [actionA, actionB],
    Branches := [{ SourceID := "A", DestinationID := "B" },
      { SourceID := "B", DestinationID := "B" }] }

/-- A fresh execution of `tailLoopWorkflow`. -/
def runningTailLoop : WorkflowExecution :=
  { ExecutionId := demoId, Authorization := "key-1", Status := "EXECUTING",
    Workflow := tailLoopWorkflow }

/-- A node that runs in the environment `onprem`. -/
def envAction (id : String) : Action :=
  { ID := id, Name := id, Label := id, AppName := "Shuffle Tools", AppVersion := "1.0.0",
    Environment := "onprem" }

/-- The node `X` with a parameter `apikey` bound to the credential `cred-1`. -/
def authAction : Action :=
  { envAction "X" with
    AuthenticationId := "cred-1"
    Parameters := [{ Name := "apikey", Value := "" }, { Name := "url", Value := "https://example.org" }] }

/-- The chain `W → X → Y → Z` with the start node `W`; `X` uses a credential. -/
def chainWorkflow : Workflow :=
  { ID := "workflow-1", Name := "chain", IsValid := true, Start := "W"
    ExecutingOrg := { Id := "org-1", Name := "org" }
    Actions := [envAction "W", authAction, envAction "Y", envAction "Z"]
    Branches := [{ SourceID := "W", DestinationID := "X" }, { SourceID := "X", DestinationID := "Y" },
      { SourceID := "Y", DestinationID := "Z" }] }

/-- An organisation with one environment and the credential `cred-1`, whose
field `apikey` has the given value. -/
def startEnv (secret : String) : Env :=
  { now := 1700000000
    newExecutionId := demoId
    newAuthorization := "authorization-1"
    getAllWorkflowAppAuth := fun _ =>
      .ok [{ Id := "cred-1", Label := "credential", Active := true,
             Fields := [{ Key := "apikey", Value := secret }] }]
    getEnvironments := fun _ => .ok [{ Name := "onprem", EnvironmentType := "onprem" }] }

/-- A request to start at the node `Y`. -/
def startAtY : StartRequest := { Method := "GET", start := some "Y" }

/-- The actions of `chainWorkflow` as a start stores them when the field
`apikey` of the credential has the given value. -/
def chainStored (secret : String) : List Action :=
  [envAction "W",
   { authAction with
     Parameters := [{ Name := "apikey", Value := secret },
       { Name := "url", Value := "https://example.org" }] },
   envAction "Y", envAction "Z"]

/-- The execution a start of `chainWorkflow` at `Y` stores in `startEnv`. -/
def startedAtY (secret : String) : WorkflowExecution :=
  { ExecutionType := "workflow"
    Status := "EXECUTING"
    Start := "Y"
    ExecutionId := demoId
    ExecutionSource := "default"
    ExecutionOrg := "org-1"
    WorkflowId := "workflow-1"
    Authorization := "authorization-1"
    StartedAt := 1700000000
    Locations := ["europe-west2"]
    Workflow := { chainWorkflow with Actions := chainStored secret }
    Results :=
      [{ Action := envAction "W", ExecutionId := demoId, Authorization := "authorization-1",
         Result := "Skipped because it's not under the startnode", Status := "SKIPPED" },
       { Action := { authAction with
           Parameters := [{ Name := "apikey", Value := secret },
             { Name := "url", Value := "https://example.org" }] },
         ExecutionId := demoId, Authorization := "authorization-1",
         Result := "Skipped because it's not under the startnode", Status := "SKIPPED" }] }

/-- The queue of the environment `onprem` after that start. -/
def queuedAtY : QueueStore :=
  [("onprem", [{ ExecutionId := demoId, WorkflowId := "workflow-1",
                 Authorization := "authorization-1", Environments := ["onprem"] }])]

/-- The queue of `onprem` after a worker drained it. -/
def drainedQueues : QueueStore := [("onprem", [])]

/-- The organisation of `startEnv` at a time when the queue store refuses
every write. -/
def brokenQueueEnv : Env :=
  { startEnv "s3cret" with queuePutError := fun _ _ => some "datastore: deadline exceeded" }

/-- The declaration stored with `minuteJob` at the time 1700000000. -/
def minuteSchedule : ScheduleOld :=
  { Id := "schedule-1", WorkflowId := "w1", StartNode := "A", Argument := "ping",
    WrappedArgument := bodyWrapper "A" "ping", Seconds := 60, CreationTime := 1700000000,
    LastModificationtime := 1700000000, LastRuntime := 1700000000, Org := "org-1",
    Environment := "onprem" }

/-- The id of a schedule that has a declaration and no timer. -/
def orphanId : String := "aaaaaaaa-bbbb-cccc-dddd-eeeeeeeeeeee"

/-- The store with the declaration of `orphanId` only. -/
def orphanSchedules : ScheduleStore := [(orphanId, { minuteSchedule with Id := orphanId })]

/-- A session of an admin, and the workflow `demoId` in the store. -/
def scheduleAdminEnv : Env :=
  { apiAuthentication := .ok { Username := "admin", Id := "admin-1", Role := "admin" }
    getWorkflow := fun id => .ok { ID := id, Owner := "owner-1", IsValid := true } }

/-- The credential `cred-1`, used by the node `X` of the workflow `workflow-1`. -/
def usedCredential : AppAuthenticationStorage :=
  { Id := "cred-1", Label := "credential", Active := true, OrgId := "org-1",
    Fields := [{ Key := "apikey", Value := "s3cret" }],
    Usage := [{ WorkflowId := "workflow-1", Nodes := ["X"] }],
    WorkflowCount := 1, NodeCount := 1 }

/-- The built-in action `Z` bound to a credential `cred-9` that the
organisation does not have. -/
def orphanAuthAction : Action :=
  { ID := "Z", Name := "repeat_back_to_me", Label := "Z", AppName := "Shuffle Tools",
    AppVersion := "1.0.0", AppID := "0ca8887e-b4af-4e3e-887c-87e9d3bc3d3e",
    Environment := "onprem", IsValid := true, AuthenticationId := "cred-9" }

/-- A workflow with that action only, as the editor sends it. -/
def orphanAuthWorkflow : Workflow :=
  { ID := demoId, Name := "orphan", Owner := "owner-1", Start := "Z", IsValid := true,
    ExecutingOrg := { Id := "org-1", Name := "org" },
    Actions := [orphanAuthAction] }

/-- A session of the owner in an organisation without credentials. -/
def saveEnv : Env :=
  { apiAuthentication :=
      .ok { Username := "owner", Id := "owner-1", Role := "user",
            ActiveOrg := { Id := "org-1", Name := "org" } }
    getAllWorkflowAppAuth := fun _ => .ok [] }

/-- The store with an earlier, empty version of the workflow. -/
def savedWorkflows : WorkflowStore :=
  [(demoId, { ID := demoId, Name := "orphan", Owner := "owner-1", IsValid := true })]

/-- A fan A → B, A → C next to a node D of its own, `exit_on_error` not set. -/
def fanWorkflow : Workflow :=
  { ID := "w10", Owner := "owner-1", Start := "A",
    Actions := [actionA, actionB, actionC, actionD],
    Branches := [{ SourceID := "A", DestinationID := "B" },
      { SourceID := "A", DestinationID := "C" }] }

/-- A fresh execution of `fanWorkflow`. -/
def runningFan : WorkflowExecution :=
  { ExecutionId := demoId, Authorization := "key-1", Status := "EXECUTING",
    Workflow := fanWorkflow }

/-- A join A → C, B → C next to a node D of its own, `exit_on_error` not set. -/
def sideWorkflow : Workflow :=
  { ID := "w11", Owner := "owner-1", Start := "A",
    Actions := [actionA, actionB, actionC, actionD],
    Branches := [{ SourceID := "A", DestinationID := "C" },
      { SourceID := "B", DestinationID := "C" }] }

/-- A fresh execution of `sideWorkflow`. -/
def runningSide : WorkflowExecution :=
  { ExecutionId := demoId, Authorization := "key-1", Status := "EXECUTING",
    Workflow := sideWorkflow }

/-- The result a worker sends when it starts C. -/
def executingC : ActionResult :=
  { Action := actionC, ExecutionId := demoId, Authorization := "key-1", Status := "EXECUTING" }

/-- The result a worker sends when it starts D. -/
def executingD : ActionResult :=
  { Action := actionD, ExecutionId := demoId, Authorization := "key-1", Status := "EXECUTING" }

/-- The result a worker sends when it skips C. -/
def skippedC : ActionResult :=
  { Action := actionC, ExecutionId := demoId, Authorization := "key-1", Status := "SKIPPED",
    Result := "Skipped because of condition" }

/-- The SKIPPED result the failure of a parent stores for an action. -/
def skippedBelow (action : Action) : ActionResult :=
  { Action := action, ExecutionId := demoId, Authorization := "key-1",
    Result := "Skipped because of previous node", Status := "SKIPPED" }

theorem dbGet_dbPut (db : Datastore) (key : String) (e : WorkflowExecution) :
    dbGet (dbPut db key e) key = some e := by
  induction db with
  | nil => simp [dbPut, dbGet]
  | cons kv rest ih =>
    obtain ⟨k, v⟩ := kv
    by_cases h : k = key
    · simp [dbPut, dbGet, h]
    · simp [dbPut, dbGet, h, ih]

theorem handleWorkflowQueue_of_rejects (fuel : Nat) (env : Env) (db : Datastore)
    (actionResult : ActionResult) (workflowExecution : WorkflowExecution)
    (hget : getWorkflowExecution env db actionResult.ExecutionId = some workflowExecution)
    (hterm : rejectsSubmit workflowExecution) :
    handleWorkflowQueue fuel env db actionResult = (.status 401, db) := by
  unfold handleWorkflowQueue
  rw [hget]
  simp only
  rcases hterm with h | h
  · split_ifs <;> rfl
  · split_ifs <;> rfl

theorem handleWorkflowQueue_of_mismatch (fuel : Nat) (env : Env) (db : Datastore)
    (actionResult : ActionResult) (workflowExecution : WorkflowExecution)
    (hget : getWorkflowExecution env db actionResult.ExecutionId = some workflowExecution)
    (hauth : workflowExecution.Authorization ≠ actionResult.Authorization) :
    handleWorkflowQueue fuel env db actionResult = (.status 401, db) := by
  unfold handleWorkflowQueue
  rw [hget]
  simp only
  rw [if_pos hauth]

theorem setWorkflowExecution_ok {env : Env} {db db' : Datastore} {e : WorkflowExecution}
    (h : setWorkflowExecution env db e = .ok db') : db' = dbPut db e.ExecutionId e := by
  unfold setWorkflowExecution at h
  split_ifs at h
  cases hput : env.putError e with
  | some err => rw [hput] at h; cases h
  | none => rw [hput] at h; cases h; rfl


theorem findResult_some {results : List ActionResult} {id : String} {i : Nat}
    (h : findResult results id = some i) :
    ∃ old, results[i]? = some old ∧ old.Action.ID = id ∧
      ∀ j item, j < i → results[j]? = some item → item.Action.ID ≠ id := by
  induction results generalizing i with
  | nil => simp [findResult] at h
  | cons item rest ih =>
    unfold findResult at h
    split_ifs at h with hid
    · cases h
      exact ⟨item, by simp, hid, fun j _ hj => absurd hj (Nat.not_lt_zero j)⟩
    · cases hrest : findResult rest id with
      | none => simp [hrest] at h
      | some k =>
        simp [hrest] at h
        subst h
        obtain ⟨old, hold, hid', hbefore⟩ := ih hrest
        refine ⟨old, by simpa using hold, hid', ?_⟩
        intro j x hj hx
        cases j with
        | zero =>
          simp at hx
          subst hx
          exact hid
        | succ j =>
          simp at hx
          exact hbefore j x (by omega) hx

theorem findResult_none {results : List ActionResult} {id : String} :
    findResult results id = none ↔ ∀ item ∈ results, item.Action.ID ≠ id := by
  induction results with
  | nil => simp [findResult]
  | cons item rest ih =>
    unfold findResult
    split_ifs with hid
    · simp [hid]
    · simp [hid, ih]

theorem mergeResult_status (e : WorkflowExecution) (r : ActionResult) :
    (mergeResult e r).Status = e.Status := by
  unfold mergeResult
  split_ifs
  · split <;> rfl
  · rfl

theorem mergeResult_workflow (e : WorkflowExecution) (r : ActionResult) :
    (mergeResult e r).Workflow = e.Workflow := by
  unfold mergeResult
  split_ifs
  · split <;> rfl
  · rfl

theorem mergeResult_executionId (e : WorkflowExecution) (r : ActionResult) :
    (mergeResult e r).ExecutionId = e.ExecutionId := by
  unfold mergeResult
  split_ifs
  · split <;> rfl
  · rfl

theorem mergeResult_authorization (e : WorkflowExecution) (r : ActionResult) :
    (mergeResult e r).Authorization = e.Authorization := by
  unfold mergeResult
  split_ifs
  · split <;> rfl
  · rfl

theorem failureBranch_frame {fuel : Nat} {e e1 : WorkflowExecution} {r : ActionResult}
    (h : failureBranch fuel e r = some e1) :
    e1.Workflow = e.Workflow ∧ e1.ExecutionId = e.ExecutionId ∧
      e1.Authorization = e.Authorization ∧
      e1.Status = (if e.Workflow.Configuration.ExitOnError = true then r.Status else e.Status) := by
  unfold failureBranch at h
  simp only at h
  by_cases hexit : e.Workflow.Configuration.ExitOnError = true
  · rw [if_pos hexit] at h
    cases h
    exact ⟨rfl, rfl, rfl, by rw [if_pos hexit]⟩
  · rw [if_neg hexit] at h
    cases hc : findChildNodes fuel e r.Action.ID with
    | none => rw [hc] at h; cases h
    | some childNodes =>
      rw [hc] at h
      cases h
      exact ⟨rfl, rfl, rfl, by rw [if_neg hexit]⟩

theorem mergeStage_frame {fuel : Nat} {e m : WorkflowExecution} {r : ActionResult}
    (h : mergeStage fuel e r = some m) :
    m.Workflow = e.Workflow ∧ m.ExecutionId = e.ExecutionId ∧
      m.Authorization = e.Authorization ∧ m.Status = statusAfterFailure e r := by
  unfold mergeStage at h
  simp only at h
  unfold statusAfterFailure
  by_cases hr : r.Status = "ABORTED" ∨ r.Status = "FAILURE"
  · rw [if_pos hr] at h
    cases hf : failureBranch fuel e r with
    | none => rw [hf] at h; cases h
    | some e1 =>
      rw [hf] at h
      cases h
      obtain ⟨a, b, c, d⟩ := failureBranch_frame hf
      rw [mergeResult_workflow, mergeResult_executionId, mergeResult_authorization,
        mergeResult_status]
      refine ⟨a, b, c, ?_⟩
      rw [d]
      by_cases hexit : e.Workflow.Configuration.ExitOnError = true
      · rw [if_pos hexit, if_pos ⟨hr, hexit⟩]
      · rw [if_neg hexit, if_neg (fun x => hexit x.2)]
  · rw [if_neg hr] at h
    cases h
    rw [mergeResult_workflow, mergeResult_executionId, mergeResult_authorization,
      mergeResult_status]
    exact ⟨rfl, rfl, rfl, by rw [if_neg (fun x => hr x.1)]⟩

theorem finishedScan_true (branches : List Branch) (all : List ActionResult) :
    ∀ (l : List ActionResult) (f : Bool) (s s' : String),
      finishedScan branches all l (f, s) = (true, s') →
        ∀ result ∈ l, result.Status ≠ "EXECUTING" := by
  intro l
  induction l with
  | nil => intro f s s' _ result hmem; cases hmem
  | cons x rest ih =>
    intro f s s' h result hmem
    unfold finishedScan at h
    by_cases hx : x.Status = "EXECUTING"
    · rw [if_pos hx] at h
      cases h
    · rw [if_neg hx] at h
      rcases List.mem_cons.mp hmem with rfl | hrest
      · exact hx
      · exact ih _ _ _ h result hrest

theorem checkFinished_frame (env : Env) (e : WorkflowExecution) (r : ActionResult) :
    (checkFinished env e r).Results = e.Results ∧
      (checkFinished env e r).Workflow = e.Workflow ∧
      (checkFinished env e r).ExecutionId = e.ExecutionId ∧
      (checkFinished env e r).Authorization = e.Authorization ∧
      (checkFinished env e r).ExecutionVariables = e.ExecutionVariables := by
  unfold checkFinished
  by_cases hlen : e.Results.length = e.Workflow.Actions.length + extraInputs e.Results
  · rw [if_pos hlen]
    generalize finishedScan e.Workflow.Branches e.Results e.Results (true, "") = scan
    obtain ⟨finished, lastResult⟩ := scan
    cases finished <;> exact ⟨rfl, rfl, rfl, rfl, rfl⟩
  · rw [if_neg hlen]
    exact ⟨rfl, rfl, rfl, rfl, rfl⟩

theorem checkFinished_status (env : Env) (e : WorkflowExecution) (r : ActionResult) :
    (checkFinished env e r).Status = e.Status ∨
      ((checkFinished env e r).Status = "FINISHED" ∧
        e.Results.length = e.Workflow.Actions.length + extraInputs e.Results ∧
        ∃ lastResult, finishedScan e.Workflow.Branches e.Results e.Results (true, "") =
          (true, lastResult)) := by
  unfold checkFinished
  by_cases hlen : e.Results.length = e.Workflow.Actions.length + extraInputs e.Results
  · rw [if_pos hlen]
    cases hscan : finishedScan e.Workflow.Branches e.Results e.Results (true, "") with
    | mk finished lastResult =>
      cases finished
      · exact Or.inl rfl
      · exact Or.inr ⟨rfl, hlen, lastResult, rfl⟩
  · rw [if_neg hlen]
    exact Or.inl rfl

theorem reduceResults_frame (env : Env) (e : WorkflowExecution) :
    (reduceResults env e).Status = e.Status ∧
      (reduceResults env e).Workflow = e.Workflow ∧
      (reduceResults env e).ExecutionId = e.ExecutionId ∧
      (reduceResults env e).Authorization = e.Authorization ∧
      (reduceResults env e).Results.length = e.Results.length ∧
      (reduceResults env e).Results.map (fun x => (x.Action, x.Status)) =
        e.Results.map (fun x => (x.Action, x.Status)) := by
  unfold reduceResults
  split
  · exact ⟨rfl, rfl, rfl, rfl, rfl, rfl⟩
  · split_ifs
    · refine ⟨rfl, rfl, rfl, rfl, by simp, ?_⟩
      simp only [List.map_map]
      apply List.map_congr_left
      intro x _
      simp only [Function.comp]
      split_ifs <;> rfl
    · exact ⟨rfl, rfl, rfl, rfl, rfl, rfl⟩

theorem statusAfterFailure_ne_finished {e : WorkflowExecution} {r : ActionResult}
    (hnf : e.Status ≠ "FINISHED") : statusAfterFailure e r ≠ "FINISHED" := by
  unfold statusAfterFailure
  by_cases h : (r.Status = "ABORTED" ∨ r.Status = "FAILURE") ∧
      e.Workflow.Configuration.ExitOnError = true
  · rw [if_pos h]
    rcases h.1 with hr | hr <;> rw [hr] <;> decide
  · rw [if_neg h]
    exact hnf

theorem mergeAndCheck_error {fuel : Nat} {env : Env} {e : WorkflowExecution} {r : ActionResult}
    {reply : Reply} (h : mergeAndCheck fuel env e r = .error reply) :
    reply = .overflow ∨ reply = .panicked := by
  unfold mergeAndCheck at h
  cases hm : mergeStage fuel e r with
  | none => rw [hm] at h; cases h; exact Or.inl rfl
  | some m =>
    rw [hm] at h
    simp only at h
    cases hrec : reconcileSkipped m.Workflow.Branches m.Results with
    | none => rw [hrec] at h; cases h; exact Or.inr rfl
    | some results => rw [hrec] at h; cases h

/-- How a result of `mergeAndCheck` comes about. -/
theorem mergeAndCheck_ok {fuel : Nat} {env : Env} {e e' : WorkflowExecution} {r : ActionResult}
    (h : mergeAndCheck fuel env e r = .ok e') :
    ∃ (m : WorkflowExecution) (results : List ActionResult),
      mergeStage fuel e r = some m ∧
      reconcileSkipped m.Workflow.Branches m.Results = some results ∧
      e' = checkFinished env { m with Results := results } r := by
  unfold mergeAndCheck at h
  cases hm : mergeStage fuel e r with
  | none => rw [hm] at h; cases h
  | some m =>
    rw [hm] at h
    simp only at h
    cases hrec : reconcileSkipped m.Workflow.Branches m.Results with
    | none => rw [hrec] at h; cases h
    | some results =>
      rw [hrec] at h
      cases h
      exact ⟨m, results, rfl, hrec, rfl⟩

theorem putIgnoringError_eq (env : Env) (db : Datastore) (e : WorkflowExecution) :
    putIgnoringError env db e = db ∨ putIgnoringError env db e = dbPut db e.ExecutionId e := by
  unfold putIgnoringError
  cases hset : setWorkflowExecution env db e with
  | error err => exact Or.inl rfl
  | ok db' => exact Or.inr (setWorkflowExecution_ok hset)

/-- The execution written by the user-input block, when it writes one: the
old results followed by the submitted result under a new payload, and the
status ABORTED (dispatch failed, answer 401) or the submitted status (answer
200). -/
theorem userInputBranch_inv (env : Env) (db : Datastore) (e : WorkflowExecution)
    (r : ActionResult) :
    userInputBranch env db e r = (.status 401, db) ∨
      ∃ (w : WorkflowExecution) (payload : String),
        w.Results = e.Results ++ [{ r with Result := payload }] ∧
        w.ExecutionId = e.ExecutionId ∧ w.Workflow = e.Workflow ∧
        w.Authorization = e.Authorization ∧
        ((w.Status = "ABORTED" ∧ (userInputBranch env db e r).1 = .status 401) ∨
          (w.Status = r.Status ∧ (userInputBranch env db e r).1 = .status 200)) ∧
        ((userInputBranch env db e r).2 = db ∨
          (userInputBranch env db e r).2 = dbPut db e.ExecutionId w) := by
  unfold userInputBranch
  cases env.unmarshalTrigger r.Result with
  | none => exact Or.inl rfl
  | some trigger =>
    right
    simp only
    split
    · rename_i err _
      exact ⟨{ e with
          Results := e.Results ++ [{ r with Result := "Cloud error: " ++ err }]
          Status := "ABORTED" },
        "Cloud error: " ++ err, rfl, rfl, rfl, rfl, Or.inl ⟨rfl, rfl⟩,
        putIgnoringError_eq env db _⟩
    · exact ⟨{ e with
          Results := e.Results ++
            [{ r with Result := "Waiting for user feedback based on configuration" }]
          Status := r.Status },
        "Waiting for user feedback based on configuration", rfl, rfl, rfl, rfl,
        Or.inr ⟨rfl, rfl⟩, putIgnoringError_eq env db _⟩

/-- The four ways `handleWorkflowQueue` ends on a stored execution. -/
theorem handleWorkflowQueue_inv (fuel : Nat) (env : Env) (db : Datastore) (r : ActionResult)
    (e : WorkflowExecution) (hget : getWorkflowExecution env db r.ExecutionId = some e) :
    handleWorkflowQueue fuel env db r = (.status 401, db) ∨
      (¬ rejectsSubmit e ∧ e.Authorization = r.Authorization ∧
        ((r.Status = "WAITING" ∧ r.Action.AppName = "User Input" ∧
            handleWorkflowQueue fuel env db r = userInputBranch env db e r) ∨
          (¬ (r.Status = "WAITING" ∧ r.Action.AppName = "User Input") ∧
            ((∃ reply, mergeAndCheck fuel env e r = .error reply ∧
                handleWorkflowQueue fuel env db r = (reply, db)) ∨
              ∃ e', mergeAndCheck fuel env e r = .ok e' ∧
                handleWorkflowQueue fuel env db r =
                  (.status 200, dbPut db (reduceResults env e').ExecutionId
                    (reduceResults env e')))))) := by
  unfold handleWorkflowQueue
  rw [hget]
  simp only
  by_cases h1 : e.Authorization ≠ r.Authorization
  · rw [if_pos h1]; exact Or.inl rfl
  rw [if_neg h1]
  by_cases h2 : e.Status = "FINISHED"
  · rw [if_pos h2]; exact Or.inl rfl
  rw [if_neg h2]
  by_cases h3 : (e.Status = "ABORTED" ∨ e.Status = "FAILURE") ∧
      e.Workflow.Configuration.ExitOnError = true
  · rw [if_pos h3]; exact Or.inl rfl
  rw [if_neg h3]
  have hrej : ¬ rejectsSubmit e := fun h => h.elim h2 h3
  have hauth : e.Authorization = r.Authorization := not_not.mp h1
  by_cases h4 : r.Status = "WAITING" ∧ r.Action.AppName = "User Input"
  · rw [if_pos h4]
    exact Or.inr ⟨hrej, hauth, Or.inl ⟨h4.1, h4.2, rfl⟩⟩
  rw [if_neg h4]
  cases hm : mergeAndCheck fuel env e r with
  | error reply => exact Or.inr ⟨hrej, hauth, Or.inr ⟨h4, Or.inl ⟨reply, rfl, rfl⟩⟩⟩
  | ok e' =>
    simp only
    cases hset : setWorkflowExecution env db (reduceResults env e') with
    | error err => exact Or.inl rfl
    | ok db' =>
      rw [setWorkflowExecution_ok hset]
      exact Or.inr ⟨hrej, hauth, Or.inr ⟨h4, Or.inr ⟨e', rfl, rfl⟩⟩⟩

/-- The status, workflow and identity of the execution that leaves
`mergeAndCheck`, and the reason of a FINISHED status. -/
theorem mergeAndCheck_frame {fuel : Nat} {env : Env} {e e' : WorkflowExecution}
    {r : ActionResult} (h : mergeAndCheck fuel env e r = .ok e') :
    e'.Workflow = e.Workflow ∧ e'.ExecutionId = e.ExecutionId ∧
      e'.Authorization = e.Authorization ∧
      (e'.Status = statusAfterFailure e r ∨
        (e'.Status = "FINISHED" ∧
          e'.Results.length = e'.Workflow.Actions.length + extraInputs e'.Results ∧
          ∀ result ∈ e'.Results, result.Status ≠ "EXECUTING")) := by
  obtain ⟨m, results, hm, _, he'⟩ := mergeAndCheck_ok h
  obtain ⟨hw, hid, hau, hst⟩ := mergeStage_frame hm
  have hfr := checkFinished_frame env { m with Results := results } r
  have hcs := checkFinished_status env { m with Results := results } r
  rw [← he'] at hfr hcs
  obtain ⟨hres, hwf, hid', hau', _⟩ := hfr
  simp only at hres hwf hid' hau' hcs
  refine ⟨hwf.trans hw, hid'.trans hid, hau'.trans hau, ?_⟩
  rcases hcs with hsame | ⟨hfin, hlen, lastResult, hscan⟩
  · exact Or.inl (hsame.trans hst)
  · refine Or.inr ⟨hfin, ?_, ?_⟩
    · rw [hres, hwf]; exact hlen
    · rw [hres]
      exact finishedScan_true _ _ _ _ _ _ hscan

theorem parentNotSkipped_mono {cur cur' : List ActionResult} (h : ∀ y ∈ cur', y ∈ cur)
    {s : String} (hp : parentNotSkipped cur' s = true) : parentNotSkipped cur s = true := by
  unfold parentNotSkipped at *
  rw [List.any_eq_true] at *
  obtain ⟨x, hx, hpx⟩ := hp
  exact ⟨x, h x hx, hpx⟩

theorem removalCount_eq_zero {branches : List Branch} {cur : List ActionResult}
    {x : ActionResult} :
    removalCount branches cur x = 0 ↔
      (x.Status = "SKIPPED" → ∀ b ∈ branches,
        ¬ (b.DestinationID = x.Action.ID ∧ parentNotSkipped cur b.SourceID = true)) := by
  unfold removalCount blockingBranches
  by_cases hs : x.Status = "SKIPPED"
  · rw [if_pos hs, List.length_eq_zero, List.filter_eq_nil_iff]
    constructor
    · intro h _ b hb hcond
      exact h b hb (by simpa using hcond)
    · intro h b hb hcond
      exact h hs b hb (by simpa using hcond)
  · rw [if_neg hs]
    exact ⟨fun _ h => absurd h hs, fun _ => rfl⟩

theorem removalCount_zero_mono {branches : List Branch} {cur cur' : List ActionResult}
    (h : ∀ y ∈ cur', y ∈ cur) {x : ActionResult} (hx : removalCount branches cur x = 0) :
    removalCount branches cur' x = 0 := by
  rw [removalCount_eq_zero] at *
  intro hs b hb hcond
  exact hx hs b hb ⟨hcond.1, parentNotSkipped_mono h hcond.2⟩

theorem drop_of_getElem? {α : Type} {l : List α} {i : Nat} {x : α} (h : l[i]? = some x) :
    l.drop i = x :: l.drop (i + 1) := by
  induction l generalizing i with
  | nil => simp at h
  | cons a t ih =>
    cases i with
    | zero => simp at h; simp [h]
    | succ i => simp at h; simpa using ih h

theorem reconcileBranches_noop (x : ActionResult) (i : Nat) :
    ∀ (bs : List Branch) (arr : List ActionResult) (n : Nat),
      (∀ b ∈ bs, ¬ (b.DestinationID = x.Action.ID ∧
        parentNotSkipped (arr.take n) b.SourceID = true)) →
      reconcileBranches x i bs arr n = some (arr, n) := by
  intro bs
  induction bs with
  | nil => intro arr n _; rfl
  | cons b rest ih =>
    intro arr n h
    unfold reconcileBranches
    rw [if_neg (h b (List.mem_cons_self _ _))]
    exact ih arr n fun b' hb' => h b' (List.mem_cons_of_mem _ hb')

theorem reconcileLoop_noop (branches : List Branch) :
    ∀ (remaining i : Nat) (arr : List ActionResult) (n : Nat),
      (∀ x ∈ arr.drop i, removalCount branches (arr.take n) x = 0) →
      reconcileLoop branches remaining i arr n = some (arr, n) := by
  intro remaining
  induction remaining with
  | zero => intro i arr n _; rfl
  | succ k ih =>
    intro i arr n h
    unfold reconcileLoop
    cases hx : arr[i]? with
    | none => rfl
    | some x =>
      simp only
      have hdrop := drop_of_getElem? hx
      have hnext : ∀ y ∈ arr.drop (i + 1), removalCount branches (arr.take n) y = 0 := by
        intro y hy
        apply h
        rw [hdrop]
        exact List.mem_cons_of_mem _ hy
      by_cases hs : x.Status ≠ "SKIPPED"
      · rw [if_pos hs]
        exact ih (i + 1) arr n hnext
      · rw [if_neg hs]
        have hq := h x (by rw [hdrop]; exact List.mem_cons_self _ _)
        rw [removalCount_eq_zero] at hq
        rw [reconcileBranches_noop x i branches arr n (hq (not_not.mp hs))]
        exact ih (i + 1) arr n hnext

theorem reconcileBranches_one (x : ActionResult) (i : Nat) :
    ∀ (bs : List Branch) (arr arr' : List ActionResult) (n n' : Nat),
      removeResult arr n i = some (arr', n') →
      (∀ y ∈ arr'.take n', y ∈ arr.take n) →
      (bs.filter fun b => b.DestinationID = x.Action.ID ∧
        parentNotSkipped (arr.take n) b.SourceID).length = 1 →
      reconcileBranches x i bs arr n = some (arr', n') := by
  intro bs
  induction bs with
  | nil => intro arr arr' n n' _ _ h; simp at h
  | cons b rest ih =>
    intro arr arr' n n' hrem hsub hcount
    unfold reconcileBranches
    by_cases hb : b.DestinationID = x.Action.ID ∧ parentNotSkipped (arr.take n) b.SourceID = true
    · rw [if_pos hb, hrem]
      simp only
      apply reconcileBranches_noop
      intro b' hb' hcond
      have hnil : (rest.filter fun b => b.DestinationID = x.Action.ID ∧
          parentNotSkipped (arr.take n) b.SourceID) = [] := by
        rw [List.filter_cons_of_pos (by simpa using hb)] at hcount
        simpa using hcount
      rw [List.filter_eq_nil_iff] at hnil
      apply hnil b' hb'
      simpa using ⟨hcond.1, parentNotSkipped_mono hsub hcond.2⟩
    · rw [if_neg hb]
      apply ih arr arr' n n' hrem hsub
      rw [List.filter_cons_of_neg (by simpa using hb)] at hcount
      exact hcount
theorem removeResult_middle (pre post : List ActionResult) (s : ActionResult) :
    removeResult (pre ++ s :: post) (pre ++ s :: post).length pre.length =
      some (pre ++ (post ++ (pre ++ s :: post).drop (pre.length + post.length)),
        pre.length + post.length) := by
  unfold removeResult
  have hlen : (pre ++ s :: post).length = pre.length + post.length + 1 := by
    simp; omega
  rw [if_neg (by rw [hlen]; omega)]
  have h1 : (pre ++ s :: post).take pre.length = pre := List.take_left' rfl
  have h2 : (pre ++ s :: post).drop (pre.length + 1) = post := by
    have : pre ++ s :: post = (pre ++ [s]) ++ post := by simp
    rw [this]
    exact List.drop_left' (by simp)
  have h3 : (pre ++ s :: post).length - (pre.length + 1) = post.length := by rw [hlen]; omega
  have h4 : (pre ++ s :: post).length - 1 = pre.length + post.length := by rw [hlen]; omega
  rw [h1, h2, h3, h4, List.take_length]

theorem mem_post_of_mem_drop (pre post : List ActionResult) (s y : ActionResult)
    (hy : y ∈ (pre ++ (post ++ (pre ++ s :: post).drop (pre.length + post.length))).drop
      (pre.length + 1)) : y ∈ post := by
  have h1 : (pre ++ (post ++ (pre ++ s :: post).drop (pre.length + post.length))).drop
      (pre.length + 1) =
      (post ++ (pre ++ s :: post).drop (pre.length + post.length)).drop 1 := by
    rw [← List.drop_drop, List.drop_left' rfl]
  rw [h1] at hy
  have h2 : (pre ++ s :: post).drop (pre.length + post.length) = (s :: post).drop post.length := by
    rw [← List.drop_drop, List.drop_left' rfl]
  rw [h2] at hy
  cases post with
  | nil => simp at hy
  | cons p rest =>
    have h3 : (s :: p :: rest).drop (p :: rest).length = (p :: rest).drop rest.length := by
      simp
    rw [h3] at hy
    have := List.mem_of_mem_drop hy
    rcases List.mem_append.mp this with h | h
    · exact h
    · exact List.mem_of_mem_drop h

theorem take_after_remove (pre post : List ActionResult) (s : ActionResult) :
    (pre ++ (post ++ (pre ++ s :: post).drop (pre.length + post.length))).take
      (pre.length + post.length) = pre ++ post := by
  rw [← List.append_assoc]
  exact List.take_left' (by simp)

/-- The reconciliation loop when exactly one entry asks for exactly one
removal: that entry is removed and nothing else happens. -/
theorem reconcileLoop_single (branches : List Branch) (pre post : List ActionResult)
    (s : ActionResult) (hs : removalCount branches (pre ++ s :: post) s = 1)
    (hpre : ∀ x ∈ pre, removalCount branches (pre ++ s :: post) x = 0)
    (hpost : ∀ x ∈ post, removalCount branches (pre ++ s :: post) x = 0) :
    ∀ (remaining j : Nat), j + remaining = (pre ++ s :: post).length → j ≤ pre.length →
      reconcileLoop branches remaining j (pre ++ s :: post) (pre ++ s :: post).length =
        some (pre ++ (post ++ (pre ++ s :: post).drop (pre.length + post.length)),
          pre.length + post.length) := by
  have hlen : (pre ++ s :: post).length = pre.length + post.length + 1 := by
    simp; omega
  have hskipped : s.Status = "SKIPPED" := by
    by_contra hne
    unfold removalCount at hs
    rw [if_neg hne] at hs
    cases hs
  have hsub : ∀ y ∈ pre ++ post, y ∈ pre ++ s :: post := by
    intro y hy
    rcases List.mem_append.mp hy with h | h
    · exact List.mem_append_left _ h
    · exact List.mem_append_right _ (List.mem_cons_of_mem _ h)
  intro remaining
  induction remaining with
  | zero => intro j hj hle; omega
  | succ k ih =>
    intro j hj hle
    unfold reconcileLoop
    rcases Nat.lt_or_ge j pre.length with hlt | hge
    · -- an entry before the one to remove
      have hx : (pre ++ s :: post)[j]? = some pre[j] := by
        rw [List.getElem?_append_left hlt, List.getElem?_eq_getElem hlt]
      rw [hx]
      simp only
      have hq := hpre pre[j] (List.getElem_mem _)
      by_cases hst : pre[j].Status ≠ "SKIPPED"
      · rw [if_pos hst]
        exact ih (j + 1) (by omega) (by omega)
      · rw [if_neg hst]
        rw [removalCount_eq_zero] at hq
        rw [reconcileBranches_noop pre[j] j branches _ _
          (by rw [List.take_length]; exact hq (not_not.mp hst))]
        exact ih (j + 1) (by omega) (by omega)
    · -- the entry to remove
      have hj' : j = pre.length := by omega
      subst hj'
      have hx : (pre ++ s :: post)[pre.length]? = some s := by
        rw [List.getElem?_append_right (Nat.le_refl _)]
        simp
      rw [hx]
      simp only
      rw [if_neg (not_not.mpr hskipped)]
      have hone : (branches.filter fun b => b.DestinationID = s.Action.ID ∧
          parentNotSkipped ((pre ++ s :: post).take (pre ++ s :: post).length)
            b.SourceID).length = 1 := by
        rw [List.take_length]
        unfold removalCount blockingBranches at hs
        rw [if_pos hskipped] at hs
        exact hs
      rw [reconcileBranches_one s pre.length branches _ _ _ _ (removeResult_middle pre post s)
        (by rw [take_after_remove, List.take_length]; exact hsub) hone]
      simp only
      apply reconcileLoop_noop
      intro y hy
      rw [take_after_remove]
      exact removalCount_zero_mono hsub (hpost y (mem_post_of_mem_drop pre post s y hy))

theorem sum_le_one_split {α : Type} (f : α → Nat) :
    ∀ l : List α, (l.map f).sum ≤ 1 →
      (∀ x ∈ l, f x = 0) ∨
        ∃ pre s post, l = pre ++ s :: post ∧ f s = 1 ∧ (∀ x ∈ pre, f x = 0) ∧
          ∀ x ∈ post, f x = 0 := by
  intro l
  induction l with
  | nil => intro _; exact Or.inl (fun x hx => absurd hx (List.not_mem_nil x))
  | cons a t ih =>
    intro h
    simp only [List.map_cons, List.sum_cons] at h
    rcases Nat.eq_zero_or_pos (f a) with ha | ha
    · rcases ih (by omega) with hall | ⟨pre, s, post, hl, hs, hpre, hpost⟩
      · left
        intro x hx
        rcases List.mem_cons.mp hx with rfl | hx
        · exact ha
        · exact hall x hx
      · right
        refine ⟨a :: pre, s, post, by rw [hl]; rfl, hs, ?_, hpost⟩
        intro x hx
        rcases List.mem_cons.mp hx with rfl | hx
        · exact ha
        · exact hpre x hx
    · right
      have hzero : ∀ x ∈ t, f x = 0 := by
        rcases ih (by omega) with hall | ⟨pre, s, post, hl, hs, _, _⟩
        · exact hall
        · exfalso
          have : f s ≤ (t.map f).sum := by
            rw [hl]
            simp
            omega
          omega
      exact ⟨[], a, t, rfl, by omega, fun x hx => absurd hx (List.not_mem_nil x), hzero⟩

/-- When all entries together ask for at most one removal, the reconciliation
does not panic and leaves a list in which no entry asks for a removal. -/
theorem reconcileSkipped_of_le_one (branches : List Branch) (results : List ActionResult)
    (h : pendingRemovals branches results ≤ 1) :
    ∃ out, reconcileSkipped branches results = some out ∧ (∀ x ∈ out, x ∈ results) ∧
      ∀ x ∈ out, removalCount branches out x = 0 := by
  unfold pendingRemovals at h
  unfold reconcileSkipped
  rcases sum_le_one_split (removalCount branches results) results h with
    hall | ⟨pre, s, post, hl, hs, hpre, hpost⟩
  · rw [reconcileLoop_noop branches results.length 0 results results.length
      (by rw [List.take_length]; intro x hx; exact hall x (List.mem_of_mem_drop hx))]
    exact ⟨results, by simp, fun x hx => hx, hall⟩
  · subst hl
    rw [reconcileLoop_single branches pre post s hs hpre hpost _ 0 (by omega) (Nat.zero_le _)]
    simp only
    rw [take_after_remove]
    have hsub : ∀ y ∈ pre ++ post, y ∈ pre ++ s :: post := by
      intro y hy
      rcases List.mem_append.mp hy with h | h
      · exact List.mem_append_left _ h
      · exact List.mem_append_right _ (List.mem_cons_of_mem _ h)
    refine ⟨pre ++ post, rfl, hsub, ?_⟩
    intro x hx
    apply removalCount_zero_mono hsub
    rcases List.mem_append.mp hx with h | h
    · exact hpre x h
    · exact hpost x h
theorem skippedParentsNotRun_of_removalCount (w : WorkflowExecution)
    (out : List ActionResult)
    (hmap : w.Results.map (fun x => (x.Action, x.Status)) =
      out.map (fun x => (x.Action, x.Status)))
    (hq : ∀ x ∈ out, removalCount w.Workflow.Branches out x = 0) :
    skippedParentsNotRun w := by
  have hback : ∀ y ∈ w.Results, ∃ x ∈ out, x.Action = y.Action ∧ x.Status = y.Status := by
    intro y hy
    have hin : (y.Action, y.Status) ∈ w.Results.map (fun x => (x.Action, x.Status)) :=
      List.mem_map.mpr ⟨y, hy, rfl⟩
    rw [hmap] at hin
    obtain ⟨x, hx, hxeq⟩ := List.mem_map.mp hin
    exact ⟨x, hx, congrArg Prod.fst hxeq, congrArg Prod.snd hxeq⟩
  intro result hmem hsk branch hb hdest parent hpmem hpid
  obtain ⟨x, hx, hxa, hxs⟩ := hback result hmem
  obtain ⟨p, hp, hpa, hps⟩ := hback parent hpmem
  have hquiet := (removalCount_eq_zero.mp (hq x hx)) (hxs.trans hsk) branch hb
  by_contra hlive
  apply hquiet
  refine ⟨by rw [hxa]; exact hdest, ?_⟩
  unfold parentNotSkipped
  rw [List.any_eq_true]
  refine ⟨p, hp, ?_⟩
  have h1 : p.Action.ID = branch.SourceID := by rw [hpa]; exact hpid
  have h2 : p.Status ≠ "SKIPPED" := fun h => hlive (Or.inl (hps ▸ h))
  have h3 : p.Status ≠ "FAILURE" := fun h => hlive (Or.inr (hps ▸ h))
  simp [h1, h2, h3]

theorem lastNonEmpty_eq (results : List ActionResult) :
    ∀ init : String, lastNonEmpty init results =
      (((results.filter fun result => result.Result.utf8ByteSize > 0).getLast?).map
        fun result => result.Result).getD init := by
  induction results with
  | nil => intro init; rfl
  | cons x rest ih =>
    intro init
    unfold lastNonEmpty
    by_cases hx : x.Result.utf8ByteSize > 0
    · rw [if_pos hx, ih, List.filter_cons_of_pos (by simpa using hx), List.getLast?_cons]
      cases (rest.filter fun result => result.Result.utf8ByteSize > 0).getLast? <;> rfl
    · rw [if_neg hx, ih, List.filter_cons_of_neg (by simpa using hx)]

/-- What a successful abort writes. -/
theorem abortExecution_of_ok {env : Env} {db : Datastore} {fileId executionId apikey : String}
    {e : WorkflowExecution} (hget : getWorkflowExecution env db executionId = some e)
    (hok : (abortExecution env db fileId executionId apikey).1 = .status 200) :
    (abortExecution env db fileId executionId apikey).2 =
      dbPut db e.ExecutionId (abortedExecution env e) := by
  unfold abortExecution at hok ⊢
  rw [hget] at hok ⊢
  simp only at hok ⊢
  split_ifs at hok ⊢
  all_goals first | exact absurd hok (by simp) | skip
  cases hset : setWorkflowExecution env db (abortedExecution env e) with
  | error err => rw [hset] at hok; simp at hok
  | ok db' => exact setWorkflowExecution_ok hset

theorem queueGet_queuePut (queues : QueueStore) (key : String) (data : List ExecutionRequest) :
    queueGet (queuePut queues key data) key = some data := by
  induction queues with
  | nil => simp [queuePut, queueGet]
  | cons kv rest ih =>
    obtain ⟨k, v⟩ := kv
    by_cases h : k = key
    · simp [queuePut, queueGet, h]
    · simp [queuePut, queueGet, h, ih]

theorem remainingRequests_eq (removeData : List ExecutionRequest) :
    ∀ (data newData : List ExecutionRequest),
      remainingRequests removeData data newData =
        newData ++ data.filter fun execution => !confirmed removeData execution := by
  intro data
  induction data with
  | nil => intro newData; simp [remainingRequests]
  | cons x rest ih =>
    intro newData
    unfold remainingRequests
    by_cases hx : confirmed removeData x = true
    · rw [if_pos hx, ih, List.filter_cons_of_neg (by simp [hx])]
    · rw [if_neg hx, ih, List.filter_cons_of_pos (by simpa using hx)]
      simp

theorem not_confirmed_iff (removeData : List ExecutionRequest) (execution : ExecutionRequest) :
    (!confirmed removeData execution) = true ↔
      ∀ removeExecution ∈ removeData,
        ¬ (removeExecution.ExecutionId = execution.ExecutionId ∧
          removeExecution.WorkflowId = execution.WorkflowId) := by
  unfold confirmed
  simp only [Bool.not_eq_true', List.any_eq_false, decide_eq_true_eq]

theorem mem_appendMissing (childNodes : List String) :
    ∀ (allChildren : List String) (x : String),
      x ∈ appendMissing allChildren childNodes ↔ x ∈ allChildren ∨ x ∈ childNodes := by
  induction childNodes with
  | nil => intro allChildren x; simp [appendMissing]
  | cons c rest ih =>
    intro allChildren x
    unfold appendMissing
    by_cases hc : allChildren.contains c = true
    · rw [if_pos hc, ih]
      have hmem : c ∈ allChildren := by simpa using hc
      constructor
      · rintro (h | h)
        · exact Or.inl h
        · exact Or.inr (List.mem_cons_of_mem _ h)
      · rintro (h | h)
        · exact Or.inl h
        · rcases List.mem_cons.mp h with rfl | h
          · exact Or.inl hmem
          · exact Or.inr h
    · rw [if_neg hc, ih]
      simp only [List.mem_append, List.mem_singleton, List.mem_cons]
      tauto

theorem mem_removeDuplicates (nodes : List String) :
    ∀ (newNodes : List String) (x : String),
      x ∈ removeDuplicates newNodes nodes ↔ x ∈ newNodes ∨ x ∈ nodes := by
  induction nodes with
  | nil => intro newNodes x; simp [removeDuplicates]
  | cons c rest ih =>
    intro newNodes x
    unfold removeDuplicates
    by_cases hc : newNodes.contains c = true
    · rw [if_pos hc, ih]
      have hmem : c ∈ newNodes := by simpa using hc
      constructor
      · rintro (h | h)
        · exact Or.inl h
        · exact Or.inr (List.mem_cons_of_mem _ h)
      · rintro (h | h)
        · exact Or.inl h
        · rcases List.mem_cons.mp h with rfl | h
          · exact Or.inl hmem
          · exact Or.inr h
    · rw [if_neg hc, ih]
      simp only [List.mem_append, List.mem_singleton, List.mem_cons]
      tauto

theorem nodup_removeDuplicates (nodes : List String) :
    ∀ newNodes : List String, newNodes.Nodup → (removeDuplicates newNodes nodes).Nodup := by
  induction nodes with
  | nil => intro newNodes h; exact h
  | cons c rest ih =>
    intro newNodes h
    unfold removeDuplicates
    by_cases hc : newNodes.contains c = true
    · rw [if_pos hc]
      exact ih newNodes h
    · rw [if_neg hc]
      apply ih
      have hmem : c ∉ newNodes := by simpa using hc
      rw [List.nodup_append]
      refine ⟨h, List.nodup_singleton c, ?_⟩
      intro a ha hb
      rw [List.mem_singleton] at hb
      subst hb
      exact hmem ha

/-- The members of the list the loop of lines 802-822 leaves. -/
theorem childLoop_some (recurse : String → Option (List String)) (nodeId : String) :
    ∀ (bs : List Branch) (allChildren out : List String),
      childLoop recurse nodeId bs allChildren = some out →
      ∀ x, x ∈ out ↔ x ∈ allChildren ∨ ∃ b ∈ bs, b.SourceID = nodeId ∧
        (x = b.DestinationID ∨ ∃ l, recurse b.DestinationID = some l ∧ x ∈ l) := by
  intro bs
  induction bs with
  | nil =>
    intro allChildren out h x
    simp only [childLoop, Option.some.injEq] at h
    subst h
    simp
  | cons b rest ih =>
    intro allChildren out h x
    unfold childLoop at h
    by_cases hb : b.SourceID = nodeId
    · rw [if_pos hb] at h
      cases hr : recurse b.DestinationID with
      | none => rw [hr] at h; cases h
      | some childNodes =>
        rw [hr] at h
        simp only at h
        rw [ih _ _ h x, mem_appendMissing]
        simp only [List.mem_append, List.mem_cons, List.not_mem_nil, or_false]
        constructor
        · rintro ((((h1 | h1) | h1)) | ⟨b', hb', hs, hx⟩)
          · exact Or.inl h1
          · exact Or.inr ⟨b, Or.inl rfl, hb, Or.inl h1⟩
          · exact Or.inr ⟨b, Or.inl rfl, hb, Or.inr ⟨childNodes, hr, h1⟩⟩
          · exact Or.inr ⟨b', Or.inr hb', hs, hx⟩
        · rintro (h1 | ⟨b', hb' | hb', hs, hx⟩)
          · exact Or.inl (Or.inl (Or.inl h1))
          · subst hb'
            rcases hx with hx | ⟨l, hl, hx⟩
            · exact Or.inl (Or.inl (Or.inr hx))
            · rw [hr] at hl
              cases hl
              exact Or.inl (Or.inr hx)
          · exact Or.inr ⟨b', hb', hs, hx⟩
    · rw [if_neg hb] at h
      rw [ih _ _ h x]
      simp only [List.mem_cons]
      constructor
      · rintro (h1 | ⟨b', hb', hs, hx⟩)
        · exact Or.inl h1
        · exact Or.inr ⟨b', Or.inr hb', hs, hx⟩
      · rintro (h1 | ⟨b', hb' | hb', hs, hx⟩)
        · exact Or.inl h1
        · subst hb'
          exact absurd hs hb
        · exact Or.inr ⟨b', hb', hs, hx⟩

/-- The loop of lines 802-822 comes back unless a recursive call does not. -/
theorem childLoop_none (recurse : String → Option (List String)) (nodeId : String) :
    ∀ (bs : List Branch) (allChildren : List String),
      childLoop recurse nodeId bs allChildren = none →
      ∃ b ∈ bs, b.SourceID = nodeId ∧ recurse b.DestinationID = none := by
  intro bs
  induction bs with
  | nil => intro allChildren h; simp [childLoop] at h
  | cons b rest ih =>
    intro allChildren h
    unfold childLoop at h
    by_cases hb : b.SourceID = nodeId
    · rw [if_pos hb] at h
      cases hr : recurse b.DestinationID with
      | none => exact ⟨b, List.mem_cons_self _ _, hb, hr⟩
      | some childNodes =>
        rw [hr] at h
        obtain ⟨b', hb', hs, hn⟩ := ih _ h
        exact ⟨b', List.mem_cons_of_mem _ hb', hs, hn⟩
    · rw [if_neg hb] at h
      obtain ⟨b', hb', hs, hn⟩ := ih _ h
      exact ⟨b', List.mem_cons_of_mem _ hb', hs, hn⟩

theorem findChildNodes_succ (fuel : Nat) (e : WorkflowExecution) (nodeId : String) :
    findChildNodes (fuel + 1) e nodeId =
      (childLoop (findChildNodes fuel e) nodeId e.Workflow.Branches [nodeId]).map
        (removeDuplicates []) := by
  rw [findChildNodes]
  cases childLoop (findChildNodes fuel e) nodeId e.Workflow.Branches [nodeId] <;> rfl

theorem childLoop_some_calls (recurse : String → Option (List String)) (nodeId : String) :
    ∀ (bs : List Branch) (allChildren out : List String),
      childLoop recurse nodeId bs allChildren = some out →
      ∀ b ∈ bs, b.SourceID = nodeId → ∃ l, recurse b.DestinationID = some l := by
  intro bs allChildren out h b hb hs
  cases hr : recurse b.DestinationID with
  | some l => exact ⟨l, rfl⟩
  | none =>
    exfalso
    induction bs generalizing allChildren with
    | nil => cases hb
    | cons b0 rest ih =>
      unfold childLoop at h
      by_cases hb0 : b0.SourceID = nodeId
      · rw [if_pos hb0] at h
        cases hr0 : recurse b0.DestinationID with
        | none => rw [hr0] at h; cases h
        | some l0 =>
          rw [hr0] at h
          rcases List.mem_cons.mp hb with heq | hmem
          · rw [heq, hr0] at hr
            cases hr
          · exact ih _ h hmem
      · rw [if_neg hb0] at h
        rcases List.mem_cons.mp hb with heq | hmem
        · rw [heq] at hs
          exact hb0 hs
        · exact ih _ h hmem

/-- Whatever `findChildNodes` returns holds exactly the nodes reached from
`nodeId`. -/
theorem findChildNodes_mem (e : WorkflowExecution) :
    ∀ (fuel : Nat) (nodeId : String) (l : List String),
      findChildNodes fuel e nodeId = some l →
      ∀ x, x ∈ l ↔ reachable e.Workflow.Branches nodeId x := by
  intro fuel
  induction fuel with
  | zero => intro nodeId l h; simp [findChildNodes] at h
  | succ k ih =>
    intro nodeId l h x
    rw [findChildNodes_succ] at h
    cases hc : childLoop (findChildNodes k e) nodeId e.Workflow.Branches [nodeId] with
    | none => rw [hc] at h; cases h
    | some allChildren =>
      rw [hc] at h
      simp only [Option.map_some', Option.some.injEq] at h
      subst h
      rw [mem_removeDuplicates, childLoop_some _ _ _ _ _ hc x]
      unfold reachable
      rw [Relation.ReflTransGen.cases_head_iff]
      constructor
      · rintro (h1 | h1 | ⟨b, hb, hs, hx⟩)
        · cases h1
        · exact Or.inl (List.mem_singleton.mp h1).symm
        · right
          refine ⟨b.DestinationID, ⟨b, hb, hs, rfl⟩, ?_⟩
          rcases hx with hx | ⟨l, hl, hx⟩
          · rw [hx]
          · exact (ih _ _ hl x).mp hx
      · rintro (h1 | ⟨c, ⟨b, hb, hs, hd⟩, hreach⟩)
        · exact Or.inr (Or.inl (List.mem_singleton.mpr h1.symm))
        · right
          right
          refine ⟨b, hb, hs, ?_⟩
          subst hd
          obtain ⟨l, hl⟩ := childLoop_some_calls _ _ _ _ _ hc b hb hs
          exact Or.inr ⟨l, hl, (ih _ _ hl x).mpr hreach⟩

theorem findChildNodes_nodup {fuel : Nat} {e : WorkflowExecution} {nodeId : String}
    {l : List String} (h : findChildNodes fuel e nodeId = some l) : l.Nodup := by
  cases fuel with
  | zero => simp [findChildNodes] at h
  | succ k =>
    rw [findChildNodes_succ] at h
    cases hc : childLoop (findChildNodes k e) nodeId e.Workflow.Branches [nodeId] with
    | none => rw [hc] at h; cases h
    | some allChildren =>
      rw [hc] at h
      simp only [Option.map_some', Option.some.injEq] at h
      subst h
      exact nodup_removeDuplicates _ _ List.nodup_nil

/-- A recursion that went deeper than `fuel` followed `fuel` branches in a row. -/
theorem findChildNodes_none_walk (e : WorkflowExecution) :
    ∀ (fuel : Nat) (nodeId : String), findChildNodes fuel e nodeId = none →
      ∃ path : List String, path.length = fuel ∧
        List.Chain (branchStep e.Workflow.Branches) nodeId path := by
  intro fuel
  induction fuel with
  | zero => intro nodeId _; exact ⟨[], rfl, List.Chain.nil⟩
  | succ k ih =>
    intro nodeId h
    rw [findChildNodes_succ] at h
    cases hc : childLoop (findChildNodes k e) nodeId e.Workflow.Branches [nodeId] with
    | some allChildren => rw [hc] at h; cases h
    | none =>
      obtain ⟨b, hb, hs, hn⟩ := childLoop_none _ _ _ _ hc
      obtain ⟨path, hlen, hchain⟩ := ih _ hn
      exact ⟨b.DestinationID :: path, by simp [hlen],
        List.Chain.cons ⟨b, hb, hs, rfl⟩ hchain⟩

theorem chain_transGen {branches : List Branch} {a : String} {l : List String}
    (h : List.Chain (branchStep branches) a l) :
    ∀ x ∈ l, Relation.TransGen (branchStep branches) a x := by
  induction h with
  | nil => intro x hx; cases hx
  | cons hstep _ ih =>
    intro x hx
    rcases List.mem_cons.mp hx with rfl | hx
    · exact Relation.TransGen.single hstep
    · exact Relation.TransGen.head hstep (ih x hx)

theorem chain_cycle {branches : List Branch} {a : String} {l : List String}
    (h : List.Chain (branchStep branches) a l) (hdup : ¬ (a :: l).Nodup) :
    ∃ x, Relation.TransGen (branchStep branches) x x := by
  induction h with
  | nil => exact absurd (List.nodup_singleton _) hdup
  | @cons a b l hstep hrest ih =>
    by_cases hmem : a ∈ b :: l
    · exact ⟨a, chain_transGen (List.Chain.cons hstep hrest) a hmem⟩
    · apply ih
      intro hnd
      exact hdup (List.nodup_cons.mpr ⟨hmem, hnd⟩)

theorem chain_sources {branches : List Branch} {a : String} {l : List String}
    (h : List.Chain (branchStep branches) a l) :
    ∀ v ∈ (a :: l).dropLast, v ∈ branches.map fun branch => branch.SourceID := by
  induction h with
  | nil => intro v hv; simp at hv
  | @cons a b l hstep _ ih =>
    intro v hv
    rw [List.dropLast_cons₂] at hv
    rcases List.mem_cons.mp hv with rfl | hv
    · obtain ⟨branch, hb, hs, _⟩ := hstep
      exact List.mem_map.mpr ⟨branch, hb, hs⟩
    · exact ih v hv

/-- On acyclic branches the recursion is never deeper than the number of
branches. -/
theorem findChildNodes_terminates (e : WorkflowExecution) (nodeId : String) (fuel : Nat)
    (hacyclic : acyclic e.Workflow.Branches) (hfuel : e.Workflow.Branches.length < fuel) :
    ∃ l, findChildNodes fuel e nodeId = some l := by
  cases h : findChildNodes fuel e nodeId with
  | some l => exact ⟨l, rfl⟩
  | none =>
    exfalso
    obtain ⟨path, hlen, hchain⟩ := findChildNodes_none_walk e fuel nodeId h
    by_cases hnd : (nodeId :: path).Nodup
    · have hnd' : ((nodeId :: path).dropLast).Nodup :=
        List.Nodup.sublist (List.dropLast_sublist _) hnd
      have hsub : (nodeId :: path).dropLast ⊆
          e.Workflow.Branches.map fun branch => branch.SourceID :=
        fun v hv => chain_sources hchain v hv
      have hle := (List.Nodup.subperm hnd' hsub).length_le
      simp only [List.length_dropLast, List.length_cons, List.length_map] at hle
      omega
    · obtain ⟨x, hx⟩ := chain_cycle hchain hnd
      exact hacyclic x hx

/-- Branches along which a position strictly falls are acyclic. -/
theorem acyclic_of_rank (branches : List Branch) (rank : String → Nat)
    (h : ∀ branch ∈ branches, rank branch.DestinationID < rank branch.SourceID) :
    acyclic branches := by
  have hlt : ∀ a b, Relation.TransGen (branchStep branches) a b → rank b < rank a := by
    intro a b hab
    induction hab with
    | single hstep =>
      obtain ⟨branch, hb, hs, hd⟩ := hstep
      rw [← hs, ← hd]
      exact h branch hb
    | tail _ hstep ih =>
      obtain ⟨branch, hb, hs, hd⟩ := hstep
      rw [← hd]
      rw [← hs] at ih
      exact Nat.lt_trans (h branch hb) ih
  intro a haa
  exact Nat.lt_irrefl _ (hlt a a haa)

theorem removeResult_mem {arr arr' : List ActionResult} {n n' i : Nat}
    (h : removeResult arr n i = some (arr', n')) : ∀ x ∈ arr', x ∈ arr := by
  unfold removeResult at h
  split_ifs at h
  simp only [Option.some.injEq, Prod.mk.injEq] at h
  obtain ⟨h1, _⟩ := h
  subst h1
  intro x hx
  rcases List.mem_append.mp hx with hx | hx
  · exact List.mem_of_mem_take hx
  · rcases List.mem_append.mp hx with hx | hx
    · exact List.mem_of_mem_drop (List.mem_of_mem_take hx)
    · exact List.mem_of_mem_drop hx

theorem reconcileBranches_mem (result : ActionResult) (i : Nat) :
    ∀ (bs : List Branch) (arr arr' : List ActionResult) (n n' : Nat),
      reconcileBranches result i bs arr n = some (arr', n') → ∀ x ∈ arr', x ∈ arr := by
  intro bs
  induction bs with
  | nil =>
    intro arr arr' n n' h
    simp only [reconcileBranches, Option.some.injEq, Prod.mk.injEq] at h
    obtain ⟨h1, _⟩ := h
    subst h1
    exact fun x hx => hx
  | cons b rest ih =>
    intro arr arr' n n' h
    unfold reconcileBranches at h
    by_cases hb : b.DestinationID = result.Action.ID ∧
        parentNotSkipped (arr.take n) b.SourceID = true
    · rw [if_pos hb] at h
      cases hrem : removeResult arr n i with
      | none => rw [hrem] at h; cases h
      | some p =>
        obtain ⟨arr1, n1⟩ := p
        rw [hrem] at h
        exact fun x hx => removeResult_mem hrem x (ih _ _ _ _ h x hx)
    · rw [if_neg hb] at h
      exact ih _ _ _ _ h

theorem reconcileLoop_mem (branches : List Branch) :
    ∀ (remaining i : Nat) (arr arr' : List ActionResult) (n n' : Nat),
      reconcileLoop branches remaining i arr n = some (arr', n') → ∀ x ∈ arr', x ∈ arr := by
  intro remaining
  induction remaining with
  | zero =>
    intro i arr arr' n n' h
    simp only [reconcileLoop, Option.some.injEq, Prod.mk.injEq] at h
    obtain ⟨h1, _⟩ := h
    subst h1
    exact fun x hx => hx
  | succ k ih =>
    intro i arr arr' n n' h
    unfold reconcileLoop at h
    cases hx : arr[i]? with
    | none =>
      rw [hx] at h
      simp only [Option.some.injEq, Prod.mk.injEq] at h
      obtain ⟨h1, _⟩ := h
      subst h1
      exact fun x hx => hx
    | some result =>
      rw [hx] at h
      simp only at h
      by_cases hs : result.Status ≠ "SKIPPED"
      · rw [if_pos hs] at h
        exact ih _ _ _ _ _ h
      · rw [if_neg hs] at h
        cases hb : reconcileBranches result i branches arr n with
        | none => rw [hb] at h; cases h
        | some p =>
          obtain ⟨arr1, n1⟩ := p
          rw [hb] at h
          exact fun x hx => reconcileBranches_mem _ _ _ _ _ _ _ hb x (ih _ _ _ _ _ h x hx)

/-- The reconciliation only removes entries. -/
theorem reconcileSkipped_mem {branches : List Branch} {results out : List ActionResult}
    (h : reconcileSkipped branches results = some out) : ∀ x ∈ out, x ∈ results := by
  unfold reconcileSkipped at h
  cases hl : reconcileLoop branches results.length 0 results results.length with
  | none => rw [hl] at h; cases h
  | some p =>
    obtain ⟨arr, n⟩ := p
    rw [hl] at h
    simp only [Option.some.injEq] at h
    subst h
    exact fun x hx => reconcileLoop_mem _ _ _ _ _ _ _ hl x (List.mem_of_mem_take hx)

theorem reduceResults_fields (env : Env) (e : WorkflowExecution) :
    (reduceResults env e).Result = e.Result ∧ (reduceResults env e).LastNode = e.LastNode ∧
      (reduceResults env e).ExecutionVariables = e.ExecutionVariables ∧
      (reduceResults env e).CompletedAt = e.CompletedAt := by
  unfold reduceResults
  split
  · exact ⟨rfl, rfl, rfl, rfl⟩
  · split_ifs <;> exact ⟨rfl, rfl, rfl, rfl⟩

theorem extraInputs_of_map {l l' : List ActionResult}
    (h : l.map (fun x => (x.Action, x.Status)) = l'.map (fun x => (x.Action, x.Status))) :
    extraInputs l = extraInputs l' := by
  induction l generalizing l' with
  | nil =>
    cases l' with
    | nil => rfl
    | cons y t => simp at h
  | cons x rest ih =>
    cases l' with
    | nil => simp at h
    | cons y t =>
      simp only [List.map_cons, List.cons.injEq, Prod.mk.injEq] at h
      obtain ⟨⟨ha, _⟩, ht⟩ := h
      have := ih ht
      unfold extraInputs at this ⊢
      simp only [List.filter_cons, ha]
      split_ifs <;> simp only [List.length_cons, this]

/-- The execution an accepted submit on the merge path stores. -/
theorem handleWorkflowQueue_stored (fuel : Nat) (env : Env) (db : Datastore) (r : ActionResult)
    (e : WorkflowExecution) (hget : getWorkflowExecution env db r.ExecutionId = some e)
    (hkey : e.ExecutionId = env.toLower r.ExecutionId)
    (hok : (handleWorkflowQueue fuel env db r).1 = .status 200)
    (hplain : ¬ (r.Status = "WAITING" ∧ r.Action.AppName = "User Input")) :
    ∃ (m : WorkflowExecution) (results : List ActionResult),
      mergeStage fuel e r = some m ∧
      reconcileSkipped m.Workflow.Branches m.Results = some results ∧
      getWorkflowExecution env (handleWorkflowQueue fuel env db r).2 r.ExecutionId =
        some (reduceResults env (checkFinished env { m with Results := results } r)) := by
  rcases handleWorkflowQueue_inv fuel env db r e hget with h | ⟨_, _, h⟩
  · rw [h] at hok
    exact absurd hok (by simp)
  rcases h with ⟨hw, hu, _⟩ | ⟨_, ⟨reply, herr, h⟩ | ⟨e', hm, h⟩⟩
  · exact absurd ⟨hw, hu⟩ hplain
  · rw [h] at hok
    rcases mergeAndCheck_error herr with hr | hr <;> rw [hr] at hok <;>
      exact absurd hok (by simp)
  · obtain ⟨m, results, hm', hrec, he'⟩ := mergeAndCheck_ok hm
    obtain ⟨_, hid, _, _⟩ := mergeAndCheck_frame hm
    obtain ⟨_, _, rid, _, _, _⟩ := reduceResults_frame env e'
    refine ⟨m, results, hm', hrec, ?_⟩
    rw [h, ← he']
    simp only [getWorkflowExecution]
    rw [← hkey, ← hid, ← rid, dbGet_dbPut]

theorem parentNotSkipped_eq_false {results : List ActionResult} {sourceID : String} :
    parentNotSkipped results sourceID = false ↔
      ∀ parent ∈ results, parent.Action.ID = sourceID →
        parent.Status = "SKIPPED" ∨ parent.Status = "FAILURE" := by
  unfold parentNotSkipped
  rw [List.any_eq_false]
  constructor
  · intro h parent hp hid
    have := h parent hp
    simp only [decide_eq_true_eq, not_and, not_not] at this
    by_cases hs : parent.Status = "SKIPPED"
    · exact Or.inl hs
    · exact Or.inr (this hid hs)
  · intro h parent hp
    simp only [decide_eq_true_eq, not_and, not_not]
    intro hid hs
    rcases h parent hp hid with h1 | h1
    · exact absurd h1 hs
    · exact h1

theorem finishedBranches_true (results : List ActionResult) (result : ActionResult) :
    ∀ (bs : List Branch) (finished : Bool),
      finishedBranches results result bs finished = true ↔
        finished = true ∧ ∀ b ∈ bs, b.DestinationID = result.Action.ID →
          parentNotSkipped results b.SourceID = false := by
  intro bs
  induction bs with
  | nil => intro finished; simp [finishedBranches]
  | cons b rest ih =>
    intro finished
    unfold finishedBranches
    by_cases hb : b.DestinationID = result.Action.ID ∧
        parentNotSkipped results b.SourceID = true
    · simp only [hb, and_self, ↓reduceIte, Bool.not_false, Bool.false_eq_true, false_iff,
        not_and]
      intro _ h
      have := h b (List.mem_cons_self _ _) hb.1
      rw [hb.2] at this
      cases this
    · simp only [hb, ↓reduceIte]
      cases finished with
      | false => simp
      | true =>
        simp only [Bool.not_true, Bool.false_eq_true, ↓reduceIte, ih, true_and,
          List.mem_cons, forall_eq_or_imp]
        constructor
        · intro h
          refine ⟨?_, h⟩
          intro hd
          by_contra hne
          exact hb ⟨hd, by simpa using hne⟩
        · exact fun h => h.2

theorem finishedScan_true_iff (branches : List Branch) (all : List ActionResult) :
    ∀ (l : List ActionResult) (f : Bool) (s s' : String),
      finishedScan branches all l (f, s) = (true, s') ↔
        f = true ∧
        (∀ x ∈ l, x.Status ≠ "EXECUTING" ∧
          (x.Status = "SKIPPED" → ∀ b ∈ branches, b.DestinationID = x.Action.ID →
            parentNotSkipped all b.SourceID = false)) ∧
        s' = ((l.getLast?).map fun x => x.Result).getD s := by
  intro l
  induction l with
  | nil =>
    intro f s s'
    simp only [finishedScan, Prod.mk.injEq, List.not_mem_nil, false_implies, implies_true,
      List.getLast?_nil, Option.map_none', Option.getD_none, true_and]
    exact ⟨fun h => ⟨h.1, h.2.symm⟩, fun h => ⟨h.1, h.2.symm⟩⟩
  | cons x rest ih =>
    intro f s s'
    unfold finishedScan
    have hlast : (((x :: rest).getLast?).map fun y => y.Result).getD s =
        ((rest.getLast?).map fun y => y.Result).getD x.Result := by
      rw [List.getLast?_cons]
      cases rest.getLast? <;> rfl
    by_cases hx : x.Status = "EXECUTING"
    · rw [if_pos hx]
      constructor
      · intro h
        simp only [Prod.mk.injEq, Bool.false_eq_true, false_and] at h
      · intro h
        exact absurd hx (h.2.1 x (List.mem_cons_self _ _)).1
    · rw [if_neg hx]
      simp only
      rw [ih, hlast]
      simp only [List.mem_cons, forall_eq_or_imp]
      by_cases hs : x.Status = "SKIPPED"
      · rw [if_pos hs, finishedBranches_true]
        constructor
        · rintro ⟨⟨hf, hb⟩, hrest, hres⟩
          exact ⟨hf, ⟨⟨hx, fun _ => hb⟩, hrest⟩, hres⟩
        · rintro ⟨hf, ⟨⟨_, hb⟩, hrest⟩, hres⟩
          exact ⟨⟨hf, hb hs⟩, hrest, hres⟩
      · rw [if_neg hs]
        constructor
        · rintro ⟨hf, hrest, hres⟩
          exact ⟨hf, ⟨⟨hx, fun h => absurd h hs⟩, hrest⟩, hres⟩
        · rintro ⟨hf, ⟨_, hrest⟩, hres⟩
          exact ⟨hf, hrest, hres⟩

theorem finishedScan_iff_condition (workflow : Workflow) (results : List ActionResult)
    (s' : String) :
    results.length = workflow.Actions.length + extraInputs results ∧
        finishedScan workflow.Branches results results (true, "") = (true, s') ↔
      terminationCondition workflow results ∧
        s' = ((results.getLast?).map fun x => x.Result).getD "" := by
  rw [finishedScan_true_iff]
  unfold terminationCondition extraInputs
  constructor
  · rintro ⟨hlen, _, hall, hres⟩
    refine ⟨⟨hlen, fun x hx => (hall x hx).1, ?_⟩, hres⟩
    intro x hx hs b hb hd
    exact parentNotSkipped_eq_false.mp ((hall x hx).2 hs b hb hd)
  · rintro ⟨⟨hlen, hexec, hskip⟩, hres⟩
    refine ⟨hlen, rfl, ?_, hres⟩
    intro x hx
    exact ⟨hexec x hx, fun hs b hb hd => parentNotSkipped_eq_false.mpr (hskip x hx hs b hb hd)⟩

/-- When the termination check sets FINISHED, and what it sets with it. -/
theorem checkFinished_iff (env : Env) (e : WorkflowExecution) (r : ActionResult)
    (hnf : e.Status ≠ "FINISHED") :
    ((checkFinished env e r).Status = "FINISHED" ↔ terminationCondition e.Workflow e.Results) ∧
      (terminationCondition e.Workflow e.Results →
        (checkFinished env e r).Result = ((e.Results.getLast?).map fun x => x.Result).getD "" ∧
        (checkFinished env e r).LastNode =
          (if e.LastNode = "" then r.Action.ID else e.LastNode)) := by
  unfold checkFinished
  cases hscan : finishedScan e.Workflow.Branches e.Results e.Results (true, "") with
  | mk finished lastResult =>
    by_cases hlen : e.Results.length = e.Workflow.Actions.length + extraInputs e.Results
    · rw [if_pos hlen]
      cases finished with
      | true =>
        have hcond := (finishedScan_iff_condition e.Workflow e.Results lastResult).mp
          ⟨hlen, hscan⟩
        exact ⟨⟨fun _ => hcond.1, fun _ => rfl⟩, fun _ => ⟨hcond.2, rfl⟩⟩
      | false =>
        have hno : ¬ terminationCondition e.Workflow e.Results := by
          intro hc
          have := (finishedScan_iff_condition e.Workflow e.Results
            (((e.Results.getLast?).map fun x => x.Result).getD "")).mpr ⟨hc, rfl⟩
          rw [hscan] at this
          simp at this
        exact ⟨⟨fun h => absurd h hnf, fun h => absurd h hno⟩, fun h => absurd h hno⟩
    · rw [if_neg hlen]
      have hno : ¬ terminationCondition e.Workflow e.Results := by
        intro hc
        exact hlen hc.1
      exact ⟨⟨fun h => absurd h hnf, fun h => absurd h hno⟩, fun h => absurd h hno⟩
theorem handleWorkflowQueue_ok_running (fuel : Nat) (env : Env) (db : Datastore)
    (r : ActionResult) (e : WorkflowExecution)
    (hget : getWorkflowExecution env db r.ExecutionId = some e)
    (hok : (handleWorkflowQueue fuel env db r).1 = .status 200) : ¬ rejectsSubmit e := by
  rcases handleWorkflowQueue_inv fuel env db r e hget with h | ⟨hrej, _, _⟩
  · rw [h] at hok
    exact absurd hok (by simp)
  · exact hrej

/-- A WAITING "User Input" result never leaves the stored execution FINISHED. -/
theorem handleWorkflowQueue_userInput_stored (fuel : Nat) (env : Env) (db : Datastore)
    (r : ActionResult) (e stored : WorkflowExecution)
    (hget : getWorkflowExecution env db r.ExecutionId = some e)
    (hkey : e.ExecutionId = env.toLower r.ExecutionId)
    (hok : (handleWorkflowQueue fuel env db r).1 = .status 200)
    (hui : r.Status = "WAITING" ∧ r.Action.AppName = "User Input")
    (hafter : getWorkflowExecution env (handleWorkflowQueue fuel env db r).2 r.ExecutionId =
      some stored) : stored.Status ≠ "FINISHED" := by
  intro hfin
  rcases handleWorkflowQueue_inv fuel env db r e hget with h | ⟨hrej, _, h⟩
  · rw [h] at hok
    exact absurd hok (by simp)
  have hnf : e.Status ≠ "FINISHED" := fun h => hrej (Or.inl h)
  rcases h with ⟨hw, _, h⟩ | ⟨hplain, _⟩
  · rcases userInputBranch_inv env db e r with h401 | ⟨w, payload, _, hid, _, _, hst, hdb⟩
    · rw [h, h401] at hok
      exact absurd hok (by simp)
    · rw [← h] at hst hdb
      rcases hst with ⟨_, h401⟩ | ⟨hws, _⟩
      · rw [h401] at hok
        exact absurd hok (by simp)
      · rcases hdb with hdb | hdb
        · rw [hdb, hget] at hafter
          cases hafter
          exact hnf hfin
        · rw [hdb] at hafter
          simp only [getWorkflowExecution] at hafter
          rw [← hkey, dbGet_dbPut] at hafter
          cases hafter
          rw [hws, hw] at hfin
          exact absurd hfin (by decide)
  · exact hplain hui

theorem failureBranch_exit {fuel : Nat} {e e1 : WorkflowExecution} {r : ActionResult}
    (hexit : e.Workflow.Configuration.ExitOnError = true)
    (h : failureBranch fuel e r = some e1) :
    e1.LastNode = r.Action.ID ∧ e1.Results = e.Results.map (abortRunning r.Status) := by
  unfold failureBranch at h
  simp only at h
  rw [if_pos hexit] at h
  cases h
  exact ⟨rfl, rfl⟩

theorem failureBranch_lastNode {fuel : Nat} {e e1 : WorkflowExecution} {r : ActionResult}
    (h : failureBranch fuel e r = some e1) :
    e1.LastNode = r.Action.ID ∨ e1.LastNode = e.LastNode := by
  unfold failureBranch at h
  simp only at h
  by_cases hexit : e.Workflow.Configuration.ExitOnError = true
  · rw [if_pos hexit] at h
    cases h
    exact Or.inl rfl
  · rw [if_neg hexit] at h
    cases hc : findChildNodes fuel e r.Action.ID with
    | none => rw [hc] at h; cases h
    | some childNodes =>
      rw [hc] at h
      cases h
      exact Or.inr rfl

theorem mergeResult_lastNode (e : WorkflowExecution) (r : ActionResult) :
    (mergeResult e r).LastNode = e.LastNode := by
  unfold mergeResult
  split_ifs
  · split <;> rfl
  · rfl

theorem mergeResult_mem (e : WorkflowExecution) (r : ActionResult) :
    ∀ x ∈ (mergeResult e r).Results, x = r ∨ x ∈ e.Results := by
  intro x hx
  unfold mergeResult at hx
  split_ifs at hx
  · split at hx
    · rcases List.mem_or_eq_of_mem_set hx with h | h
      · exact Or.inr h
      · exact Or.inl h
    · rcases List.mem_append.mp hx with h | h
      · exact Or.inr h
      · exact Or.inl (List.mem_singleton.mp h)
  · rcases List.mem_append.mp hx with h | h
    · exact Or.inr h
    · exact Or.inl (List.mem_singleton.mp h)

theorem mergeStage_lastNode {fuel : Nat} {e m : WorkflowExecution} {r : ActionResult}
    (h : mergeStage fuel e r = some m) :
    m.LastNode = r.Action.ID ∨ m.LastNode = e.LastNode := by
  unfold mergeStage at h
  simp only at h
  by_cases hr : r.Status = "ABORTED" ∨ r.Status = "FAILURE"
  · rw [if_pos hr] at h
    cases hf : failureBranch fuel e r with
    | none => rw [hf] at h; cases h
    | some e1 =>
      rw [hf] at h
      cases h
      rw [mergeResult_lastNode]
      exact failureBranch_lastNode hf
  · rw [if_neg hr] at h
    cases h
    rw [mergeResult_lastNode]
    exact Or.inr rfl

/-- The merge stage of a failing result under `exit_on_error`. -/
theorem mergeStage_exit {fuel : Nat} {e m : WorkflowExecution} {r : ActionResult}
    (hr : r.Status = "ABORTED" ∨ r.Status = "FAILURE")
    (hexit : e.Workflow.Configuration.ExitOnError = true)
    (h : mergeStage fuel e r = some m) :
    m.LastNode = r.Action.ID ∧
      ∀ x ∈ m.Results, x.Action.ID = r.Action.ID ∨ ∃ y ∈ e.Results, y.Action.ID = x.Action.ID := by
  unfold mergeStage at h
  simp only at h
  rw [if_pos hr] at h
  cases hf : failureBranch fuel e r with
  | none => rw [hf] at h; cases h
  | some e1 =>
    rw [hf] at h
    cases h
    obtain ⟨hl, hres⟩ := failureBranch_exit hexit hf
    rw [mergeResult_lastNode]
    refine ⟨hl, ?_⟩
    intro x hx
    rcases mergeResult_mem e1 r x hx with h | h
    · exact Or.inl (by rw [h])
    · right
      rw [hres] at h
      obtain ⟨y, hy, hxy⟩ := List.mem_map.mp h
      refine ⟨y, hy, ?_⟩
      rw [← hxy]
      unfold abortRunning
      split_ifs <;> rfl

theorem checkFinished_lastNode (env : Env) (e : WorkflowExecution) (r : ActionResult) :
    (checkFinished env e r).LastNode = e.LastNode ∨
      (checkFinished env e r).LastNode = r.Action.ID := by
  unfold checkFinished
  by_cases hlen : e.Results.length = e.Workflow.Actions.length + extraInputs e.Results
  · rw [if_pos hlen]
    cases finishedScan e.Workflow.Branches e.Results e.Results (true, "") with
    | mk finished lastResult =>
      cases finished with
      | false => exact Or.inl rfl
      | true =>
        by_cases hl : e.LastNode = ""
        · right
          show (if e.LastNode = "" then r.Action.ID else e.LastNode) = _
          rw [if_pos hl]
        · left
          show (if e.LastNode = "" then r.Action.ID else e.LastNode) = _
          rw [if_neg hl]
  · rw [if_neg hlen]
    exact Or.inl rfl

theorem skipNodeAdd_eq_false {branches : List Branch} {childNodes : List String}
    {nodeId : String} :
    skipNodeAdd branches childNodes nodeId = false ↔
      ∀ b ∈ branches, b.DestinationID = nodeId → b.SourceID ∈ childNodes := by
  unfold skipNodeAdd
  rw [List.any_eq_false]
  constructor
  · intro h b hb hd
    have := h b hb
    simp only [decide_eq_true_eq, not_and, not_not] at this
    simpa using this hd
  · intro h b hb
    simp only [decide_eq_true_eq, not_and, not_not]
    intro hd
    simpa using h b hb hd

/-- The results synthesised by the loop of lines 981-1036. -/
theorem mem_skippedResults (e : WorkflowExecution) (r : ActionResult) (cn : List String) :
    ∀ (nodes : List String) (res : ActionResult),
      res ∈ skippedResults e r cn nodes ↔
        ∃ d ∈ nodes, d ≠ r.Action.ID ∧
          ∃ a, e.Workflow.Actions.find? (fun action => action.ID = d) = some a ∧
            a.ID.utf8ByteSize ≠ 0 ∧ skipNodeAdd e.Workflow.Branches cn d = false ∧
            res = { Action := a, ExecutionId := r.ExecutionId,
                    Authorization := r.Authorization,
                    Result := "Skipped because of previous node",
                    StartedAt := 0, CompletedAt := 0, Status := "SKIPPED" } := by
  intro nodes
  induction nodes with
  | nil => intro res; simp [skippedResults]
  | cons d rest ih =>
    intro res
    unfold skippedResults
    have hrest : (∃ d' ∈ d :: rest, d' ≠ r.Action.ID ∧
        ∃ a, e.Workflow.Actions.find? (fun action => action.ID = d') = some a ∧
          a.ID.utf8ByteSize ≠ 0 ∧ skipNodeAdd e.Workflow.Branches cn d' = false ∧
          res = { Action := a, ExecutionId := r.ExecutionId,
                  Authorization := r.Authorization,
                  Result := "Skipped because of previous node",
                  StartedAt := 0, CompletedAt := 0, Status := "SKIPPED" }) ↔
        (d ≠ r.Action.ID ∧
          ∃ a, e.Workflow.Actions.find? (fun action => action.ID = d) = some a ∧
            a.ID.utf8ByteSize ≠ 0 ∧ skipNodeAdd e.Workflow.Branches cn d = false ∧
            res = { Action := a, ExecutionId := r.ExecutionId,
                    Authorization := r.Authorization,
                    Result := "Skipped because of previous node",
                    StartedAt := 0, CompletedAt := 0, Status := "SKIPPED" }) ∨
        res ∈ skippedResults e r cn rest := by
      rw [ih]
      simp only [List.mem_cons, exists_eq_or_imp]
    rw [hrest]
    by_cases hd : d = r.Action.ID
    · rw [if_pos hd]
      constructor
      · exact Or.inr
      · rintro (⟨h, _⟩ | h)
        · exact absurd hd h
        · exact h
    · rw [if_neg hd]
      simp only
      cases hfind : e.Workflow.Actions.find? (fun action => action.ID = d) with
      | none =>
        simp only [Option.getD_none]
        rw [if_pos (by decide)]
        constructor
        · exact Or.inr
        · rintro (⟨_, a, ha, _⟩ | h)
          · cases ha
          · exact h
      | some a0 =>
        simp only [Option.getD_some]
        by_cases hlen : a0.ID.utf8ByteSize = 0
        · rw [if_pos hlen]
          constructor
          · exact Or.inr
          · rintro (⟨_, a, ha, hne, _⟩ | h)
            · cases ha
              exact absurd hlen hne
            · exact h
        · rw [if_neg hlen]
          by_cases hskip : skipNodeAdd e.Workflow.Branches cn d = true
          · rw [if_pos hskip]
            constructor
            · exact Or.inr
            · rintro (⟨_, a, _, _, hs, _⟩ | h)
              · rw [hskip] at hs
                cases hs
              · exact h
          · rw [if_neg hskip]
            rw [List.mem_cons]
            constructor
            · rintro (h | h)
              · exact Or.inl ⟨hd, a0, rfl, hlen, by simpa using hskip, h⟩
              · exact Or.inr h
            · rintro (⟨_, a, ha, _, _, h⟩ | h)
              · cases ha
                exact Or.inl h
              · exact Or.inr h

theorem skippedResults_ids_sublist (e : WorkflowExecution) (r : ActionResult)
    (cn : List String) :
    ∀ nodes : List String,
      List.Sublist ((skippedResults e r cn nodes).map fun res => res.Action.ID) nodes := by
  intro nodes
  induction nodes with
  | nil => simp [skippedResults]
  | cons d rest ih =>
    unfold skippedResults
    by_cases hd : d = r.Action.ID
    · rw [if_pos hd]
      exact List.Sublist.cons _ ih
    · rw [if_neg hd]
      simp only
      cases hfind : e.Workflow.Actions.find? (fun action => action.ID = d) with
      | none =>
        simp only [Option.getD_none]
        rw [if_pos (by decide)]
        exact List.Sublist.cons _ ih
      | some a0 =>
        simp only [Option.getD_some]
        by_cases hlen : a0.ID.utf8ByteSize = 0
        · rw [if_pos hlen]
          exact List.Sublist.cons _ ih
        · rw [if_neg hlen]
          by_cases hskip : skipNodeAdd e.Workflow.Branches cn d = true
          · rw [if_pos hskip]
            exact List.Sublist.cons _ ih
          · rw [if_neg hskip]
            have hid : a0.ID = d := by
              have := List.find?_some hfind
              simpa using this
            rw [List.map_cons]
            show List.Sublist (a0.ID :: _) (d :: rest)
            rw [hid]
            exact List.Sublist.cons₂ _ ih

theorem findChildNodes_tailLoop (fuel : Nat) :
    findChildNodes fuel runningTailLoop "B" = none ∧
      findChildNodes fuel runningTailLoop "A" = none := by
  induction fuel with
  | zero => exact ⟨rfl, rfl⟩
  | succ k ih =>
    constructor
    · rw [findChildNodes_succ]
      show (childLoop (findChildNodes k runningTailLoop) "B"
        [{ SourceID := "A", DestinationID := "B" }, { SourceID := "B", DestinationID := "B" }]
        ["B"]).map (removeDuplicates []) = none
      unfold childLoop
      rw [if_neg (by decide)]
      unfold childLoop
      rw [if_pos rfl, ih.1]
      rfl
    · rw [findChildNodes_succ]
      show (childLoop (findChildNodes k runningTailLoop) "A"
        [{ SourceID := "A", DestinationID := "B" }, { SourceID := "B", DestinationID := "B" }]
        ["A"]).map (removeDuplicates []) = none
      unfold childLoop
      rw [if_pos rfl, ih.1]
      rfl

/-- The entries of one list of results are matched, in action and status, by
entries of a list with the same actions and statuses. -/
theorem mem_of_map_eq {l l' : List ActionResult}
    (h : l.map (fun x => (x.Action, x.Status)) = l'.map (fun x => (x.Action, x.Status)))
    (x : ActionResult) (hx : x ∈ l) :
    ∃ y ∈ l', y.Action = x.Action ∧ y.Status = x.Status := by
  have hin : (x.Action, x.Status) ∈ l.map (fun x => (x.Action, x.Status)) :=
    List.mem_map.mpr ⟨x, hx, rfl⟩
  rw [h] at hin
  obtain ⟨y, hy, hyeq⟩ := List.mem_map.mp hin
  exact ⟨y, hy, congrArg Prod.fst hyeq, congrArg Prod.snd hyeq⟩

theorem terminationCondition_mono (workflow : Workflow) {l l' : List ActionResult}
    (h : l.map (fun x => (x.Action, x.Status)) = l'.map (fun x => (x.Action, x.Status)))
    (hl : terminationCondition workflow l) : terminationCondition workflow l' := by
  obtain ⟨hlen, hexec, hskip⟩ := hl
  have hlength : l.length = l'.length := by
    have := congrArg List.length h
    simpa using this
  have hextra := extraInputs_of_map h
  unfold extraInputs at hextra
  refine ⟨?_, ?_, ?_⟩
  · rw [← hlength, ← hextra]
    exact hlen
  · intro y hy
    obtain ⟨x, hx, _, hst⟩ := mem_of_map_eq h.symm y hy
    rw [← hst]
    exact hexec x hx
  · intro y hy hs branch hb hd q hq hsrc
    obtain ⟨x, hx, hact, hst⟩ := mem_of_map_eq h.symm y hy
    obtain ⟨p, hp, hpact, hpst⟩ := mem_of_map_eq h.symm q hq
    have := hskip x hx (hst.trans hs) branch hb (by rw [hact]; exact hd) p hp
      (by rw [hpact]; exact hsrc)
    rw [hpst] at this
    exact this

/-- The termination condition reads the actions and the statuses of the
results only. -/
theorem terminationCondition_of_map (workflow : Workflow) {l l' : List ActionResult}
    (h : l.map (fun x => (x.Action, x.Status)) = l'.map (fun x => (x.Action, x.Status))) :
    terminationCondition workflow l ↔ terminationCondition workflow l' :=
  ⟨terminationCondition_mono workflow h, terminationCondition_mono workflow h.symm⟩

/-- When the first result of the action `id` in `l` is `r`, the search of lines
1078-1084 finds its index, and the overwrite of line 1104 changes nothing. -/
theorem findResult_of_find {id : String} {r : ActionResult} :
    ∀ {l : List ActionResult}, l.find? (fun item => item.Action.ID = id) = some r →
      ∃ i, findResult l id = some i ∧ l.getD i {} = r ∧ l.set i r = l
  | [], h => by simp at h
  | x :: t, h => by
    by_cases hx : x.Action.ID = id
    · rw [List.find?_cons_of_pos _ (by simpa using hx)] at h
      cases h
      exact ⟨0, by simp [findResult, hx], rfl, rfl⟩
    · rw [List.find?_cons_of_neg _ (by simpa using hx)] at h
      obtain ⟨i, hi, hget, hset⟩ := findResult_of_find h
      refine ⟨i + 1, by simp [findResult, hx, hi], ?_, ?_⟩
      · simpa using hget
      · simp [hset]

/-- Writing a value into an execution variable that holds it changes nothing. -/
theorem setExecutionVariable_same (name value : String) :
    ∀ (vars : List Variable), (∀ v ∈ vars, v.Name = name → v.Value = value) →
      setExecutionVariable name value vars = vars
  | [], _ => rfl
  | v :: rest, h => by
    unfold setExecutionVariable
    by_cases hv : v.Name = name
    · rw [if_pos hv]
      have := h v (List.mem_cons_self _ _) hv
      cases v
      simp_all
    · rw [if_neg hv, setExecutionVariable_same name value rest
        (fun w hw => h w (List.mem_cons_of_mem _ hw))]

/-- The merge of a result that is already the stored result of its action, when
its action binds no execution variable or the variable holds its payload. -/
theorem mergeResult_of_stored {e : WorkflowExecution} {r : ActionResult}
    (hfind : e.Results.find? (fun item => item.Action.ID = r.Action.ID) = some r)
    (hvar : r.Action.ExecutionVariable.Name = "" ∨
      ∀ v ∈ e.ExecutionVariables, v.Name = r.Action.ExecutionVariable.Name →
        v.Value = r.Result) :
    mergeResult e r = e := by
  obtain ⟨i, hi, hget, hset⟩ := findResult_of_find hfind
  have hlen : e.Results.length > 0 := by
    cases hres : e.Results with
    | nil => rw [hres] at hfind; simp at hfind
    | cons x t => simp
  unfold mergeResult
  rw [if_pos hlen, hi]
  simp only
  rw [hget, hset]
  rcases hvar with h | h
  · rw [h, if_neg (by decide)]
  · rw [setExecutionVariable_same _ _ _ h, ite_self]

/-- The reconciliation removes nothing when no SKIPPED result has a parent with
a result that is neither SKIPPED nor FAILURE. -/
theorem reconcileSkipped_of_notRun (e : WorkflowExecution) (h : skippedParentsNotRun e) :
    reconcileSkipped e.Workflow.Branches e.Results = some e.Results := by
  unfold reconcileSkipped
  rw [reconcileLoop_noop e.Workflow.Branches e.Results.length 0 e.Results e.Results.length]
  · simp
  · intro x hx
    rw [List.drop_zero] at hx
    rw [List.take_length]
    unfold removalCount
    split_ifs with hs
    · rw [List.length_eq_zero]
      unfold blockingBranches
      rw [List.filter_eq_nil_iff]
      intro b hb
      have := h x hx hs b hb
      simp only [decide_eq_true_eq, not_and, Bool.not_eq_true]
      intro hd
      exact parentNotSkipped_eq_false.mpr (this hd)
    · rfl

/-- A termination check that does not set FINISHED leaves the execution as it
is. -/
theorem checkFinished_of_not (env : Env) (e : WorkflowExecution) (r : ActionResult)
    (h : (checkFinished env e r).Status ≠ "FINISHED") : checkFinished env e r = e := by
  unfold checkFinished at h ⊢
  by_cases hlen : e.Results.length = e.Workflow.Actions.length + extraInputs e.Results
  · rw [if_pos hlen] at h ⊢
    cases hscan : finishedScan e.Workflow.Branches e.Results e.Results (true, "") with
    | mk finished lastResult =>
      rw [hscan] at h
      cases finished
      · rfl
      · exact absurd rfl h
  · rw [if_neg hlen]

/-- The reduction of lines 1220-1239 changes nothing when applied a second
time. -/
theorem reduceResults_idem (env : Env) (e : WorkflowExecution) :
    reduceResults env (reduceResults env e) = reduceResults env e := by
  have hmsg : ¬ ("[ERROR] Result too large to handle (https://github.com/frikky/shuffle/issues/171)".utf8ByteSize >
      500000) := by decide
  have hcut : ∀ (c : WorkflowExecution),
      reduceResults env { c with
        Results := c.Results.map fun item =>
          if item.Result.utf8ByteSize > 500000 then
            { item with Result :=
                "[ERROR] Result too large to handle (https://github.com/frikky/shuffle/issues/171)" }
          else item } =
      { c with
        Results := c.Results.map fun item =>
          if item.Result.utf8ByteSize > 500000 then
            { item with Result :=
                "[ERROR] Result too large to handle (https://github.com/frikky/shuffle/issues/171)" }
          else item } := by
    intro c
    generalize hcdef : ({ c with
        Results := c.Results.map fun item =>
          if item.Result.utf8ByteSize > 500000 then
            { item with Result :=
                "[ERROR] Result too large to handle (https://github.com/frikky/shuffle/issues/171)" }
          else item } : WorkflowExecution) = c'
    unfold reduceResults
    cases hlen : env.marshalLen c' with
    | none => rfl
    | some len =>
      simp only
      split_ifs with hbig
      · subst hcdef
        simp only [List.map_map]
        congr 1
        apply List.map_congr_left
        intro x _
        simp only [Function.comp]
        by_cases hx : x.Result.utf8ByteSize > 500000
        · rw [if_pos hx]
          exact if_neg hmsg
        · rw [if_neg hx, if_neg hx]
      · rfl
  cases hlen : env.marshalLen e with
  | none =>
    have : reduceResults env e = e := by
      unfold reduceResults
      rw [hlen]
    rw [this, this]
  | some len =>
    by_cases hbig : len ≥ 1048487
    · have : reduceResults env e = { e with
          Results := e.Results.map fun item =>
            if item.Result.utf8ByteSize > 500000 then
              { item with Result :=
                  "[ERROR] Result too large to handle (https://github.com/frikky/shuffle/issues/171)" }
            else item } := by
        unfold reduceResults
        rw [hlen]
        simp only
        rw [if_pos hbig]
      rw [this]
      exact hcut e
    · have : reduceResults env e = e := by
        unfold reduceResults
        rw [hlen]
        simp only
        rw [if_neg hbig]
      rw [this, this]

/-- A second submit of a result whose first submit was accepted is answered
401 and changes nothing when the result is ABORTED or FAILURE under
`exit_on_error`, or when the first submit left the execution FINISHED. -/
theorem handleWorkflowQueue_again_rejected (fuel fuel' : Nat) (env : Env) (db : Datastore)
    (actionResult : ActionResult) (workflowExecution : WorkflowExecution)
    (hget : getWorkflowExecution env db actionResult.ExecutionId = some workflowExecution)
    (hkey : workflowExecution.ExecutionId = env.toLower actionResult.ExecutionId)
    (hok : (handleWorkflowQueue fuel env db actionResult).1 = .status 200)
    (hsticky :
      ((actionResult.Status = "ABORTED" ∨ actionResult.Status = "FAILURE") ∧
        workflowExecution.Workflow.Configuration.ExitOnError = true) ∨
      ∃ stored, getWorkflowExecution env (handleWorkflowQueue fuel env db actionResult).2
        actionResult.ExecutionId = some stored ∧ stored.Status = "FINISHED") :
    handleWorkflowQueue fuel' env (handleWorkflowQueue fuel env db actionResult).2 actionResult =
      (.status 401, (handleWorkflowQueue fuel env db actionResult).2) := by
  rcases handleWorkflowQueue_inv fuel env db actionResult workflowExecution hget with
    h | ⟨hrej, _, h⟩
  · rw [h] at hok
    exact absurd hok (by simp)
  have hnf : workflowExecution.Status ≠ "FINISHED" := fun h => hrej (Or.inl h)
  have hnofin : ∀ stored, getWorkflowExecution env db actionResult.ExecutionId = some stored →
      stored.Status ≠ "FINISHED" := by
    intro stored hs
    rw [hget] at hs
    cases hs
    exact hnf
  rcases h with ⟨hw, _, h⟩ | ⟨_, ⟨reply, herr, h⟩ | ⟨e', hm, h⟩⟩
  · -- the user-input block: neither reason can hold
    exfalso
    rcases hsticky with ⟨hr, _⟩ | ⟨stored, hafter, hfin⟩
    · rw [hw] at hr
      rcases hr with hr | hr <;> exact absurd hr (by decide)
    · rcases userInputBranch_inv env db workflowExecution actionResult with
        h401 | ⟨w, payload, _, hid, _, _, hst, hdb⟩
      · rw [h, h401] at hok
        exact absurd hok (by simp)
      · rw [← h] at hst hdb
        rcases hst with ⟨_, h401⟩ | ⟨hws, _⟩
        · rw [h401] at hok
          exact absurd hok (by simp)
        · rcases hdb with hdb | hdb
          · rw [hdb] at hafter
            exact hnofin stored hafter hfin
          · rw [hdb] at hafter
            simp only [getWorkflowExecution] at hafter
            rw [← hkey, dbGet_dbPut] at hafter
            cases hafter
            rw [hws, hw] at hfin
            exact absurd hfin (by decide)
  · rw [h] at hok
    rcases mergeAndCheck_error herr with hr | hr <;> rw [hr] at hok <;>
      exact absurd hok (by simp)
  · obtain ⟨hwf, hid, hau, hst⟩ := mergeAndCheck_frame hm
    obtain ⟨rst, rwf, rid, _, _, _⟩ := reduceResults_frame env e'
    have hstored : getWorkflowExecution env (handleWorkflowQueue fuel env db actionResult).2
        actionResult.ExecutionId = some (reduceResults env e') := by
      rw [h]
      simp only [getWorkflowExecution]
      rw [← hkey, ← hid, ← rid, dbGet_dbPut]
    apply handleWorkflowQueue_of_rejects fuel' env _ actionResult _ hstored
    unfold rejectsSubmit
    rw [rst, rwf, hwf]
    rcases hst with hst | ⟨hfin, _, _⟩
    · rcases hsticky with ⟨hr, hexit⟩ | ⟨stored, hafter, hfin⟩
      · right
        refine ⟨?_, hexit⟩
        rw [hst]
        unfold statusAfterFailure
        rw [if_pos ⟨hr, hexit⟩]
        exact hr
      · left
        rw [hstored] at hafter
        cases hafter
        rw [rst] at hfin
        exact hfin
    · exact Or.inl hfin

/-- A submit of a result that is already the stored result of its action
leaves the stored execution as it is, when the action writes no new value into
an execution variable, the reconciliation has nothing to remove, the
termination condition is not met and the reduction has been applied. -/
theorem handleWorkflowQueue_again_same (fuel : Nat) (env : Env) (db : Datastore)
    (r : ActionResult) (s : WorkflowExecution)
    (hget : getWorkflowExecution env db r.ExecutionId = some s)
    (hkey : s.ExecutionId = env.toLower r.ExecutionId)
    (hab : r.Status ≠ "ABORTED") (hfa : r.Status ≠ "FAILURE")
    (hplain : ¬ (r.Status = "WAITING" ∧ r.Action.AppName = "User Input"))
    (hfind : s.Results.find? (fun item => item.Action.ID = r.Action.ID) = some r)
    (hskip : skippedParentsNotRun s)
    (hvar : r.Action.ExecutionVariable.Name = "" ∨
      ∀ v ∈ s.ExecutionVariables, v.Name = r.Action.ExecutionVariable.Name →
        v.Value = r.Result)
    (hcond : ¬ terminationCondition s.Workflow s.Results)
    (hred : reduceResults env s = s) :
    getWorkflowExecution env (handleWorkflowQueue fuel env db r).2 r.ExecutionId = some s := by
  rcases handleWorkflowQueue_inv fuel env db r s hget with h | ⟨hrej, _, h⟩
  · rw [h]
    exact hget
  rcases h with ⟨hw, hu, _⟩ | ⟨_, ⟨reply, _, h⟩ | ⟨e', hm, h⟩⟩
  · exact absurd ⟨hw, hu⟩ hplain
  · rw [h]
    exact hget
  · have hnf : s.Status ≠ "FINISHED" := fun h => hrej (Or.inl h)
    have hck : checkFinished env s r = s :=
      checkFinished_of_not env s r fun hfin => hcond ((checkFinished_iff env s r hnf).1.mp hfin)
    have hsame : mergeAndCheck fuel env s r = .ok s := by
      unfold mergeAndCheck mergeStage
      rw [if_neg (by rintro (h | h); exacts [hab h, hfa h])]
      simp only
      rw [mergeResult_of_stored hfind hvar, reconcileSkipped_of_notRun s hskip]
      simp only
      exact congrArg Except.ok hck
    rw [hsame] at hm
    cases hm
    rw [h, hred]
    simp only [getWorkflowExecution]
    rw [← hkey, dbGet_dbPut]

/-! ## Lemmas on the stages of `handleExecution` -/

theorem cloudExecution_ne_started (env : Env) (workflowExecution exec : WorkflowExecution) :
    cloudExecution env workflowExecution ≠ .started exec := by
  unfold cloudExecution
  intro h
  simp only at h
  split_ifs at h

theorem resolveWorkflow_error {env : Env} {id : String} {workflow : Workflow}
    {result : StartResult} (h : resolveWorkflow env id workflow = .error result) :
    ∃ message err, result = .failed message err := by
  unfold resolveWorkflow at h
  split at h
  · simp only [Except.error.injEq] at h
    exact ⟨_, _, h.symm⟩
  · split_ifs at h <;> simp only [Except.error.injEq] at h <;> exact ⟨_, _, h.symm⟩

theorem postExecution_error {env : Env} {workflow : Workflow} {request : StartRequest}
    {workflowExecution : WorkflowExecution} {result : StartResult}
    (h : postExecution env workflow request workflowExecution = .error result) :
    ∃ message err, result = .failed message err := by
  unfold postExecution at h
  split at h
  · simp only [Except.error.injEq] at h
    exact ⟨_, _, h.symm⟩
  · simp only at h
    split_ifs at h <;> simp only [Except.error.injEq] at h <;> exact ⟨_, _, h.symm⟩

theorem refuseExecution_ne_started (env : Env) (db : Datastore) (id : String)
    (request : StartRequest) (answer referenceId : String) (exec : WorkflowExecution) :
    (refuseExecution env db id request answer referenceId).1 ≠ .started exec := by
  unfold refuseExecution
  intro h
  cases hg : getWorkflowExecution env db referenceId with
  | none => rw [hg] at h; cases h
  | some oldExecution =>
    rw [hg] at h
    simp only at h
    by_cases hid : oldExecution.Workflow.ID ≠ id
    · rw [if_pos hid] at h
      cases h
    · rw [if_neg hid] at h
      split at h
      · cases h
      · split at h <;> cases h

theorem continueExecution_proceed (env : Env) (request : StartRequest)
    (workflowExecution : WorkflowExecution) :
    ∃ proceeded makeNew, continueExecution env request workflowExecution =
        .proceed proceeded makeNew ∧
      makeNew = decide (workflowExecution.ExecutionId.utf8ByteSize = 0) ∧
      proceeded.Workflow = workflowExecution.Workflow ∧
      proceeded.Results = workflowExecution.Results := by
  unfold continueExecution
  simp only
  cases request.start with
  | none => exact ⟨_, _, rfl, rfl, by split_ifs <;> rfl, by split_ifs <;> rfl⟩
  | some start => exact ⟨_, _, rfl, rfl, by split_ifs <;> rfl, by split_ifs <;> rfl⟩

theorem getExecution_stop {env : Env} {db db' : Datastore} {id : String}
    {request : StartRequest} {workflowExecution : WorkflowExecution} {result : StartResult}
    (h : getExecution env db id request workflowExecution = .stop result db')
    (exec : WorkflowExecution) : result ≠ .started exec := by
  unfold getExecution at h
  split at h
  · split_ifs at h
    · simp only [RequestOutcome.stop.injEq] at h
      rw [← h.1]
      exact refuseExecution_ne_started _ _ _ _ _ _ _
    · split at h
      · simp only [RequestOutcome.stop.injEq] at h
        rw [← h.1]
        simp
      · obtain ⟨p, m, hp, _⟩ := continueExecution_proceed env request ‹WorkflowExecution›
        rw [hp] at h
        cases h
  · obtain ⟨p, m, hp, _⟩ := continueExecution_proceed env request workflowExecution
    rw [hp] at h
    cases h

theorem readRequest_stop {env : Env} {db db' : Datastore} {id : String} {workflow : Workflow}
    {request : StartRequest} {result : StartResult}
    (h : readRequest env db id workflow request = .stop result db')
    (exec : WorkflowExecution) : result ≠ .started exec := by
  unfold readRequest at h
  split_ifs at h
  · cases hp : postExecution env workflow request { Workflow := workflow } with
    | error r =>
      rw [hp] at h
      simp only [RequestOutcome.stop.injEq] at h
      obtain ⟨message, err, hr⟩ := postExecution_error hp
      rw [← h.1, hr]
      simp
    | ok e => rw [hp] at h; cases h
  · exact getExecution_stop h exec

theorem injectAuth_error {env : Env} {orgId : String} {action : Action} {result : StartResult}
    (h : injectAuth env orgId action = .error result) :
    ∃ message err, result = .failed message err := by
  unfold injectAuth at h
  split_ifs at h
  split at h
  · simp only [Except.error.injEq] at h
    exact ⟨_, _, h.symm⟩
  · simp only at h
    split_ifs at h
    simp only [Except.error.injEq] at h
    exact ⟨_, _, h.symm⟩

theorem actionLoop_error {env : Env} {orgId : String} {workflowExecution : WorkflowExecution}
    {childNodes : List String} {result : StartResult} :
    ∀ (actions : List Action) (startFound : Bool) (newActions : List Action)
      (defaultResults : List ActionResult),
      actionLoop env orgId workflowExecution childNodes actions startFound newActions
        defaultResults = .error result →
      ∃ message err, result = .failed message err := by
  intro actions
  induction actions with
  | nil => intro _ _ _ h; simp [actionLoop] at h
  | cons action rest ih =>
    intro startFound newActions defaultResults h
    rw [actionLoop] at h
    by_cases henv : action.Environment = ""
    · rw [if_pos henv] at h
      simp only [Except.error.injEq] at h
      exact ⟨_, _, h.symm⟩
    · rw [if_neg henv] at h
      cases hi : injectAuth env orgId { action with LargeImage := "" } with
      | error r =>
        rw [hi] at h
        simp only [Except.error.injEq] at h
        rw [← h]
        exact injectAuth_error hi
      | ok stored =>
        rw [hi] at h
        exact ih _ _ _ h

theorem prepareExecution_error {fuel : Nat} {env : Env} {workflow : Workflow}
    {workflowExecution : WorkflowExecution} {result : StartResult}
    (h : prepareExecution fuel env workflow workflowExecution = .error result)
    (exec : WorkflowExecution) : result ≠ .started exec := by
  unfold prepareExecution at h
  split at h
  · simp only [Except.error.injEq] at h
    rw [← h]
    simp
  · split at h
    · rename_i r hr
      simp only [Except.error.injEq] at h
      obtain ⟨message, err, hf⟩ := actionLoop_error _ _ _ _ hr
      rw [← h, hf]
      simp
    · split_ifs at h
      simp only [Except.error.injEq] at h
      rw [← h]
      simp

theorem environmentLoop_error {allEnvs : List Environment} {executionOrg baseDockerName : String}
    {result : StartResult} :
    ∀ (actions : List Action) (environments imageNames : List String) (cloudExec : Bool),
      environmentLoop allEnvs executionOrg baseDockerName actions environments imageNames
        cloudExec = .error result →
      ∃ message err, result = .failed message err := by
  intro actions
  induction actions with
  | nil => intro _ _ _ h; simp [environmentLoop] at h
  | cons action rest ih =>
    intro environments imageNames cloudExec h
    rw [environmentLoop] at h
    cases hf : allEnvs.find? (fun env => env.Name = action.Environment) with
    | none =>
      rw [hf] at h
      cases h
      exact ⟨_, _, rfl⟩
    | some found =>
      rw [hf] at h
      simp only at h
      by_cases ht : found.EnvironmentType = "cloud" ∨ found.EnvironmentType = "onprem"
      · rw [if_pos ht] at h
        exact ih _ _ _ h
      · rw [if_neg ht] at h
        cases h
        exact ⟨_, _, rfl⟩

/-- The execution with the organisation of line 2844. -/
theorem checkEnvironments_ok {env : Env} {workflow : Workflow}
    {workflowExecution exec : WorkflowExecution} {environments : List String} {cloudExec : Bool}
    (h : checkEnvironments env workflow workflowExecution = .ok (exec, environments, cloudExec)) :
    exec = { workflowExecution with ExecutionOrg := exec.ExecutionOrg } := by
  unfold checkEnvironments at h
  simp only at h
  split_ifs at h
  all_goals
    split at h
    · cases h
    · split_ifs at h
      split at h
      · cases h
      · split at h
        · cases h
        · simp only [Except.ok.injEq, Prod.mk.injEq] at h
          rw [← h.1]

theorem checkEnvironments_error {env : Env} {workflow : Workflow}
    {workflowExecution : WorkflowExecution} {result : StartResult}
    (h : checkEnvironments env workflow workflowExecution = .error result)
    (exec : WorkflowExecution) : result ≠ .started exec := by
  unfold checkEnvironments at h
  simp only at h
  split_ifs at h
  all_goals first
    | (cases h; simp)
    | skip
  all_goals
    split at h
    · cases h
      simp
    · split_ifs at h
      · cases h
        simp
      · split at h
        · rename_i r hr
          obtain ⟨message, err, hf⟩ := environmentLoop_error _ _ _ _ hr
          cases h
          rw [hf]
          simp
        · split at h
          · cases h
            simp
          · cases h
/-- A start that succeeds went through every stage. -/
theorem handleExecution_started {fuel : Nat} {env : Env} {db db' : Datastore}
    {queues queues' : QueueStore} {id : String} {workflow : Workflow} {request : StartRequest}
    {exec : WorkflowExecution}
    (h : handleExecution fuel env db queues id workflow request = (.started exec, db', queues')) :
    ∃ wf workflowExecution makeNew prepared environments,
      resolveWorkflow env id workflow = .ok wf ∧
      readRequest env db id wf request = .proceed workflowExecution makeNew ∧
      prepareExecution fuel env wf (initExecution env wf workflowExecution makeNew) =
        .ok prepared ∧
      checkEnvironments env wf prepared = .ok (exec, environments, false) ∧
      setWorkflowExecution env db exec = .ok db' ∧
      queues' = enqueueExecution env exec environments environments queues := by
  unfold handleExecution at h
  cases hw : resolveWorkflow env id workflow with
  | error r =>
    rw [hw] at h
    simp only [Prod.mk.injEq] at h
    obtain ⟨message, err, hr⟩ := resolveWorkflow_error hw
    rw [hr] at h
    exact absurd h.1 (by simp)
  | ok wf =>
    rw [hw] at h
    simp only at h
    cases hr : readRequest env db id wf request with
    | stop r d =>
      rw [hr] at h
      simp only [Prod.mk.injEq] at h
      exact absurd h.1 (readRequest_stop hr exec)
    | proceed we makeNew =>
      rw [hr] at h
      simp only at h
      by_cases hid : we.ExecutionId.utf8ByteSize ≠ 36
      · rw [if_pos hid] at h
        simp at h
      · rw [if_neg hid] at h
        cases hp : prepareExecution fuel env wf (initExecution env wf we makeNew) with
        | error r =>
          rw [hp] at h
          simp only [Prod.mk.injEq] at h
          exact absurd h.1 (prepareExecution_error hp exec)
        | ok prepared =>
          rw [hp] at h
          simp only at h
          cases hc : checkEnvironments env wf prepared with
          | error r =>
            rw [hc] at h
            simp only [Prod.mk.injEq] at h
            exact absurd h.1 (checkEnvironments_error hc exec)
          | ok triple =>
            obtain ⟨e, environments, cloudExec⟩ := triple
            rw [hc] at h
            simp only at h
            cases hs : setWorkflowExecution env db e with
            | error err => rw [hs] at h; simp at h
            | ok d =>
              rw [hs] at h
              simp only at h
              cases cloudExec with
              | true =>
                simp only [if_true, Prod.mk.injEq] at h
                exact absurd h.1 (cloudExecution_ne_started env e exec)
              | false =>
                simp only [Bool.false_eq_true, if_false, Prod.mk.injEq,
                  StartResult.started.injEq] at h
                obtain ⟨he, hd, hq⟩ := h
                subst he
                subst hd
                exact ⟨wf, we, makeNew, prepared, environments, rfl, hr, hp, hc, hs, hq.symm⟩

theorem assignExecutionId_frame (env : Env) (execution : ExecutionRequest)
    (workflowExecution : WorkflowExecution) :
    (assignExecutionId env execution workflowExecution).Workflow = workflowExecution.Workflow ∧
      (assignExecutionId env execution workflowExecution).Results =
        workflowExecution.Results := by
  unfold assignExecutionId
  split_ifs <;> exact ⟨rfl, rfl⟩

theorem postExecution_ok {env : Env} {workflow : Workflow} {request : StartRequest}
    {workflowExecution proceeded : WorkflowExecution}
    (h : postExecution env workflow request workflowExecution = .ok proceeded) :
    proceeded.Workflow = workflowExecution.Workflow ∧
      proceeded.Results = workflowExecution.Results := by
  unfold postExecution at h
  split at h
  · cases h
  · simp only at h
    split_ifs at h <;> simp only [Except.ok.injEq] at h <;> rw [← h] <;>
      refine ⟨(assignExecutionId_frame _ _ _).1.trans ?_,
        (assignExecutionId_frame _ _ _).2.trans ?_⟩ <;> rfl

/-- A fresh start goes on with the workflow it resolved, without results, as
a new execution. -/
theorem readRequest_fresh {env : Env} {db : Datastore} {id : String} {workflow : Workflow}
    {request : StartRequest} {workflowExecution : WorkflowExecution} {makeNew : Bool}
    (hfresh : freshStart request)
    (h : readRequest env db id workflow request = .proceed workflowExecution makeNew) :
    workflowExecution.Workflow = workflow ∧ workflowExecution.Results = [] ∧
      makeNew = true := by
  unfold readRequest at h
  by_cases hm : request.Method = "POST"
  · rw [if_pos hm] at h
    cases hp : postExecution env workflow request { Workflow := workflow } with
    | error r => rw [hp] at h; cases h
    | ok e =>
      rw [hp] at h
      simp only [RequestOutcome.proceed.injEq] at h
      obtain ⟨hw, hres⟩ := postExecution_ok hp
      rw [← h.1]
      exact ⟨hw, hres, h.2.symm⟩
  · rw [if_neg hm] at h
    have href : request.referenceExecution = none := by
      rcases hfresh with hp | hn
      · exact absurd hp hm
      · exact hn
    unfold getExecution at h
    rw [href] at h
    simp only at h
    obtain ⟨p, m, hp, hmk, hw, hres⟩ :=
      continueExecution_proceed env request { Workflow := workflow }
    rw [hp] at h
    simp only [RequestOutcome.proceed.injEq] at h
    rw [← h.1, ← h.2]
    exact ⟨hw, hres, by rw [hmk]; rfl⟩

theorem initExecution_frame (env : Env) (workflow : Workflow)
    (workflowExecution : WorkflowExecution) (makeNew : Bool) :
    (initExecution env workflow workflowExecution makeNew).Workflow =
        workflowExecution.Workflow ∧
      (initExecution env workflow workflowExecution makeNew).Results =
        workflowExecution.Results := by
  unfold initExecution
  simp only
  split_ifs <;> exact ⟨rfl, rfl⟩

theorem injectAuth_ok {env : Env} {orgId : String} {action stored : Action}
    (h : injectAuth env orgId action = .ok stored) :
    (action.AuthenticationId.utf8ByteSize = 0 ∧ stored = action) ∨
      (0 < action.AuthenticationId.utf8ByteSize ∧
        ∃ allAuths curAuth, env.getAllWorkflowAppAuth orgId = .ok allAuths ∧
          allAuths.find? (fun auth => auth.Id = action.AuthenticationId) = some curAuth ∧
          stored = { action with Parameters := authParameters curAuth action.Parameters }) := by
  unfold injectAuth at h
  by_cases hlen : action.AuthenticationId.utf8ByteSize > 0
  · rw [if_pos hlen] at h
    right
    refine ⟨hlen, ?_⟩
    cases hall : env.getAllWorkflowAppAuth orgId with
    | error err => rw [hall] at h; cases h
    | ok allAuths =>
      rw [hall] at h
      simp only at h
      cases hfind : allAuths.find? (fun auth => auth.Id = action.AuthenticationId) with
      | none =>
        rw [hfind] at h
        simp only [Option.getD_none] at h
        rw [if_pos (by decide)] at h
        cases h
      | some curAuth =>
        rw [hfind] at h
        simp only [Option.getD_some] at h
        split_ifs at h
        simp only [Except.ok.injEq] at h
        exact ⟨allAuths, curAuth, rfl, hfind, h.symm⟩
  · rw [if_neg hlen] at h
    simp only [Except.ok.injEq] at h
    exact Or.inl ⟨by omega, h.symm⟩

theorem injectAuth_id {env : Env} {orgId : String} {action stored : Action}
    (h : injectAuth env orgId action = .ok stored) : stored.ID = action.ID := by
  rcases injectAuth_ok h with ⟨_, hs⟩ | ⟨_, _, _, _, _, hs⟩ <;> rw [hs]

/-- The loop stores every action with its credential and extends the results
action by action. -/
theorem actionLoop_ok {env : Env} {orgId : String} {workflowExecution : WorkflowExecution}
    {childNodes : List String} :
    ∀ (actions : List Action) (startFound : Bool) (newActions : List Action)
      (defaultResults : List ActionResult) (found : Bool) (storedActions : List Action)
      (results : List ActionResult),
      actionLoop env orgId workflowExecution childNodes actions startFound newActions
        defaultResults = .ok (found, storedActions, results) →
      ∃ stored,
        List.Forall₂ (fun action item =>
          injectAuth env orgId { action with LargeImage := "" } = .ok item) actions stored ∧
        storedActions = newActions ++ stored ∧
        results = stored.foldl
          (fun acc item => nextResults workflowExecution childNodes item acc) defaultResults := by
  intro actions
  induction actions with
  | nil =>
    intro startFound newActions defaultResults found storedActions results h
    simp only [actionLoop, Except.ok.injEq, Prod.mk.injEq] at h
    exact ⟨[], List.Forall₂.nil, by simp [h.2.1], by simp [h.2.2]⟩
  | cons action rest ih =>
    intro startFound newActions defaultResults found storedActions results h
    rw [actionLoop] at h
    by_cases henv : action.Environment = ""
    · rw [if_pos henv] at h
      cases h
    · rw [if_neg henv] at h
      cases hi : injectAuth env orgId { action with LargeImage := "" } with
      | error r => rw [hi] at h; cases h
      | ok item =>
        rw [hi] at h
        obtain ⟨stored, hall, hacts, hres⟩ := ih _ _ _ _ _ _ h
        refine ⟨item :: stored, List.Forall₂.cons hi hall, ?_, ?_⟩
        · rw [hacts, List.append_assoc]
          rfl
        · rw [hres]
          rfl

theorem any_eq_iff_mem (childNodes : List String) (x : String) :
    childNodes.any (fun nodeId => decide (nodeId = x)) = true ↔ x ∈ childNodes := by
  simp only [List.any_eq_true, decide_eq_true_eq]
  constructor
  · rintro ⟨y, hy, rfl⟩
    exact hy
  · intro h
    exact ⟨x, h, rfl⟩

/-- Without earlier results and with `start_from_top` off, the results grow by
one skipped result for every action that is not among the child nodes. -/
theorem nextResults_fresh {workflowExecution : WorkflowExecution} {childNodes : List String}
    (hres : workflowExecution.Results = [])
    (htop : workflowExecution.Workflow.Configuration.StartFromTop = false)
    (hstart : workflowExecution.Start ∈ childNodes) :
    ∀ (stored : List Action) (defaultResults : List ActionResult),
      stored.foldl (fun acc item => nextResults workflowExecution childNodes item acc)
          defaultResults =
        defaultResults ++ (stored.filter fun action => decide (action.ID ∉ childNodes)).map
          (skippedStart workflowExecution) := by
  intro stored
  induction stored with
  | nil => intro defaultResults; simp
  | cons item rest ih =>
    intro defaultResults
    rw [List.foldl_cons, ih]
    unfold nextResults
    rw [if_neg (by rw [hres]; simp), if_pos htop]
    by_cases hmem : item.ID ∈ childNodes
    · rw [if_pos ((any_eq_iff_mem _ _).mpr hmem), List.filter_cons_of_neg (by simpa using hmem)]
    · rw [if_neg (fun h => hmem ((any_eq_iff_mem _ _).mp h)),
        if_neg (fun (h : item.ID = workflowExecution.Start) => hmem (h ▸ hstart)),
        List.filter_cons_of_pos (by simpa using hmem), List.map_cons, List.append_assoc]
      rfl

/-- With `start_from_top` on and no earlier results the loop adds no result. -/
theorem nextResults_top {workflowExecution : WorkflowExecution} {childNodes : List String}
    (hres : workflowExecution.Results = [])
    (htop : workflowExecution.Workflow.Configuration.StartFromTop = true) :
    ∀ (stored : List Action) (defaultResults : List ActionResult),
      stored.foldl (fun acc item => nextResults workflowExecution childNodes item acc)
          defaultResults = defaultResults := by
  intro stored
  induction stored with
  | nil => intro defaultResults; rfl
  | cons item rest ih =>
    intro defaultResults
    rw [List.foldl_cons, ih]
    unfold nextResults
    rw [if_neg (by rw [hres]; simp), if_neg (by rw [htop]; simp)]

theorem prepareExecution_ok {fuel : Nat} {env : Env} {workflow : Workflow}
    {workflowExecution prepared : WorkflowExecution}
    (h : prepareExecution fuel env workflow workflowExecution = .ok prepared) :
    ∃ childNodes found newActions defaultResults,
      findChildNodes fuel workflowExecution workflowExecution.Start = some childNodes ∧
      actionLoop env workflow.ExecutingOrg.Id workflowExecution childNodes
        workflowExecution.Workflow.Actions false [] [] =
          .ok (found, newActions, defaultResults) ∧
      prepared = { workflowExecution with
        Results := defaultResults
        Workflow := { workflowExecution.Workflow with Actions := newActions } } := by
  unfold prepareExecution at h
  cases hc : findChildNodes fuel workflowExecution workflowExecution.Start with
  | none => rw [hc] at h; cases h
  | some childNodes =>
    rw [hc] at h
    simp only at h
    cases hl : actionLoop env workflow.ExecutingOrg.Id workflowExecution childNodes
        workflowExecution.Workflow.Actions false [] [] with
    | error r => rw [hl] at h; cases h
    | ok triple =>
      obtain ⟨found, newActions, defaultResults⟩ := triple
      rw [hl] at h
      simp only at h
      split_ifs at h
      simp only [Except.ok.injEq] at h
      exact ⟨childNodes, found, newActions, defaultResults, rfl, hl, h.symm⟩
theorem initExecution_start_mem {fuel : Nat} {workflowExecution : WorkflowExecution}
    {childNodes : List String}
    (h : findChildNodes fuel workflowExecution workflowExecution.Start = some childNodes) :
    workflowExecution.Start ∈ childNodes :=
  (findChildNodes_mem workflowExecution fuel _ _ h _).mpr Relation.ReflTransGen.refl

/-- What a fresh start that succeeds has stored: the workflow it resolved with
every action carrying its credential, and the results of the actions that are
not among the child nodes of the start node. -/
theorem handleExecution_fresh {fuel : Nat} {env : Env} {db db' : Datastore}
    {queues queues' : QueueStore} {id : String} {workflow : Workflow} {request : StartRequest}
    {exec : WorkflowExecution}
    (h : handleExecution fuel env db queues id workflow request = (.started exec, db', queues'))
    (hfresh : freshStart request) :
    ∃ (wf : Workflow) (childNodes : List String),
      resolveWorkflow env id workflow = .ok wf ∧
      exec.Workflow = { wf with Actions := exec.Workflow.Actions } ∧
      List.Forall₂ (fun action item =>
        injectAuth env wf.ExecutingOrg.Id { action with LargeImage := "" } = .ok item)
        wf.Actions exec.Workflow.Actions ∧
      (∀ x, x ∈ childNodes ↔ reachable wf.Branches exec.Start x) ∧
      (wf.Configuration.StartFromTop = false →
        exec.Results = (exec.Workflow.Actions.filter fun action =>
          decide (action.ID ∉ childNodes)).map (skippedStart exec)) ∧
      (wf.Configuration.StartFromTop = true → exec.Results = []) ∧
      dbGet db' exec.ExecutionId = some exec := by
  obtain ⟨wf, we, makeNew, prepared, environments, hw, hr, hp, hc, hs, _⟩ :=
    handleExecution_started h
  obtain ⟨hwf, hres, _⟩ := readRequest_fresh hfresh hr
  obtain ⟨hiw, hir⟩ := initExecution_frame env wf we makeNew
  rw [hwf] at hiw
  rw [hres] at hir
  obtain ⟨childNodes, found, newActions, defaultResults, hchild, hloop, hprep⟩ :=
    prepareExecution_ok hp
  obtain ⟨stored, hall, hacts, hfold⟩ := actionLoop_ok _ _ _ _ _ _ _ hloop
  rw [List.nil_append] at hacts
  subst hacts
  have hexec := checkEnvironments_ok hc
  have hmem := findChildNodes_mem _ fuel _ _ hchild
  have hstart := initExecution_start_mem hchild
  rw [hiw] at hall hmem
  have eWorkflow : exec.Workflow = { wf with Actions := newActions } := by
    rw [hexec, hprep, hiw]
  have eStart : exec.Start = (initExecution env wf we makeNew).Start := by
    rw [hexec, hprep]
  have eSkipped : skippedStart exec = skippedStart (initExecution env wf we makeNew) := by
    funext action
    rw [hexec, hprep]
    rfl
  have eResults : exec.Results = defaultResults := by
    rw [hexec, hprep]
  have hdb := setWorkflowExecution_ok hs
  refine ⟨wf, childNodes, hw, ?_, ?_, ?_, ?_, ?_, ?_⟩
  · rw [eWorkflow]
  · rw [eWorkflow]
    exact hall
  · rw [eStart]
    exact hmem
  · intro htop
    rw [eResults, eSkipped, eWorkflow, hfold]
    rw [nextResults_fresh hir (by rw [hiw]; exact htop) hstart, List.nil_append]
  · intro htop
    rw [eResults, hfold]
    exact nextResults_top hir (by rw [hiw]; exact htop) _ _
  · rw [hdb]
    exact dbGet_dbPut _ _ _
theorem injectAuth_ids {env : Env} {orgId : String} {actions stored : List Action}
    (h : List.Forall₂ (fun action item =>
      injectAuth env orgId { action with LargeImage := "" } = .ok item) actions stored) :
    actions.map (fun action => action.ID) = stored.map (fun action => action.ID) := by
  induction h with
  | nil => rfl
  | cons hi _ ih =>
    rw [List.map_cons, List.map_cons, ih, injectAuth_id hi]

/-! ## Lemmas on the queue writes of `handleExecution` -/

/-- A string that holds an asterisk is not empty. -/
theorem utf8ByteSize_pos_of_count {frequency : String}
    (hcron : frequency.data.count '*' + 1 > 5) : frequency.utf8ByteSize > 0 := by
  cases hd : frequency.data with
  | nil => rw [hd] at hcron; simp at hcron
  | cons c rest =>
    have : frequency = ⟨c :: rest⟩ := by rw [← hd]
    rw [this]
    simp only [String.utf8ByteSize, String.utf8ByteSize.go]
    have := Char.utf8Size_pos c
    omega

/-! ## Lemmas on `updateAppAuth` -/

theorem wrapInt64_succ {x : Int} (h0 : 0 ≤ x) (h1 : x < 2 ^ 63 - 1) :
    wrapInt64 (x + 1) = x + 1 := by
  unfold wrapInt64
  have hlt : x + 1 + 2 ^ 63 < 2 ^ 64 := by omega
  have hge : 0 ≤ x + 1 + 2 ^ 63 := by omega
  rw [Int.emod_eq_of_lt hge hlt]
  omega

theorem findUsage_not_found (workflowId nodeId : String) :
    ∀ (usage : List AuthenticationUsage) (index : Nat),
      (findUsage workflowId nodeId usage index).1 = false →
      ∀ entry ∈ usage, entry.WorkflowId ≠ workflowId := by
  intro usage
  induction usage with
  | nil => intro _ _ entry hmem; cases hmem
  | cons first rest ih =>
    intro index h entry hmem
    unfold findUsage at h
    by_cases hw : first.WorkflowId = workflowId
    · rw [if_pos hw] at h
      cases h
    · rw [if_neg hw] at h
      rcases List.mem_cons.mp hmem with rfl | hrest
      · exact hw
      · exact ih _ h entry hrest

theorem findUsage_append_new (workflowId nodeId : String) :
    ∀ (usage : List AuthenticationUsage) (index : Nat),
      (∀ entry ∈ usage, entry.WorkflowId ≠ workflowId) →
      findUsage workflowId nodeId
          (usage ++ [{ WorkflowId := workflowId, Nodes := [nodeId] }]) index =
        (true, index + usage.length, true) := by
  intro usage
  induction usage with
  | nil =>
    intro index _
    simp [findUsage]
  | cons first rest ih =>
    intro index h
    have hw : first.WorkflowId ≠ workflowId := h first (List.mem_cons_self _ _)
    rw [List.cons_append, findUsage, if_neg hw,
      ih (index + 1) (fun entry hmem => h entry (List.mem_cons_of_mem _ hmem))]
    simp only [List.length_cons]
    congr 2
    omega

/-- The second branch of `updateAppAuth`: the index found is in range, and the
usage with the node appended has one node more and holds the node. -/
theorem findUsage_appendNode (workflowId nodeId : String) :
    ∀ (usage : List AuthenticationUsage) (index idx : Nat) (nodeFound : Bool),
      findUsage workflowId nodeId usage index = (true, idx, nodeFound) →
      ∃ usage', index ≤ idx ∧ appendNode nodeId usage (idx - index) = some usage' ∧
        usage'.length = usage.length ∧
        (usage'.map fun entry => entry.Nodes.length).sum =
          (usage.map fun entry => entry.Nodes.length).sum + 1 ∧
        ∀ index', ∃ idx', findUsage workflowId nodeId usage' index' = (true, idx', true) := by
  intro usage
  induction usage with
  | nil => intro index idx nodeFound h; simp [findUsage] at h
  | cons first rest ih =>
    intro index idx nodeFound h
    unfold findUsage at h
    by_cases hw : first.WorkflowId = workflowId
    · rw [if_pos hw] at h
      simp only [Prod.mk.injEq, true_and] at h
      obtain ⟨hidx, _⟩ := h
      subst hidx
      refine ⟨{ first with Nodes := first.Nodes ++ [nodeId] } :: rest, le_refl _, ?_, rfl, ?_, ?_⟩
      · rw [Nat.sub_self]
        rfl
      · simp only [List.map_cons, List.sum_cons, List.length_append, List.length_singleton]
        omega
      · intro index'
        refine ⟨index', ?_⟩
        rw [findUsage, if_pos hw]
        simp
    · rw [if_neg hw] at h
      obtain ⟨usage', hle, happ, hlen, hsum, hfind⟩ := ih (index + 1) idx nodeFound h
      refine ⟨first :: usage', by omega, ?_, by simp [hlen], ?_, ?_⟩
      · have hsub : idx - index = (idx - (index + 1)) + 1 := by omega
        rw [hsub, appendNode, happ]
        rfl
      · simp only [List.map_cons, List.sum_cons, hsum]
        omega
      · intro index'
        obtain ⟨idx', hidx'⟩ := hfind (index' + 1)
        exact ⟨idx', by rw [findUsage, if_neg hw, hidx']⟩

/-- A credential in whose usage the workflow holds the node is not written. -/
theorem updateAppAuth_of_found (env : Env) (auths : AuthStore)
    (auth : AppAuthenticationStorage) (workflowId nodeId : String) (add : Bool) (idx : Nat)
    (h : findUsage workflowId nodeId auth.Usage 0 = (true, idx, true)) :
    updateAppAuth env auths auth workflowId nodeId add = (.returned none, auths) := by
  unfold updateAppAuth updatedAuth
  rw [h]
  simp

/-! ## Lemmas on the refusal of a user input -/

theorem assocGet_assocDelete {α : Type} (store : List (String × α)) (key : String) :
    assocGet (assocDelete store key) key = none := by
  induction store with
  | nil => rfl
  | cons kv rest ih =>
    obtain ⟨k, v⟩ := kv
    by_cases h : k = key
    · simp [assocDelete, h, ih]
    · simp [assocDelete, assocGet, h, ih]

/-! ## Properties of the handlers -/

/-- C1, the code at a failing input.  With `exit_on_error = false`, the
FAILURE result of A submitted to a fresh execution of A → B, C is stored next
to one SKIPPED result for B: one result per action.  The same result submitted
again is answered 200 and stores a second SKIPPED result for B. -/
theorem C1_resubmitted_failure_duplicates :
    handleWorkflowQueue 3 {} [(demoId, runningFork)] failureA =
        (.status 200, [(demoId, skippedFork)]) ∧
      (skippedFork.Results.map fun result => result.Action.ID).Nodup ∧
      (handleWorkflowQueue 3 {} [(demoId, skippedFork)] failureA).1 = .status 200 ∧
      (getWorkflowExecution {} (handleWorkflowQueue 3 {} [(demoId, skippedFork)] failureA).2
          demoId).map (fun e => e.Results.map fun result => (result.Action.ID, result.Status)) =
        some [("B", "SKIPPED"), ("B", "SKIPPED"), ("A", "FAILURE")] ∧
      ¬ (["B", "B", "A"] : List String).Nodup := by
  decide

/-- C2: a submit carrying the right authorization on an execution that is
FINISHED, or ABORTED or FAILURE with `exit_on_error`, is answered 401 and leaves
the datastore, hence the stored execution, as it was. -/
theorem C2_submit_on_terminal_rejected (fuel : Nat) (env : Env) (db : Datastore)
    (actionResult : ActionResult) (workflowExecution : WorkflowExecution)
    (hget : getWorkflowExecution env db actionResult.ExecutionId = some workflowExecution)
    (_hauth : actionResult.Authorization = workflowExecution.Authorization)
    (hterm : workflowExecution.Status = "FINISHED" ∨
      ((workflowExecution.Status = "ABORTED" ∨ workflowExecution.Status = "FAILURE") ∧
        workflowExecution.Workflow.Configuration.ExitOnError = true)) :
    handleWorkflowQueue fuel env db actionResult = (.status 401, db) ∧
      getWorkflowExecution env (handleWorkflowQueue fuel env db actionResult).2
        actionResult.ExecutionId = some workflowExecution := by
  have h := handleWorkflowQueue_of_rejects fuel env db actionResult workflowExecution hget hterm
  rw [h]
  exact ⟨rfl, hget⟩

theorem C2_submit_on_terminal_rejected_witness :
    getWorkflowExecution {} [(demoId, finishedSingle)] successA.ExecutionId =
        some finishedSingle ∧
      handleWorkflowQueue 3 {} [(demoId, finishedSingle)] successA =
        (.status 401, [(demoId, finishedSingle)]) :=
  ⟨by decide, (C2_submit_on_terminal_rejected 3 {} [(demoId, finishedSingle)] successA
    finishedSingle (by decide) (by decide) (by decide)).1⟩

/-- C3, counterexample: with `exit_on_error = false` an ABORTED execution still
accepts a result, and the submit of the one outstanding result moves its status
from ABORTED to FINISHED. -/
theorem C3_terminal_status_changes :
    (getWorkflowExecution {} [(demoId, abortedSingle)] demoId).map (·.Status) = some "ABORTED" ∧
      (handleWorkflowQueue 3 {} [(demoId, abortedSingle)] successA).1 = .status 200 ∧
      (getWorkflowExecution {} (handleWorkflowQueue 3 {} [(demoId, abortedSingle)] successA).2
        demoId).map (·.Status) = some "FINISHED" := by
  decide

/-- C3, amended: once the status is FINISHED, or is ABORTED or FAILURE while
`exit_on_error` is set, no submit changes the stored status, whatever result is
submitted and whatever authorization it carries. -/
theorem C3_terminal_status_fixed (fuel : Nat) (env : Env) (db : Datastore)
    (actionResult : ActionResult) (workflowExecution : WorkflowExecution)
    (hget : getWorkflowExecution env db actionResult.ExecutionId = some workflowExecution)
    (hterm : workflowExecution.Status = "FINISHED" ∨
      ((workflowExecution.Status = "ABORTED" ∨ workflowExecution.Status = "FAILURE") ∧
        workflowExecution.Workflow.Configuration.ExitOnError = true)) :
    (getWorkflowExecution env (handleWorkflowQueue fuel env db actionResult).2
      actionResult.ExecutionId).map (·.Status) = some workflowExecution.Status := by
  rw [handleWorkflowQueue_of_rejects fuel env db actionResult workflowExecution hget hterm]
  simp [hget]

theorem C3_terminal_status_fixed_witness :
    getWorkflowExecution {} [(demoId, failedExit)] failureB.ExecutionId = some failedExit ∧
      (getWorkflowExecution {} (handleWorkflowQueue 3 {} [(demoId, failedExit)] failureB).2
        failureB.ExecutionId).map (·.Status) = some "FAILURE" :=
  ⟨by decide, C3_terminal_status_fixed 3 {} [(demoId, failedExit)] failureB failedExit
    (by decide) (by decide)⟩

/-- C4: a submit whose authorization differs from the execution's is answered
401 and leaves the datastore as it was; read the other way round, a submit that
is answered 200 or that changes the datastore carries the execution's
authorization. -/
theorem C4_authorization_required (fuel : Nat) (env : Env) (db : Datastore)
    (actionResult : ActionResult) (workflowExecution : WorkflowExecution)
    (hget : getWorkflowExecution env db actionResult.ExecutionId = some workflowExecution) :
    (actionResult.Authorization ≠ workflowExecution.Authorization →
        handleWorkflowQueue fuel env db actionResult = (.status 401, db)) ∧
      ((handleWorkflowQueue fuel env db actionResult).1 = .status 200 ∨
          (handleWorkflowQueue fuel env db actionResult).2 ≠ db →
        actionResult.Authorization = workflowExecution.Authorization) := by
  have key : actionResult.Authorization ≠ workflowExecution.Authorization →
      handleWorkflowQueue fuel env db actionResult = (.status 401, db) := fun hne =>
    handleWorkflowQueue_of_mismatch fuel env db actionResult workflowExecution hget
      (fun h => hne h.symm)
  refine ⟨key, fun hacc => ?_⟩
  by_contra hne
  rw [key hne] at hacc
  rcases hacc with h | h
  · exact Reply.noConfusion h (fun h' => absurd h' (by decide))
  · exact h rfl

theorem C4_authorization_required_witness :
    getWorkflowExecution {} [(demoId, runningSingle)] forgedA.ExecutionId = some runningSingle ∧
      forgedA.Authorization ≠ runningSingle.Authorization ∧
      handleWorkflowQueue 3 {} [(demoId, runningSingle)] forgedA =
        (.status 401, [(demoId, runningSingle)]) :=
  ⟨by decide, by decide,
    (C4_authorization_required 3 {} [(demoId, runningSingle)] forgedA runningSingle
      (by decide)).1 (by decide)⟩

/-- C5: when an accepted submit (answer 200) leaves the stored execution with
status FINISHED, that execution holds at least as many results as its workflow
has actions and none of its results is EXECUTING. -/
theorem C5_finished_is_complete (fuel : Nat) (env : Env) (db : Datastore)
    (actionResult : ActionResult) (workflowExecution stored : WorkflowExecution)
    (hget : getWorkflowExecution env db actionResult.ExecutionId = some workflowExecution)
    (hkey : workflowExecution.ExecutionId = env.toLower actionResult.ExecutionId)
    (hok : (handleWorkflowQueue fuel env db actionResult).1 = .status 200)
    (hafter : getWorkflowExecution env (handleWorkflowQueue fuel env db actionResult).2
      actionResult.ExecutionId = some stored)
    (hfin : stored.Status = "FINISHED") :
    stored.Workflow.Actions.length ≤ stored.Results.length ∧
      ∀ result ∈ stored.Results, result.Status ≠ "EXECUTING" := by
  rcases handleWorkflowQueue_inv fuel env db actionResult workflowExecution hget with
    h | ⟨hrej, _, h⟩
  · rw [h] at hok
    exact absurd hok (by simp)
  have hnf : workflowExecution.Status ≠ "FINISHED" := fun h => hrej (Or.inl h)
  have hsame : (handleWorkflowQueue fuel env db actionResult).2 = db → False := by
    intro hdb
    rw [hdb, hget] at hafter
    cases hafter
    exact hnf hfin
  have hput : ∀ w : WorkflowExecution, w.ExecutionId = workflowExecution.ExecutionId →
      (handleWorkflowQueue fuel env db actionResult).2 =
        dbPut db workflowExecution.ExecutionId w → stored = w := by
    intro w _ hdb
    rw [hdb] at hafter
    simp only [getWorkflowExecution] at hafter
    rw [← hkey, dbGet_dbPut] at hafter
    cases hafter
    rfl
  rcases h with ⟨hw, _, h⟩ | ⟨_, ⟨reply, _, h⟩ | ⟨e', hm, h⟩⟩
  · rcases userInputBranch_inv env db workflowExecution actionResult with
      h401 | ⟨w, payload, _, hid, _, _, hst, hdb⟩
    · rw [h, h401] at hok
      exact absurd hok (by simp)
    · rw [← h] at hst hdb
      rcases hst with ⟨_, h401⟩ | ⟨hws, _⟩
      · rw [h401] at hok
        exact absurd hok (by simp)
      · rcases hdb with hdb | hdb
        · exact (hsame hdb).elim
        · have := hput w hid hdb
          subst this
          rw [hws, hw] at hfin
          exact absurd hfin (by decide)
  · exact (hsame (by rw [h])).elim
  · obtain ⟨hwf, hid, _, hst⟩ := mergeAndCheck_frame hm
    obtain ⟨rst, rwf, rid, _, rlen, rmap⟩ := reduceResults_frame env e'
    have hstored : stored = reduceResults env e' := by
      apply hput _ (rid.trans hid)
      rw [h, rid, hid]
    subst hstored
    rw [rst] at hfin
    rcases hst with hst | ⟨_, hlen, hexec⟩
    · rw [hst] at hfin
      exact (statusAfterFailure_ne_finished hnf hfin).elim
    · refine ⟨by rw [rwf, rlen, hlen]; exact Nat.le_add_right _ _, ?_⟩
      intro result hmem hx
      have hin : (result.Action, result.Status) ∈
          (reduceResults env e').Results.map (fun x => (x.Action, x.Status)) :=
        List.mem_map.mpr ⟨result, hmem, rfl⟩
      rw [rmap] at hin
      obtain ⟨x, hxmem, hxeq⟩ := List.mem_map.mp hin
      have : x.Status = result.Status := congrArg Prod.snd hxeq
      exact hexec x hxmem (this.trans hx)

theorem C5_finished_is_complete_witness :
    getWorkflowExecution {} [(demoId, runningSingle)] successA.ExecutionId = some runningSingle ∧
      (handleWorkflowQueue 3 {} [(demoId, runningSingle)] successA).1 = .status 200 ∧
      getWorkflowExecution {} (handleWorkflowQueue 3 {} [(demoId, runningSingle)] successA).2
        successA.ExecutionId = some succeededSingle ∧
      succeededSingle.Status = "FINISHED" ∧
      succeededSingle.Workflow.Actions.length ≤ succeededSingle.Results.length ∧
      ∀ result ∈ succeededSingle.Results, result.Status ≠ "EXECUTING" :=
  ⟨by decide, by decide, by decide, by decide,
    C5_finished_is_complete 3 {} [(demoId, runningSingle)] successA runningSingle
      succeededSingle (by decide) (by decide) (by decide) (by decide) (by decide)⟩

/-- C6, counterexample: in the workflow A → C, B → C, C → D the FAILURE of A
is accepted and stores a SKIPPED result for D next to the FAILURE of A; the
only branch into D starts at C, and C has no result at all. -/
theorem C6_skipped_parent_without_result :
    handleWorkflowQueue 4 {} [(demoId, runningJoin)] failureA =
        (.status 200, [(demoId, failedJoin)]) ∧
      ¬ skippedParentsSettled failedJoin := by
  decide

/-- C6, amended: after an accepted submit (answer 200) of a result that goes
through the merge, when the results after the merge ask the reconciliation for
at most one removal, every result of an action from which a branch leads into
a SKIPPED result has status SKIPPED or FAILURE in the stored execution; such an
action may have no result. -/
theorem C6_skipped_parents_not_run (fuel : Nat) (env : Env) (db : Datastore)
    (actionResult : ActionResult) (workflowExecution merged : WorkflowExecution)
    (hget : getWorkflowExecution env db actionResult.ExecutionId = some workflowExecution)
    (hkey : workflowExecution.ExecutionId = env.toLower actionResult.ExecutionId)
    (hok : (handleWorkflowQueue fuel env db actionResult).1 = .status 200)
    (hplain : ¬ (actionResult.Status = "WAITING" ∧ actionResult.Action.AppName = "User Input"))
    (hmerge : mergeStage fuel workflowExecution actionResult = some merged)
    (hone : pendingRemovals merged.Workflow.Branches merged.Results ≤ 1) :
    ∃ stored, getWorkflowExecution env (handleWorkflowQueue fuel env db actionResult).2
        actionResult.ExecutionId = some stored ∧ skippedParentsNotRun stored := by
  rcases handleWorkflowQueue_inv fuel env db actionResult workflowExecution hget with
    h | ⟨_, _, h⟩
  · rw [h] at hok
    exact absurd hok (by simp)
  rcases h with ⟨hw, hu, _⟩ | ⟨_, ⟨reply, herr, h⟩ | ⟨e', hm, h⟩⟩
  · exact absurd ⟨hw, hu⟩ hplain
  · rw [h] at hok
    rcases mergeAndCheck_error herr with hr | hr <;> rw [hr] at hok <;>
      exact absurd hok (by simp)
  · obtain ⟨m, results, hm', hrec, he'⟩ := mergeAndCheck_ok hm
    rw [hmerge] at hm'
    cases hm'
    obtain ⟨_, hid, _, _⟩ := mergeAndCheck_frame hm
    obtain ⟨_, rwf, rid, _, _, rmap⟩ := reduceResults_frame env e'
    obtain ⟨out, hout, _, hquiet⟩ := reconcileSkipped_of_le_one _ _ hone
    rw [hrec] at hout
    cases hout
    obtain ⟨cres, cwf, _, _, _⟩ := checkFinished_frame env { merged with Results := results }
      actionResult
    rw [← he'] at cres cwf
    simp only at cres cwf
    refine ⟨reduceResults env e', ?_, ?_⟩
    · rw [h]
      simp only [getWorkflowExecution]
      rw [← hkey, ← hid, ← rid, dbGet_dbPut]
    · apply skippedParentsNotRun_of_removalCount _ results
      · rw [rmap, cres]
      · rw [rwf, cwf]
        exact hquiet

theorem C6_skipped_parents_not_run_witness :
    getWorkflowExecution {} [(demoId, skippedFork)] successA.ExecutionId = some skippedFork ∧
      (handleWorkflowQueue 4 {} [(demoId, skippedFork)] successA).1 = .status 200 ∧
      mergeStage 4 skippedFork successA = some mergedFork ∧
      pendingRemovals mergedFork.Workflow.Branches mergedFork.Results ≤ 1 ∧
      ∃ stored, getWorkflowExecution {} (handleWorkflowQueue 4 {} [(demoId, skippedFork)]
          successA).2 successA.ExecutionId = some stored ∧ skippedParentsNotRun stored :=
  ⟨by decide, by decide, by decide, by decide,
    C6_skipped_parents_not_run 4 {} [(demoId, skippedFork)] successA skippedFork mergedFork
      (by decide) (by decide) (by decide) (by decide) (by decide) (by decide)⟩

/-- C7: the merge step.  When `Results` holds an entry of the submitted action,
the first such entry is overwritten at its index, the length and every other
index stay as they were; when it holds none, the submitted result becomes the
new last entry behind the unchanged list. -/
theorem C7_merge_replaces_in_place_or_appends (workflowExecution : WorkflowExecution)
    (actionResult : ActionResult) :
    ((∃ item ∈ workflowExecution.Results, item.Action.ID = actionResult.Action.ID) →
      ∃ (i : Nat) (old : ActionResult), workflowExecution.Results[i]? = some old ∧
        old.Action.ID = actionResult.Action.ID ∧
        (∀ (j : Nat) (item : ActionResult), j < i → workflowExecution.Results[j]? = some item →
          item.Action.ID ≠ actionResult.Action.ID) ∧
        (mergeResult workflowExecution actionResult).Results.length =
          workflowExecution.Results.length ∧
        (mergeResult workflowExecution actionResult).Results[i]? = some actionResult ∧
        ∀ j, j ≠ i → (mergeResult workflowExecution actionResult).Results[j]? =
          workflowExecution.Results[j]?) ∧
    ((∀ item ∈ workflowExecution.Results, item.Action.ID ≠ actionResult.Action.ID) →
      (mergeResult workflowExecution actionResult).Results =
        workflowExecution.Results ++ [actionResult]) := by
  constructor
  · rintro ⟨item, hmem, hid⟩
    have hpos : workflowExecution.Results.length > 0 := List.length_pos_of_mem hmem
    cases hfind : findResult workflowExecution.Results actionResult.Action.ID with
    | none => exact absurd hid (findResult_none.mp hfind item hmem)
    | some i =>
      obtain ⟨old, hold, hid', hbefore⟩ := findResult_some hfind
      have hlt : i < workflowExecution.Results.length := by
        by_contra hge
        rw [List.getElem?_eq_none (by omega)] at hold
        cases hold
      refine ⟨i, old, hold, hid', hbefore, ?_, ?_, ?_⟩
      · simp [mergeResult, hpos, hfind]
      · simp [mergeResult, hpos, hfind, List.getElem?_set, hlt]
      · intro j hj
        simp [mergeResult, hpos, hfind, List.getElem?_set_ne (Ne.symm hj)]
  · intro hnone
    have hfind := findResult_none.mpr hnone
    unfold mergeResult
    split_ifs
    · simp [hfind]
    · rfl

theorem C7_merge_replaces_in_place_or_appends_witness :
    (∃ item ∈ failedExit.Results, item.Action.ID = failureB.Action.ID) ∧
      (mergeResult failedExit { failureB with Result := "retry" }).Results =
        [successA, { failureB with Result := "retry" }] ∧
      (mergeResult runningSingle failureB).Results = runningSingle.Results ++ [failureB] := by
  refine ⟨⟨failureB, by decide, rfl⟩, by decide, ?_⟩
  exact (C7_merge_replaces_in_place_or_appends runningSingle failureB).2 (by decide)

/-- C8, counterexample.  First: the SUCCESS result of A, whose action binds the
execution variable `ip`, is submitted twice to a fresh execution.  The first
submit appends the result and leaves `ip` empty; the second finds the result,
writes its payload into `ip`, and so stores a different execution.  Second: the
FAILURE result of C is submitted twice to a fresh execution without
`exit_on_error`, in which nothing lies below C.  Both submits are accepted; the
failure block takes the workflow-level result from the results it finds, so the
first submit stores the empty result and the second the payload of C. -/
theorem C8_resubmit_changes_execution :
    ((handleWorkflowQueue 3 {} [(demoId, runningPair)] boundA).1 = .status 200 ∧
    (getWorkflowExecution {} (handleWorkflowQueue 3 {} [(demoId, runningPair)] boundA).2
        demoId).map (fun e => e.ExecutionVariables.map fun v => (v.Name, v.Value)) =
      some [("ip", "")] ∧
    (handleWorkflowQueue 3 {} (handleWorkflowQueue 3 {} [(demoId, runningPair)] boundA).2
        boundA).1 = .status 200 ∧
    (getWorkflowExecution {} (handleWorkflowQueue 3 {}
        (handleWorkflowQueue 3 {} [(demoId, runningPair)] boundA).2 boundA).2
        demoId).map (fun e => e.ExecutionVariables.map fun v => (v.Name, v.Value)) =
      some [("ip", "10.0.0.1")] ∧
    (handleWorkflowQueue 3 {} (handleWorkflowQueue 3 {} [(demoId, runningPair)] boundA).2
        boundA).2 ≠ (handleWorkflowQueue 3 {} [(demoId, runningPair)] boundA).2) ∧
    ((handleWorkflowQueue 3 {} [(demoId, runningFork)] failureC).1 = .status 200 ∧
    (getWorkflowExecution {} (handleWorkflowQueue 3 {} [(demoId, runningFork)] failureC).2
        demoId).map (fun e => (e.Status, e.Result, e.Results)) =
      some ("EXECUTING", "", [failureC]) ∧
    (handleWorkflowQueue 3 {} (handleWorkflowQueue 3 {} [(demoId, runningFork)] failureC).2
        failureC).1 = .status 200 ∧
    (getWorkflowExecution {} (handleWorkflowQueue 3 {}
        (handleWorkflowQueue 3 {} [(demoId, runningFork)] failureC).2 failureC).2
        demoId).map (fun e => (e.Status, e.Result, e.Results)) =
      some ("EXECUTING", "smtp timeout", [failureC])) := by
  decide

/-- C8, amended: the first submit of a result is accepted (answer 200) and
leaves `stored` in the datastore.  A second submit of the same result leaves
`stored` in the datastore, in each of three cases: the result is ABORTED or
FAILURE under `exit_on_error`; the first submit left the execution FINISHED; or
the result is neither ABORTED nor FAILURE nor the WAITING of a user input, it is
the stored result of its action, no stored SKIPPED result has a parent whose
result is neither SKIPPED nor FAILURE, and its action binds no execution
variable or every variable of that name holds its payload already.  In the
first two cases the second submit is answered 401 and leaves the whole
datastore as it was. -/
theorem C8_resubmit_idempotent (fuel fuel' : Nat) (env : Env) (db : Datastore)
    (actionResult : ActionResult) (workflowExecution stored : WorkflowExecution)
    (hget : getWorkflowExecution env db actionResult.ExecutionId = some workflowExecution)
    (hkey : workflowExecution.ExecutionId = env.toLower actionResult.ExecutionId)
    (hok : (handleWorkflowQueue fuel env db actionResult).1 = .status 200)
    (hstored : getWorkflowExecution env (handleWorkflowQueue fuel env db actionResult).2
      actionResult.ExecutionId = some stored)
    (hcase :
      ((actionResult.Status = "ABORTED" ∨ actionResult.Status = "FAILURE") ∧
        workflowExecution.Workflow.Configuration.ExitOnError = true) ∨
      stored.Status = "FINISHED" ∨
      (actionResult.Status ≠ "ABORTED" ∧ actionResult.Status ≠ "FAILURE" ∧
        ¬ (actionResult.Status = "WAITING" ∧ actionResult.Action.AppName = "User Input") ∧
        stored.Results.find? (fun item => item.Action.ID = actionResult.Action.ID) =
          some actionResult ∧
        skippedParentsNotRun stored ∧
        (actionResult.Action.ExecutionVariable.Name = "" ∨
          ∀ v ∈ stored.ExecutionVariables,
            v.Name = actionResult.Action.ExecutionVariable.Name →
              v.Value = actionResult.Result))) :
    getWorkflowExecution env
        (handleWorkflowQueue fuel' env (handleWorkflowQueue fuel env db actionResult).2
          actionResult).2 actionResult.ExecutionId = some stored ∧
      ((((actionResult.Status = "ABORTED" ∨ actionResult.Status = "FAILURE") ∧
          workflowExecution.Workflow.Configuration.ExitOnError = true) ∨
        stored.Status = "FINISHED") →
        handleWorkflowQueue fuel' env (handleWorkflowQueue fuel env db actionResult).2
            actionResult =
          (.status 401, (handleWorkflowQueue fuel env db actionResult).2)) := by
  have hrejected : (((actionResult.Status = "ABORTED" ∨ actionResult.Status = "FAILURE") ∧
        workflowExecution.Workflow.Configuration.ExitOnError = true) ∨
      stored.Status = "FINISHED") →
      handleWorkflowQueue fuel' env (handleWorkflowQueue fuel env db actionResult).2
          actionResult =
        (.status 401, (handleWorkflowQueue fuel env db actionResult).2) := by
    intro hs
    apply handleWorkflowQueue_again_rejected fuel fuel' env db actionResult workflowExecution
      hget hkey hok
    rcases hs with hs | hs
    · exact Or.inl hs
    · exact Or.inr ⟨stored, hstored, hs⟩
  refine ⟨?_, hrejected⟩
  by_cases hs : ((actionResult.Status = "ABORTED" ∨ actionResult.Status = "FAILURE") ∧
      workflowExecution.Workflow.Configuration.ExitOnError = true) ∨
      stored.Status = "FINISHED"
  · rw [hrejected hs]
    exact hstored
  · have hnf : stored.Status ≠ "FINISHED" := fun h => hs (Or.inr h)
    rcases hcase with h | h | ⟨hab, hfa, hplain, hfind, hskip, hvar⟩
    · exact absurd (Or.inl h) hs
    · exact absurd h hnf
    · obtain ⟨m, results, hm, hrec, hafter⟩ :=
        handleWorkflowQueue_stored fuel env db actionResult workflowExecution hget hkey hok
          hplain
      rw [hstored] at hafter
      cases hafter
      have hrej := handleWorkflowQueue_ok_running fuel env db actionResult workflowExecution
        hget hok
      obtain ⟨_, hmid, _, hmst⟩ := mergeStage_frame hm
      have hm0 : ({ m with Results := results } : WorkflowExecution).Status ≠ "FINISHED" := by
        show m.Status ≠ "FINISHED"
        rw [hmst]
        exact statusAfterFailure_ne_finished fun h => hrej (Or.inl h)
      obtain ⟨ciff, _⟩ := checkFinished_iff env { m with Results := results } actionResult hm0
      obtain ⟨rst, rwf, rid, _, _, rmap⟩ := reduceResults_frame env
        (checkFinished env { m with Results := results } actionResult)
      obtain ⟨cres, cwf, cid, _, _⟩ := checkFinished_frame env { m with Results := results }
        actionResult
      rw [cres] at rmap
      apply handleWorkflowQueue_again_same fuel' env _ actionResult _ hstored _ hab hfa hplain
        hfind hskip hvar _ (reduceResults_idem env _)
      · rw [rid, cid]
        show m.ExecutionId = _
        rw [hmid]
        exact hkey
      · intro hc
        rw [rwf, cwf] at hc
        rw [rst] at hnf
        exact hnf (ciff.mpr ((terminationCondition_of_map _ rmap).mp hc))

theorem C8_resubmit_idempotent_witness :
    ((handleWorkflowQueue 3 {} [(demoId, runningExit)] successB).1 = .status 200 ∧
      (handleWorkflowQueue 3 {} (handleWorkflowQueue 3 {} [(demoId, runningExit)] successB).2
        successB).1 = .status 200 ∧
      getWorkflowExecution {} (handleWorkflowQueue 3 {}
          (handleWorkflowQueue 3 {} [(demoId, runningExit)] successB).2 successB).2
          successB.ExecutionId =
        some { runningExit with Results := [successA, successB] }) ∧
    ((handleWorkflowQueue 3 {} [(demoId, runningExit)] failureB).1 = .status 200 ∧
      handleWorkflowQueue 3 {} (handleWorkflowQueue 3 {} [(demoId, runningExit)] failureB).2
          failureB =
        (.status 401, (handleWorkflowQueue 3 {} [(demoId, runningExit)] failureB).2)) :=
  ⟨⟨by decide, by decide,
    (C8_resubmit_idempotent 3 3 {} [(demoId, runningExit)] successB runningExit
      { runningExit with Results := [successA, successB] }
      (by decide) (by decide) (by decide) (by decide)
      (Or.inr (Or.inr ⟨by decide, by decide, by decide, by decide, by decide,
        Or.inl (by decide)⟩))).1⟩,
   ⟨by decide,
    (C8_resubmit_idempotent 3 3 {} [(demoId, runningExit)] failureB runningExit
      { failedExit with Result := "done" }
      (by decide) (by decide) (by decide) (by decide) (Or.inl (by decide))).2
      (Or.inl (by decide))⟩⟩

/-- C9: an abort of an execution whose status is ABORTED, FAILURE or FINISHED,
by a caller who passes the authorization check, is answered 401 and leaves the
datastore as it was. -/
theorem C9_abort_on_terminal_rejected (env : Env) (db : Datastore)
    (fileId executionId apikey : String) (workflowExecution : WorkflowExecution)
    (hget : getWorkflowExecution env db executionId = some workflowExecution)
    (_hauth : abortAuthorized env workflowExecution apikey = true)
    (hterm : workflowExecution.Status = "ABORTED" ∨ workflowExecution.Status = "FAILURE" ∨
      workflowExecution.Status = "FINISHED") :
    abortExecution env db fileId executionId apikey = (.status 401, db) := by
  unfold abortExecution
  rw [hget]
  simp only
  split_ifs <;> rfl

theorem C9_abort_on_terminal_rejected_witness :
    getWorkflowExecution {} [(demoId, abortedSingle)] demoId = some abortedSingle ∧
      abortAuthorized {} abortedSingle "Bearer key-1" = true ∧
      abortExecution {} [(demoId, abortedSingle)] "99999999-8888-7777-6666-555555555555" demoId
        "Bearer key-1" = (.status 401, [(demoId, abortedSingle)]) :=
  ⟨by decide, by decide,
    C9_abort_on_terminal_rejected {} [(demoId, abortedSingle)]
      "99999999-8888-7777-6666-555555555555" demoId "Bearer key-1" abortedSingle
      (by decide) (by decide) (by decide)⟩

/-- C10: a successful abort (answer 200) of a non-terminal execution stores the
execution with status ABORTED; its results are as many as before, in the same
order, every result that was EXECUTING now has status ABORTED and the payload
"Aborted because of error in another node" with its other fields kept, and
every other result is stored as it was. -/
theorem C10_abort_rewrites_executing (env : Env) (db : Datastore)
    (fileId executionId apikey : String) (workflowExecution : WorkflowExecution)
    (hget : getWorkflowExecution env db executionId = some workflowExecution)
    (hkey : workflowExecution.ExecutionId = env.toLower executionId)
    (_hrun : ¬ (workflowExecution.Status = "ABORTED" ∨ workflowExecution.Status = "FAILURE" ∨
      workflowExecution.Status = "FINISHED"))
    (hok : (abortExecution env db fileId executionId apikey).1 = .status 200) :
    ∃ stored : WorkflowExecution,
      getWorkflowExecution env (abortExecution env db fileId executionId apikey).2 executionId =
        some stored ∧
      stored.Status = "ABORTED" ∧
      stored.Results.length = workflowExecution.Results.length ∧
      ∀ (i : Nat) (result : ActionResult), workflowExecution.Results[i]? = some result →
        stored.Results[i]? = some
          (if result.Status = "EXECUTING" then
            { result with
              Status := "ABORTED", Result := "Aborted because of error in another node" }
          else result) := by
  unfold abortExecution at hok ⊢
  rw [hget] at hok ⊢
  simp only at hok ⊢
  split_ifs at hok ⊢
  all_goals first | exact absurd hok (by simp) | skip
  cases hset : setWorkflowExecution env db (abortedExecution env workflowExecution) with
  | error err => rw [hset] at hok; simp at hok
  | ok db' =>
    have hdb := setWorkflowExecution_ok hset
    subst hdb
    refine ⟨abortedExecution env workflowExecution, ?_, rfl, ?_, ?_⟩
    · simp only [getWorkflowExecution]
      rw [← hkey]
      exact dbGet_dbPut db _ _
    · simp [abortedExecution]
    · intro i result hres
      simp only [abortedExecution, List.getElem?_map, hres, Option.map_some']
      rfl

theorem C10_abort_rewrites_executing_witness :
    getWorkflowExecution {} [(demoId, runningSingle)] demoId = some runningSingle ∧
      (abortExecution {} [(demoId, runningSingle)] "99999999-8888-7777-6666-555555555555"
        demoId "Bearer key-1").1 = .status 200 ∧
      ∃ stored : WorkflowExecution,
        getWorkflowExecution {} (abortExecution {} [(demoId, runningSingle)]
          "99999999-8888-7777-6666-555555555555" demoId "Bearer key-1").2 demoId =
            some stored ∧
        stored.Status = "ABORTED" ∧
        stored.Results.length = runningSingle.Results.length ∧
        ∀ (i : Nat) (result : ActionResult), runningSingle.Results[i]? = some result →
          stored.Results[i]? = some
            (if result.Status = "EXECUTING" then
              { result with
                Status := "ABORTED", Result := "Aborted because of error in another node" }
            else result) :=
  ⟨by decide, by decide,
    C10_abort_rewrites_executing {} [(demoId, runningSingle)]
      "99999999-8888-7777-6666-555555555555" demoId "Bearer key-1" runningSingle
      (by decide) (by decide) (by decide) (by decide)⟩

/-- C11, counterexample: an execution that is still running and already
carries the workflow-level result "connection refused" is aborted with
answer 200; its only result has the payload "done", and the stored
workflow-level result is still "connection refused". -/
theorem C11_abort_keeps_earlier_result :
    (abortExecution {} [(demoId, annotatedFork)] "99999999-8888-7777-6666-555555555555"
        demoId "Bearer key-1").1 = .status 200 ∧
      (getWorkflowExecution {} (abortExecution {} [(demoId, annotatedFork)]
        "99999999-8888-7777-6666-555555555555" demoId "Bearer key-1").2 demoId).map
          (fun e => (e.Result, lastNonEmptyPayload e.Results)) =
        some ("connection refused", "done") := by
  decide

/-- C11, amended: after a successful abort (answer 200) the stored
workflow-level result is the last non-empty payload among the stored results,
which are the results after the EXECUTING ones were rewritten, when the
workflow-level result was empty before; a workflow-level result that was not
empty is stored as it was. -/
theorem C11_abort_result (env : Env) (db : Datastore)
    (fileId executionId apikey : String) (workflowExecution : WorkflowExecution)
    (hget : getWorkflowExecution env db executionId = some workflowExecution)
    (hkey : workflowExecution.ExecutionId = env.toLower executionId)
    (hok : (abortExecution env db fileId executionId apikey).1 = .status 200) :
    ∃ stored : WorkflowExecution,
      getWorkflowExecution env (abortExecution env db fileId executionId apikey).2 executionId =
        some stored ∧
      (workflowExecution.Result.utf8ByteSize = 0 →
        stored.Result = lastNonEmptyPayload stored.Results) ∧
      (workflowExecution.Result.utf8ByteSize ≠ 0 →
        stored.Result = workflowExecution.Result) := by
  refine ⟨abortedExecution env workflowExecution, ?_, ?_, ?_⟩
  · rw [abortExecution_of_ok hget hok]
    simp only [getWorkflowExecution]
    rw [← hkey]
    exact dbGet_dbPut db _ _
  · intro hempty
    simp only [abortedExecution]
    rw [if_pos hempty, lastNonEmpty_eq]
    rfl
  · intro hfull
    simp only [abortedExecution]
    rw [if_neg hfull]

theorem C11_abort_result_witness :
    getWorkflowExecution {} [(demoId, runningSingle)] demoId = some runningSingle ∧
      (abortExecution {} [(demoId, runningSingle)] "99999999-8888-7777-6666-555555555555"
        demoId "Bearer key-1").1 = .status 200 ∧
      ∃ stored : WorkflowExecution,
        getWorkflowExecution {} (abortExecution {} [(demoId, runningSingle)]
          "99999999-8888-7777-6666-555555555555" demoId "Bearer key-1").2 demoId =
            some stored ∧
        (runningSingle.Result.utf8ByteSize = 0 →
          stored.Result = lastNonEmptyPayload stored.Results) ∧
        (runningSingle.Result.utf8ByteSize ≠ 0 → stored.Result = runningSingle.Result) :=
  ⟨by decide, by decide,
    C11_abort_result {} [(demoId, runningSingle)] "99999999-8888-7777-6666-555555555555"
      demoId "Bearer key-1" runningSingle (by decide) (by decide) (by decide)⟩

/-- C12: on a workflow with acyclic branches `findChildNodes` comes back for
every node id, with any recursion budget above the number of branches, and the
members of the list it returns are exactly the node ids reached from the node
by following branches from source to destination in zero or more steps; the
node itself is a member. -/
theorem C12_findChildNodes_is_reachability (workflowExecution : WorkflowExecution)
    (nodeId : String) (fuel : Nat)
    (hacyclic : acyclic workflowExecution.Workflow.Branches)
    (hfuel : workflowExecution.Workflow.Branches.length < fuel) :
    ∃ childNodes, findChildNodes fuel workflowExecution nodeId = some childNodes ∧
      (∀ x, x ∈ childNodes ↔
        Relation.ReflTransGen (branchStep workflowExecution.Workflow.Branches) nodeId x) ∧
      nodeId ∈ childNodes := by
  obtain ⟨l, hl⟩ := findChildNodes_terminates workflowExecution nodeId fuel hacyclic hfuel
  have hmem := findChildNodes_mem workflowExecution fuel nodeId l hl
  exact ⟨l, hl, hmem, (hmem nodeId).mpr Relation.ReflTransGen.refl⟩

theorem C12_findChildNodes_is_reachability_witness :
    acyclic runningDiamond.Workflow.Branches ∧
      runningDiamond.Workflow.Branches.length < 6 ∧
      ∃ childNodes, findChildNodes 6 runningDiamond "B" = some childNodes ∧
        (∀ x, x ∈ childNodes ↔
          Relation.ReflTransGen (branchStep runningDiamond.Workflow.Branches) "B" x) ∧
        "B" ∈ childNodes :=
  ⟨acyclic_of_rank _ demoRank (by decide), by decide,
    C12_findChildNodes_is_reachability runningDiamond "B" 6
      (acyclic_of_rank _ demoRank (by decide)) (by decide)⟩

/-- C13: on a workflow with acyclic branches the list `findChildNodes` returns
holds no node id twice. -/
theorem C13_findChildNodes_no_duplicates (workflowExecution : WorkflowExecution)
    (nodeId : String) (fuel : Nat)
    (hacyclic : acyclic workflowExecution.Workflow.Branches)
    (hfuel : workflowExecution.Workflow.Branches.length < fuel) :
    ∃ childNodes, findChildNodes fuel workflowExecution nodeId = some childNodes ∧
      childNodes.Nodup := by
  obtain ⟨l, hl⟩ := findChildNodes_terminates workflowExecution nodeId fuel hacyclic hfuel
  exact ⟨l, hl, findChildNodes_nodup hl⟩

theorem C13_findChildNodes_no_duplicates_witness :
    acyclic runningDiamond.Workflow.Branches ∧
      findChildNodes 6 runningDiamond "A" = some ["A", "B", "D", "C"] ∧
      ∃ childNodes, findChildNodes 6 runningDiamond "A" = some childNodes ∧
        childNodes.Nodup :=
  ⟨acyclic_of_rank _ demoRank (by decide), by decide,
    C13_findChildNodes_no_duplicates runningDiamond "A" 6
      (acyclic_of_rank _ demoRank (by decide)) (by decide)⟩

/-- C15, counterexample: under `exit_on_error` the FAILURE of C, the last
outstanding action of A → B → C, is accepted and stored with status FINISHED,
not FAILURE. -/
theorem C15_last_failure_finishes :
    (handleWorkflowQueue 3 {} [(demoId, nearlyDoneExit)] failureC).1 = .status 200 ∧
      (getWorkflowExecution {} (handleWorkflowQueue 3 {} [(demoId, nearlyDoneExit)] failureC).2
        demoId).map (fun e => (e.Status, e.LastNode, e.Results.map fun x => x.Action.ID)) =
        some ("FINISHED", "C", ["A", "B", "C"]) := by
  decide

/-- C15, amended: with `exit_on_error` set, an accepted submit (answer 200) of
an ABORTED or FAILURE result stores the execution with `last_node` equal to the
submitted action id and with no result of an action that neither had a result
before nor is the submitted one.  The stored status is FINISHED when the stored
results meet the termination condition (as many results as actions plus "User
Input" results, none EXECUTING, no SKIPPED result below a parent whose result is
neither SKIPPED nor FAILURE), and it is the submitted status when they do not. -/
theorem C15_exit_on_error_failure (fuel : Nat) (env : Env) (db : Datastore)
    (actionResult : ActionResult) (workflowExecution : WorkflowExecution)
    (hget : getWorkflowExecution env db actionResult.ExecutionId = some workflowExecution)
    (hkey : workflowExecution.ExecutionId = env.toLower actionResult.ExecutionId)
    (hok : (handleWorkflowQueue fuel env db actionResult).1 = .status 200)
    (hfail : actionResult.Status = "ABORTED" ∨ actionResult.Status = "FAILURE")
    (hexit : workflowExecution.Workflow.Configuration.ExitOnError = true) :
    ∃ stored, getWorkflowExecution env (handleWorkflowQueue fuel env db actionResult).2
        actionResult.ExecutionId = some stored ∧
      stored.LastNode = actionResult.Action.ID ∧
      (terminationCondition stored.Workflow stored.Results → stored.Status = "FINISHED") ∧
      (¬ terminationCondition stored.Workflow stored.Results →
        stored.Status = actionResult.Status) ∧
      ∀ result ∈ stored.Results, result.Action.ID = actionResult.Action.ID ∨
        ∃ old ∈ workflowExecution.Results, old.Action.ID = result.Action.ID := by
  have hplain : ¬ (actionResult.Status = "WAITING" ∧
      actionResult.Action.AppName = "User Input") := by
    rintro ⟨hw, _⟩
    rw [hw] at hfail
    rcases hfail with h | h <;> exact absurd h (by decide)
  obtain ⟨m, results, hm, hrec, hstored⟩ :=
    handleWorkflowQueue_stored fuel env db actionResult workflowExecution hget hkey hok hplain
  obtain ⟨hlast, hids⟩ := mergeStage_exit hfail hexit hm
  obtain ⟨_, _, _, hmst⟩ := mergeStage_frame hm
  have hmst' : m.Status = actionResult.Status := by
    rw [hmst]
    unfold statusAfterFailure
    rw [if_pos ⟨hfail, hexit⟩]
  have hm0 : ({ m with Results := results } : WorkflowExecution).Status ≠ "FINISHED" := by
    show m.Status ≠ "FINISHED"
    rw [hmst']
    rcases hfail with h | h <;> rw [h] <;> decide
  obtain ⟨ciff, _⟩ := checkFinished_iff env { m with Results := results } actionResult hm0
  obtain ⟨rst, rwf, _, _, _, rmap⟩ := reduceResults_frame env
    (checkFinished env { m with Results := results } actionResult)
  obtain ⟨_, rln, _, _⟩ := reduceResults_fields env
    (checkFinished env { m with Results := results } actionResult)
  obtain ⟨cres, cwf, _, _, _⟩ := checkFinished_frame env { m with Results := results }
    actionResult
  rw [cres] at rmap
  have hcond : terminationCondition
      (reduceResults env (checkFinished env { m with Results := results }
        actionResult)).Workflow
      (reduceResults env (checkFinished env { m with Results := results }
        actionResult)).Results ↔
      terminationCondition ({ m with Results := results } : WorkflowExecution).Workflow
        ({ m with Results := results } : WorkflowExecution).Results := by
    rw [rwf, cwf]
    exact terminationCondition_of_map _ rmap
  refine ⟨_, hstored, ?_, ?_, ?_, ?_⟩
  · rw [rln]
    rcases checkFinished_lastNode env { m with Results := results } actionResult with h | h
    · rw [h]
      exact hlast
    · exact h
  · intro hc
    rw [rst]
    exact ciff.mpr (hcond.mp hc)
  · intro hc
    rw [rst]
    rcases checkFinished_status env { m with Results := results } actionResult with h | h
    · rw [h]
      exact hmst'
    · exact absurd (hcond.mpr (ciff.mp h.1)) hc
  · intro result hres
    obtain ⟨x, hx, hact, _⟩ := mem_of_map_eq rmap result hres
    have := hids x (reconcileSkipped_mem hrec x hx)
    rw [hact] at this
    exact this

theorem C15_exit_on_error_failure_witness :
    (getWorkflowExecution {} [(demoId, runningExit)] failureB.ExecutionId = some runningExit ∧
      (handleWorkflowQueue 3 {} [(demoId, runningExit)] failureB).1 = .status 200 ∧
      (getWorkflowExecution {} (handleWorkflowQueue 3 {} [(demoId, runningExit)] failureB).2
        demoId).map (fun e => (e.Status, e.LastNode, e.Results.map fun x => x.Action.ID)) =
        some ("FAILURE", "B", ["A", "B"]) ∧
      ∃ stored, getWorkflowExecution {} (handleWorkflowQueue 3 {} [(demoId, runningExit)]
          failureB).2 failureB.ExecutionId = some stored ∧
        stored.LastNode = failureB.Action.ID ∧
        (terminationCondition stored.Workflow stored.Results → stored.Status = "FINISHED") ∧
        (¬ terminationCondition stored.Workflow stored.Results →
          stored.Status = failureB.Status) ∧
        ∀ result ∈ stored.Results, result.Action.ID = failureB.Action.ID ∨
          ∃ old ∈ runningExit.Results, old.Action.ID = result.Action.ID) ∧
    (getWorkflowExecution {} [(demoId, nearlyDoneExit)] failureC.ExecutionId =
        some nearlyDoneExit ∧
      ∃ stored, getWorkflowExecution {} (handleWorkflowQueue 3 {} [(demoId, nearlyDoneExit)]
          failureC).2 failureC.ExecutionId = some stored ∧
        stored.LastNode = failureC.Action.ID ∧
        (terminationCondition stored.Workflow stored.Results → stored.Status = "FINISHED") ∧
        (¬ terminationCondition stored.Workflow stored.Results →
          stored.Status = failureC.Status) ∧
        ∀ result ∈ stored.Results, result.Action.ID = failureC.Action.ID ∨
          ∃ old ∈ nearlyDoneExit.Results, old.Action.ID = result.Action.ID) :=
  ⟨⟨by decide, by decide, by decide,
    C15_exit_on_error_failure 3 {} [(demoId, runningExit)] failureB runningExit
      (by decide) (by decide) (by decide) (by decide) (by decide)⟩,
   ⟨by decide,
    C15_exit_on_error_failure 3 {} [(demoId, nearlyDoneExit)] failureC nearlyDoneExit
      (by decide) (by decide) (by decide) (by decide) (by decide)⟩⟩

/-- C16, counterexample.  First workflow: A has a branch to an action whose id
is empty; that action is in `descendants(A)`, its only incoming branch starts at
A, and the failure of A synthesises no SKIPPED result for it.  Second workflow:
A → B with a branch from B to itself; B is below A and all its incoming branches
start below A, and the failure block does not come back at any recursion
depth. -/
theorem C16_no_result_without_id_or_on_cycle :
    findChildNodes 3 runningBlank "A" = some ["A", ""] ∧
      blankAction ∈ runningBlank.Workflow.Actions ∧
      (∀ b ∈ runningBlank.Workflow.Branches, b.DestinationID = "" → b.SourceID ∈ ["A", ""]) ∧
      (failureBranch 3 runningBlank failureA).map (fun e => e.Results) = some [] ∧
      ¬ ∃ fuel, (failureBranch fuel runningTailLoop failureA).isSome = true := by
  refine ⟨by decide, by decide, by decide, by decide, ?_⟩
  rintro ⟨fuel, h⟩
  have hnone : failureBranch fuel runningTailLoop failureA = none := by
    unfold failureBranch
    simp only
    rw [if_neg (by decide)]
    show (match findChildNodes fuel runningTailLoop "A" with
      | none => none
      | some childNodes => _) = none
    rw [(findChildNodes_tailLoop fuel).2]
  rw [hnone] at h
  cases h

/-- C16, amended: with `exit_on_error = false` and acyclic branches, the failure
block for a failing action x comes back and puts in front of the old results
one SKIPPED result with payload "Skipped because of previous node" for exactly
the action ids d of positive length with d ≠ x, d reached from x, and every
branch into d starting at a node reached from x; no id gets two. -/
theorem C16_skips_descendants_without_outside_parent (fuel : Nat)
    (workflowExecution : WorkflowExecution) (actionResult : ActionResult)
    (hexit : workflowExecution.Workflow.Configuration.ExitOnError = false)
    (hacyclic : acyclic workflowExecution.Workflow.Branches)
    (hfuel : workflowExecution.Workflow.Branches.length < fuel) :
    ∃ (after : WorkflowExecution) (synthesized : List ActionResult),
      failureBranch fuel workflowExecution actionResult = some after ∧
      after.Results = synthesized ++
        workflowExecution.Results.map (abortRunning actionResult.Status) ∧
      (∀ result ∈ synthesized, result.Status = "SKIPPED" ∧
        result.Result = "Skipped because of previous node" ∧
        result.Action ∈ workflowExecution.Workflow.Actions) ∧
      (synthesized.map fun result => result.Action.ID).Nodup ∧
      ∀ d : String, (∃ result ∈ synthesized, result.Action.ID = d) ↔
        d ≠ actionResult.Action.ID ∧ d.utf8ByteSize ≠ 0 ∧
        (∃ action ∈ workflowExecution.Workflow.Actions, action.ID = d) ∧
        Relation.ReflTransGen (branchStep workflowExecution.Workflow.Branches)
          actionResult.Action.ID d ∧
        ∀ branch ∈ workflowExecution.Workflow.Branches, branch.DestinationID = d →
          Relation.ReflTransGen (branchStep workflowExecution.Workflow.Branches)
            actionResult.Action.ID branch.SourceID := by
  obtain ⟨cn, hcn⟩ := findChildNodes_terminates workflowExecution actionResult.Action.ID fuel
    hacyclic hfuel
  have hmem := findChildNodes_mem workflowExecution fuel actionResult.Action.ID cn hcn
  have hfb : failureBranch fuel workflowExecution actionResult =
      some { workflowExecution with
        Result := lastNonEmpty "" (workflowExecution.Results.map
          (abortRunning actionResult.Status))
        Results := skippedResults workflowExecution actionResult cn cn ++
          workflowExecution.Results.map (abortRunning actionResult.Status) } := by
    unfold failureBranch
    simp only
    rw [if_neg (by rw [hexit]; decide), hcn]
  refine ⟨_, skippedResults workflowExecution actionResult cn cn, hfb, rfl, ?_, ?_, ?_⟩
  · intro result hres
    obtain ⟨d, _, _, a, ha, _, _, hr⟩ := (mem_skippedResults _ _ _ _ _).mp hres
    subst hr
    exact ⟨rfl, rfl, List.mem_of_find?_eq_some ha⟩
  · exact List.Nodup.sublist (skippedResults_ids_sublist _ _ _ _) (findChildNodes_nodup hcn)
  · intro d
    constructor
    · rintro ⟨result, hres, hid⟩
      obtain ⟨d', hd', hne, a, ha, hlen, hskip, hr⟩ := (mem_skippedResults _ _ _ _ _).mp hres
      subst hr
      have had : a.ID = d' := by simpa using List.find?_some ha
      simp only at hid
      rw [had] at hid hlen
      subst hid
      refine ⟨hne, hlen, ⟨a, List.mem_of_find?_eq_some ha, had⟩, (hmem _).mp hd', ?_⟩
      intro b hb hdest
      exact (hmem _).mp (skipNodeAdd_eq_false.mp hskip b hb hdest)
    · rintro ⟨hne, hlen, ⟨action, hact, hid⟩, hreach, hparents⟩
      cases hfind : workflowExecution.Workflow.Actions.find? (fun x => x.ID = d) with
      | none =>
        rw [List.find?_eq_none] at hfind
        exact absurd (by simpa using hid) (hfind action hact)
      | some a =>
        have had : a.ID = d := by simpa using List.find?_some hfind
        refine ⟨_, (mem_skippedResults _ _ _ _ _).mpr
          ⟨d, (hmem d).mpr hreach, hne, a, hfind, by rw [had]; exact hlen, ?_, rfl⟩, had⟩
        apply skipNodeAdd_eq_false.mpr
        intro b hb hdest
        exact (hmem _).mpr (hparents b hb hdest)

theorem C16_skips_descendants_without_outside_parent_witness :
    runningDiamond.Workflow.Configuration.ExitOnError = false ∧
      acyclic runningDiamond.Workflow.Branches ∧
      (failureBranch 6 runningDiamond failureB).map
        (fun e => e.Results.map fun result => result.Action.ID) = some [] ∧
      (failureBranch 6 runningDiamond failureA).map
        (fun e => e.Results.map fun result => result.Action.ID) = some ["B", "D", "C"] ∧
      ∃ (after : WorkflowExecution) (synthesized : List ActionResult),
        failureBranch 6 runningDiamond failureB = some after ∧
        after.Results = synthesized ++ runningDiamond.Results.map (abortRunning failureB.Status) ∧
        (∀ result ∈ synthesized, result.Status = "SKIPPED" ∧
          result.Result = "Skipped because of previous node" ∧
          result.Action ∈ runningDiamond.Workflow.Actions) ∧
        (synthesized.map fun result => result.Action.ID).Nodup ∧
        ∀ d : String, (∃ result ∈ synthesized, result.Action.ID = d) ↔
          d ≠ failureB.Action.ID ∧ d.utf8ByteSize ≠ 0 ∧
          (∃ action ∈ runningDiamond.Workflow.Actions, action.ID = d) ∧
          Relation.ReflTransGen (branchStep runningDiamond.Workflow.Branches)
            failureB.Action.ID d ∧
          ∀ branch ∈ runningDiamond.Workflow.Branches, branch.DestinationID = d →
            Relation.ReflTransGen (branchStep runningDiamond.Workflow.Branches)
              failureB.Action.ID branch.SourceID :=
  ⟨by decide, acyclic_of_rank _ demoRank (by decide), by decide, by decide,
    C16_skips_descendants_without_outside_parent 6 runningDiamond failureB (by decide)
      (acyclic_of_rank _ demoRank (by decide)) (by decide)⟩

/-- C17: an accepted submit (answer 200) stores the status FINISHED if and only
if it reached the termination check and the results after merge and
reconciliation met the termination condition: as many results as actions plus
"User Input" results, none EXECUTING, no SKIPPED result below a parent whose
result is neither SKIPPED nor FAILURE.  When it does, the stored workflow-level
result is the payload of the last of those results, and `last_node` is the
submitted action id if it was empty before. -/
theorem C17_finished_iff_condition (fuel : Nat) (env : Env) (db : Datastore)
    (actionResult : ActionResult) (workflowExecution stored : WorkflowExecution)
    (hget : getWorkflowExecution env db actionResult.ExecutionId = some workflowExecution)
    (hkey : workflowExecution.ExecutionId = env.toLower actionResult.ExecutionId)
    (hok : (handleWorkflowQueue fuel env db actionResult).1 = .status 200)
    (hafter : getWorkflowExecution env (handleWorkflowQueue fuel env db actionResult).2
      actionResult.ExecutionId = some stored) :
    (stored.Status = "FINISHED" ↔
      ∃ results, resultsAtCheck fuel workflowExecution actionResult = some results ∧
        terminationCondition workflowExecution.Workflow results) ∧
    ∀ results, resultsAtCheck fuel workflowExecution actionResult = some results →
      terminationCondition workflowExecution.Workflow results →
        stored.Result = ((results.getLast?).map fun result => result.Result).getD "" ∧
        (workflowExecution.LastNode = "" → stored.LastNode = actionResult.Action.ID) := by
  by_cases hui : actionResult.Status = "WAITING" ∧ actionResult.Action.AppName = "User Input"
  · have hnone : resultsAtCheck fuel workflowExecution actionResult = none := by
      unfold resultsAtCheck
      rw [if_pos hui]
    have hnf := handleWorkflowQueue_userInput_stored fuel env db actionResult workflowExecution
      stored hget hkey hok hui hafter
    rw [hnone]
    refine ⟨⟨fun h => absurd h hnf, ?_⟩, ?_⟩
    · rintro ⟨results, h, _⟩
      cases h
    · intro results h
      cases h
  · obtain ⟨m, results, hm, hrec, hstored⟩ :=
      handleWorkflowQueue_stored fuel env db actionResult workflowExecution hget hkey hok hui
    have hat : resultsAtCheck fuel workflowExecution actionResult = some results := by
      unfold resultsAtCheck
      rw [if_neg hui, hm]
      exact hrec
    rw [hafter] at hstored
    cases hstored
    have hrej := handleWorkflowQueue_ok_running fuel env db actionResult workflowExecution
      hget hok
    have hnf : workflowExecution.Status ≠ "FINISHED" := fun h => hrej (Or.inl h)
    obtain ⟨hwf, _, _, hmst⟩ := mergeStage_frame hm
    have hm0 : ({ m with Results := results } : WorkflowExecution).Status ≠ "FINISHED" := by
      show m.Status ≠ "FINISHED"
      rw [hmst]
      exact statusAfterFailure_ne_finished hnf
    obtain ⟨ciff, cset⟩ := checkFinished_iff env { m with Results := results } actionResult hm0
    obtain ⟨rst, _, _, _, _, _⟩ := reduceResults_frame env
      (checkFinished env { m with Results := results } actionResult)
    obtain ⟨rres, rln, _, _⟩ := reduceResults_fields env
      (checkFinished env { m with Results := results } actionResult)
    have ciff' : (checkFinished env { m with Results := results } actionResult).Status =
        "FINISHED" ↔ terminationCondition workflowExecution.Workflow results := by
      rw [ciff]
      show terminationCondition m.Workflow results ↔ _
      rw [hwf]
    rw [hat, rst, ciff']
    refine ⟨?_, ?_⟩
    · constructor
      · intro h
        exact ⟨results, rfl, h⟩
      · rintro ⟨results', h, hc⟩
        cases h
        exact hc
    · intro results' h hc
      cases h
      have hc' : terminationCondition
          ({ m with Results := results } : WorkflowExecution).Workflow
          ({ m with Results := results } : WorkflowExecution).Results := by
        show terminationCondition m.Workflow results
        rw [hwf]
        exact hc
      obtain ⟨h1, h2⟩ := cset hc'
      refine ⟨by rw [rres, h1], ?_⟩
      intro hempty
      rw [rln, h2]
      show (if m.LastNode = "" then actionResult.Action.ID else m.LastNode) = _
      rcases mergeStage_lastNode hm with hl | hl
      · rw [hl]
        split_ifs <;> rfl
      · rw [hl, if_pos hempty]

theorem C17_finished_iff_condition_witness :
    getWorkflowExecution {} [(demoId, nearlyDoneExit)] successC.ExecutionId =
        some nearlyDoneExit ∧
      (handleWorkflowQueue 3 {} [(demoId, nearlyDoneExit)] successC).1 = .status 200 ∧
      getWorkflowExecution {} (handleWorkflowQueue 3 {} [(demoId, nearlyDoneExit)] successC).2
        successC.ExecutionId = some doneExit ∧
      resultsAtCheck 3 nearlyDoneExit successC = some [successA, successB, successC] ∧
      terminationCondition nearlyDoneExit.Workflow [successA, successB, successC] ∧
      doneExit.Status = "FINISHED" ∧ doneExit.Result = "mail sent" ∧ doneExit.LastNode = "C" ∧
      (doneExit.Status = "FINISHED" ↔
        ∃ results, resultsAtCheck 3 nearlyDoneExit successC = some results ∧
          terminationCondition nearlyDoneExit.Workflow results) :=
  ⟨by decide, by decide, by decide, by decide, by decide, by decide, by decide, by decide,
    (C17_finished_iff_condition 3 {} [(demoId, nearlyDoneExit)] successC nearlyDoneExit
      doneExit (by decide) (by decide) (by decide) (by decide)).1⟩

/-- C18: a fresh start that succeeds on a workflow with `start_from_top` off
stores as initial results exactly one SKIPPED result, with the payload "Skipped
because it's not under the startnode", for each action that is not reached from
the start node in zero or more steps, in the order of the actions of the
workflow; the start node and the nodes reached from it have no result. -/
theorem C18_fresh_start_skips_outside_start (fuel : Nat) (env : Env) (db db' : Datastore)
    (queues queues' : QueueStore) (id : String) (workflow : Workflow) (request : StartRequest)
    (exec : WorkflowExecution)
    (hstart : handleExecution fuel env db queues id workflow request =
      (.started exec, db', queues'))
    (hfresh : freshStart request)
    (htop : exec.Workflow.Configuration.StartFromTop = false) :
    ∃ (wf : Workflow) (childNodes : List String),
      resolveWorkflow env id workflow = .ok wf ∧
      exec.Workflow.Actions.map (fun action => action.ID) =
        wf.Actions.map (fun action => action.ID) ∧
      exec.Workflow.Branches = wf.Branches ∧
      (∀ x, x ∈ childNodes ↔ reachable exec.Workflow.Branches exec.Start x) ∧
      exec.Results =
        (exec.Workflow.Actions.filter fun action => decide (action.ID ∉ childNodes)).map
          (fun action =>
            { Action := action
              ExecutionId := exec.ExecutionId
              Authorization := exec.Authorization
              Result := "Skipped because it's not under the startnode"
              StartedAt := 0
              CompletedAt := 0
              Status := "SKIPPED" }) ∧
      (∀ result ∈ exec.Results,
        ¬ reachable exec.Workflow.Branches exec.Start result.Action.ID) ∧
      dbGet db' exec.ExecutionId = some exec := by
  obtain ⟨wf, childNodes, hw, hwf, hall, hmem, hskip, _, hdb⟩ :=
    handleExecution_fresh hstart hfresh
  have hbranches : exec.Workflow.Branches = wf.Branches := by rw [hwf]
  have hconf : wf.Configuration.StartFromTop = false := by
    rw [hwf] at htop
    exact htop
  have hres := hskip hconf
  refine ⟨wf, childNodes, hw, ?_, hbranches, ?_, hres, ?_, hdb⟩
  · exact (injectAuth_ids hall).symm
  · rw [hbranches]
    exact hmem
  · intro result hr
    rw [hres] at hr
    obtain ⟨action, ha, rfl⟩ := List.mem_map.mp hr
    have hnot : action.ID ∉ childNodes := by
      simpa using (List.mem_filter.mp ha).2
    intro hreach
    rw [hbranches] at hreach
    exact hnot ((hmem _).mpr hreach)

theorem C18_fresh_start_skips_outside_start_witness :
    freshStart startAtY ∧
      ∃ (wf : Workflow) (childNodes : List String),
        resolveWorkflow (startEnv "s3cret") "workflow-1" chainWorkflow = .ok wf ∧
        (startedAtY "s3cret").Workflow.Actions.map (fun action => action.ID) =
          wf.Actions.map (fun action => action.ID) ∧
        (startedAtY "s3cret").Workflow.Branches = wf.Branches ∧
        (∀ x, x ∈ childNodes ↔
          reachable (startedAtY "s3cret").Workflow.Branches (startedAtY "s3cret").Start x) ∧
        (startedAtY "s3cret").Results =
          ((startedAtY "s3cret").Workflow.Actions.filter fun action =>
              decide (action.ID ∉ childNodes)).map
            (fun action =>
              { Action := action
                ExecutionId := (startedAtY "s3cret").ExecutionId
                Authorization := (startedAtY "s3cret").Authorization
                Result := "Skipped because it's not under the startnode"
                StartedAt := 0
                CompletedAt := 0
                Status := "SKIPPED" }) ∧
        (∀ result ∈ (startedAtY "s3cret").Results,
          ¬ reachable (startedAtY "s3cret").Workflow.Branches (startedAtY "s3cret").Start
            result.Action.ID) ∧
        dbGet [(demoId, startedAtY "s3cret")] (startedAtY "s3cret").ExecutionId =
          some (startedAtY "s3cret") :=
  ⟨by decide,
    C18_fresh_start_skips_outside_start 10 (startEnv "s3cret") [] [(demoId, startedAtY "s3cret")]
      [] queuedAtY "workflow-1" chainWorkflow startAtY (startedAtY "s3cret") (by decide)
      (by decide) (by decide)⟩

/-- C19, counterexample: two starts of the same workflow in organisations that
differ only in the value of the field `apikey` of the credential `cred-1`
succeed and persist different snapshots; the parameter `apikey` of the action
bound to that credential is stored with the value of the credential, not with
the empty value of the workflow definition. -/
theorem C19_snapshot_holds_credential_values :
    handleExecution 10 (startEnv "first") [] [] "workflow-1" chainWorkflow startAtY =
        (.started (startedAtY "first"), [(demoId, startedAtY "first")], queuedAtY) ∧
      handleExecution 10 (startEnv "second") [] [] "workflow-1" chainWorkflow startAtY =
        (.started (startedAtY "second"), [(demoId, startedAtY "second")], queuedAtY) ∧
      (startedAtY "first").Workflow ≠ (startedAtY "second").Workflow ∧
      (startedAtY "first").Workflow.Actions.map
          (fun action => action.Parameters.map fun param => (param.Name, param.Value)) =
        [[], [("apikey", "first"), ("url", "https://example.org")], [], []] ∧
      chainWorkflow.Actions.map
          (fun action => action.Parameters.map fun param => (param.Name, param.Value)) =
        [[], [("apikey", ""), ("url", "https://example.org")], [], []] := by
  refine ⟨by decide, by decide, by decide, by decide, by decide⟩

/-- C19, amended: the execution record a fresh start persists holds the
credential values.  Its workflow snapshot has the actions of the workflow in
their order; an action without an authentication id keeps its parameters, and
in an action with an authentication id every parameter whose name is the key of
a field of the credential with that id has the value of the first such field,
every other parameter the value of the workflow definition. -/
theorem C19_snapshot_parameters (fuel : Nat) (env : Env) (db db' : Datastore)
    (queues queues' : QueueStore) (id : String) (workflow : Workflow) (request : StartRequest)
    (exec : WorkflowExecution)
    (hstart : handleExecution fuel env db queues id workflow request =
      (.started exec, db', queues'))
    (hfresh : freshStart request) :
    ∃ wf : Workflow,
      resolveWorkflow env id workflow = .ok wf ∧
      dbGet db' exec.ExecutionId = some exec ∧
      List.Forall₂
        (fun action stored =>
          stored.ID = action.ID ∧
          (action.AuthenticationId.utf8ByteSize = 0 → stored.Parameters = action.Parameters) ∧
          (0 < action.AuthenticationId.utf8ByteSize →
            ∃ allAuths curAuth,
              env.getAllWorkflowAppAuth wf.ExecutingOrg.Id = .ok allAuths ∧
              allAuths.find? (fun auth => auth.Id = action.AuthenticationId) = some curAuth ∧
              stored.Parameters = action.Parameters.map fun param =>
                match curAuth.Fields.find? (fun authparam => param.Name = authparam.Key) with
                | some authparam => { param with Value := authparam.Value }
                | none => param))
        wf.Actions exec.Workflow.Actions := by
  obtain ⟨wf, childNodes, hw, _, hall, _, _, _, hdb⟩ := handleExecution_fresh hstart hfresh
  refine ⟨wf, hw, hdb, ?_⟩
  refine List.Forall₂.imp ?_ hall
  intro action stored hi
  have hid := injectAuth_id hi
  have hok := injectAuth_ok hi
  refine ⟨hid, ?_, ?_⟩
  · intro hzero
    rcases hok with ⟨_, hs⟩ | ⟨hpos, _⟩
    · rw [hs]
    · exact absurd hzero (Nat.ne_of_gt hpos)
  · intro hpos
    rcases hok with ⟨hzero, _⟩ | ⟨_, allAuths, curAuth, hget, hfind, hs⟩
    · exact absurd hzero (Nat.ne_of_gt hpos)
    · exact ⟨allAuths, curAuth, hget, hfind, by rw [hs]; rfl⟩

theorem C19_snapshot_parameters_witness :
    freshStart startAtY ∧
      ∃ wf : Workflow,
        resolveWorkflow (startEnv "first") "workflow-1" chainWorkflow = .ok wf ∧
        dbGet [(demoId, startedAtY "first")] (startedAtY "first").ExecutionId =
          some (startedAtY "first") ∧
        List.Forall₂
          (fun action stored =>
            stored.ID = action.ID ∧
            (action.AuthenticationId.utf8ByteSize = 0 →
              stored.Parameters = action.Parameters) ∧
            (0 < action.AuthenticationId.utf8ByteSize →
              ∃ allAuths curAuth,
                (startEnv "first").getAllWorkflowAppAuth wf.ExecutingOrg.Id = .ok allAuths ∧
                allAuths.find? (fun auth => auth.Id = action.AuthenticationId) =
                  some curAuth ∧
                stored.Parameters = action.Parameters.map fun param =>
                  match curAuth.Fields.find? (fun authparam => param.Name = authparam.Key) with
                  | some authparam => { param with Value := authparam.Value }
                  | none => param))
          wf.Actions (startedAtY "first").Workflow.Actions :=
  ⟨by decide,
    C19_snapshot_parameters 10 (startEnv "first") [] [(demoId, startedAtY "first")] []
      queuedAtY "workflow-1" chainWorkflow startAtY (startedAtY "first") (by decide)
      (by decide)⟩

/-- C20, counterexample: the queue store refuses the write.  The
acknowledgement of `requestOne` on the queue of `onprem` is answered 200, and
the queue still holds the four requests, the acknowledged one twice. -/
theorem C20_failed_write_keeps_acknowledged :
    getWorkflowQueue demoQueues "onprem" =
        some [requestOne, requestTwo, requestOne, requestThree] ∧
      handleGetWorkflowqueueConfirm brokenQueueEnv demoQueues "onprem"
          (some [{ ExecutionId := demoId, WorkflowId := "w1" }]) = (.status 200, demoQueues) ∧
      getWorkflowQueue (handleGetWorkflowqueueConfirm brokenQueueEnv demoQueues "onprem"
          (some [{ ExecutionId := demoId, WorkflowId := "w1" }])).2 "onprem" =
        some [requestOne, requestTwo, requestOne, requestThree] := by
  decide

/-- C20, amended: for a queue that is not empty and a list of acknowledged
requests that is not empty, confirm answers 200.  When the datastore takes the
write of the remaining requests, the queue holds exactly the requests whose
pair of execution id and workflow id is the pair of no acknowledged request, in
their old order, so a request with an acknowledged pair is removed wherever and
however often it occurs.  When the datastore refuses that write, the queue
store is left as it was. -/
theorem C20_confirm_removes_acknowledged (env : Env) (queues : QueueStore) (id : String)
    (data removeData : List ExecutionRequest)
    (hid : id.utf8ByteSize ≠ 0)
    (hget : getWorkflowQueue queues id = some data)
    (hdata : data ≠ [])
    (hremove : removeData ≠ []) :
    (handleGetWorkflowqueueConfirm env queues id (some removeData)).1 = .status 200 ∧
      (env.queuePutError id (unacknowledged removeData data) = none →
        getWorkflowQueue (handleGetWorkflowqueueConfirm env queues id (some removeData)).2 id =
          some (unacknowledged removeData data)) ∧
      (env.queuePutError id (unacknowledged removeData data) ≠ none →
        (handleGetWorkflowqueueConfirm env queues id (some removeData)).2 = queues) := by
  have hfilter : unacknowledged removeData data = remainingRequests removeData data [] := by
    unfold unacknowledged
    rw [remainingRequests_eq, List.nil_append]
    apply List.filter_congr
    intro x _
    rw [Bool.eq_iff_iff, not_confirmed_iff]
    simp
  rw [hfilter]
  unfold handleGetWorkflowqueueConfirm
  rw [if_neg hid, hget]
  simp only
  rw [if_neg (by simpa using hdata), if_neg (by simpa using hremove)]
  by_cases hlen : data.length ≠ (remainingRequests removeData data []).length
  · rw [if_pos hlen]
    unfold setWorkflowQueue
    cases hput : env.queuePutError id (remainingRequests removeData data []) with
    | none => exact ⟨rfl, fun _ => queueGet_queuePut queues id _, fun h => absurd rfl h⟩
    | some err => exact ⟨rfl, (fun h => by cases h), fun _ => rfl⟩
  · rw [if_neg hlen]
    refine ⟨rfl, fun _ => ?_, fun _ => rfl⟩
    show getWorkflowQueue queues id = _
    rw [hget]
    congr 1
    have hlen' := not_not.mp hlen
    rw [remainingRequests_eq, List.nil_append] at hlen' ⊢
    exact (List.filter_eq_self.mpr (List.filter_length_eq_length.mp hlen'.symm)).symm

theorem C20_confirm_removes_acknowledged_witness :
    getWorkflowQueue demoQueues "onprem" = some [requestOne, requestTwo, requestOne, requestThree] ∧
      (handleGetWorkflowqueueConfirm {} demoQueues "onprem"
        (some [{ ExecutionId := demoId, WorkflowId := "w1" }])).1 = .status 200 ∧
      getWorkflowQueue (handleGetWorkflowqueueConfirm {} demoQueues "onprem"
        (some [{ ExecutionId := demoId, WorkflowId := "w1" }])).2 "onprem" =
        some [requestTwo, requestThree] ∧
      (handleGetWorkflowqueueConfirm brokenQueueEnv demoQueues "onprem"
        (some [{ ExecutionId := demoId, WorkflowId := "w1" }])).2 = demoQueues :=
  ⟨by decide,
    (C20_confirm_removes_acknowledged {} demoQueues "onprem"
      [requestOne, requestTwo, requestOne, requestThree]
      [{ ExecutionId := demoId, WorkflowId := "w1" }]
      (by decide) (by decide) (by decide) (by decide)).1,
    ((C20_confirm_removes_acknowledged {} demoQueues "onprem"
      [requestOne, requestTwo, requestOne, requestThree]
      [{ ExecutionId := demoId, WorkflowId := "w1" }]
      (by decide) (by decide) (by decide) (by decide)).2.1 rfl).trans (by decide),
    (C20_confirm_removes_acknowledged brokenQueueEnv demoQueues "onprem"
      [requestOne, requestTwo, requestOne, requestThree]
      [{ ExecutionId := demoId, WorkflowId := "w1" }]
      (by decide) (by decide) (by decide) (by decide)).2.2 (by decide)⟩

/-- C21, counterexample: on the drained queue of `onprem` (the entity is there,
its list is empty), and on a store without that queue, the acknowledgement of
`requestOne` is answered 401, not 200. -/
theorem C21_ack_on_empty_queue_rejected :
    handleGetWorkflowqueueConfirm {} drainedQueues "onprem" (some [requestOne]) =
        (.status 401, drainedQueues) ∧
      handleGetWorkflowqueueConfirm {} [] "onprem" (some [requestOne]) = (.status 401, []) := by
  constructor <;> decide

/-- C21, amended: an acknowledgement that is not empty and names no request of
the queue leaves the queue store as it was; it is answered 200 when the queue
holds a request and 401 when the queue is empty or is not in the store. -/
theorem C21_unmatched_ack_keeps_queue (env : Env) (queues : QueueStore) (id : String)
    (data removeData : List ExecutionRequest)
    (hid : id.utf8ByteSize ≠ 0)
    (hget : (getWorkflowQueue queues id).getD [] = data)
    (hremove : removeData ≠ [])
    (hnone : ∀ execution ∈ data, ∀ removeExecution ∈ removeData,
      ¬ (removeExecution.ExecutionId = execution.ExecutionId ∧
        removeExecution.WorkflowId = execution.WorkflowId)) :
    handleGetWorkflowqueueConfirm env queues id (some removeData) =
      (.status (if data = [] then 401 else 200), queues) := by
  unfold handleGetWorkflowqueueConfirm
  rw [if_neg hid]
  cases hq : getWorkflowQueue queues id with
  | none =>
    rw [hq] at hget
    simp only [Option.getD_none] at hget
    rw [if_pos hget.symm]
  | some stored =>
    rw [hq] at hget
    simp only [Option.getD_some] at hget
    subst hget
    simp only
    by_cases hdata : stored = []
    · rw [if_pos (by simp [hdata]), if_pos hdata]
    · rw [if_neg (by simpa using hdata), if_neg (by simpa using hremove), if_neg hdata]
      have hsame : remainingRequests removeData stored [] = stored := by
        rw [remainingRequests_eq, List.nil_append]
        apply List.filter_eq_self.mpr
        intro execution hmem
        exact (not_confirmed_iff removeData execution).mpr (hnone execution hmem)
      rw [hsame, if_neg (by simp)]

theorem C21_unmatched_ack_keeps_queue_witness :
    handleGetWorkflowqueueConfirm {} demoQueues "onprem"
        (some [{ ExecutionId := demoId, WorkflowId := "w9" }]) = (.status 200, demoQueues) :=
  (C21_unmatched_ack_keeps_queue {} demoQueues "onprem"
    [requestOne, requestTwo, requestOne, requestThree]
    [{ ExecutionId := demoId, WorkflowId := "w9" }]
    (by decide) (by decide) (by decide) (by decide)).trans (by decide)

/-- C23: when the frequency string does not parse as an integer of at least 1
(a cron string such as "*/15 * * * *", any other string that is no number, an
integer below 1), `createSchedule` returns an error, registers no timer and
persists no declaration: registry and store are as they were. -/
theorem C23_frequency_must_be_positive_integer (env : Env) (jobs : Registry)
    (schedules : ScheduleStore)
    (scheduleId workflowId startNode frequency orgId body : String)
    (hfreq : positiveFrequency frequency = false) :
    ∃ err, createSchedule env jobs schedules scheduleId workflowId startNode frequency orgId
      body = (some err, jobs, schedules) := by
  unfold createSchedule parseFrequency
  by_cases hcron : frequency.data.count '*' + 1 > 5
  · rw [if_pos hcron]
    simp only
    have hlen := utf8ByteSize_pos_of_count hcron
    rw [if_pos hlen]
    exact ⟨_, rfl⟩
  · rw [if_neg hcron]
    unfold positiveFrequency at hfreq
    cases hparse : atoi frequency with
    | error err => exact ⟨_, rfl⟩
    | ok n =>
      rw [hparse] at hfreq
      simp only [decide_eq_false_iff_not, not_le] at hfreq
      simp only
      rw [if_neg (by decide), if_pos (by omega)]
      exact ⟨_, rfl⟩

theorem C23_frequency_must_be_positive_integer_witness :
    positiveFrequency "*/15 * * * *" = false ∧
      ∃ err, createSchedule {} [] [] "schedule-1" "w1" "A" "*/15 * * * *" "org-1" "ping" =
        (some err, [], []) :=
  ⟨by decide,
    C23_frequency_must_be_positive_integer {} [] [] "schedule-1" "w1" "A" "*/15 * * * *" "org-1"
      "ping" (by decide)⟩

/-- C25, counterexample: the store holds the declaration of a schedule and
`scheduledJobs` holds no timer for it.  `deleteSchedule` removes the
declaration and returns the error "Can't find the schedule."; `stopSchedule`
answers 200 only to an error that contains "Job not found", which this error
does not, and answers 401. -/
theorem C25_delete_without_timer_fails :
    getSchedule orphanSchedules orphanId = some { minuteSchedule with Id := orphanId } ∧
      deleteSchedule {} [] orphanSchedules orphanId =
        (some "Can't find the schedule.", [], []) ∧
      stringsContains "Can't find the schedule." "Job not found" = false ∧
      stopSchedule scheduleAdminEnv [] orphanSchedules demoId orphanId =
        (.status 401, [], []) := by
  refine ⟨by decide, by decide, by decide, by decide⟩

/-- C25, amended: when `scheduledJobs` holds no timer for a schedule and the
datastore takes the removal, `deleteSchedule` removes the declaration, leaves
the registry as it is and returns the error "Can't find the schedule."; the
`stopSchedule` handler, for an on-prem schedule of a workflow the caller may
stop, leaves the store without the declaration as well. -/
theorem C25_delete_without_timer_removes_declaration (env : Env) (jobs : Registry)
    (schedules : ScheduleStore) (fileId scheduleId : String) (user : User)
    (workflow : Workflow) (schedule : ScheduleOld)
    (htimer : assocGet jobs scheduleId = none)
    (hdelete : env.deleteKeyError "schedules" scheduleId = none)
    (huser : env.apiAuthentication = .ok user)
    (hfile : fileId.utf8ByteSize = 36)
    (hschedule : scheduleId.utf8ByteSize = 36)
    (hworkflow : env.getWorkflow fileId = .ok workflow)
    (hallowed : user.Id = workflow.Owner ∨ user.Role = "admin" ∨ user.Role = "scheduler")
    (hget : getSchedule schedules scheduleId = some schedule)
    (honprem : schedule.Environment ≠ "cloud") :
    deleteSchedule env jobs schedules scheduleId =
        (some "Can't find the schedule.", jobs, assocDelete schedules scheduleId) ∧
      getSchedule (assocDelete schedules scheduleId) scheduleId = none ∧
      (stopSchedule env jobs schedules fileId scheduleId).2 =
        (jobs, assocDelete schedules scheduleId) := by
  have hdel : deleteSchedule env jobs schedules scheduleId =
      (some "Can't find the schedule.", jobs, assocDelete schedules scheduleId) := by
    unfold deleteSchedule DeleteKey
    rw [hdelete]
    simp only
    rw [htimer]
  refine ⟨hdel, assocGet_assocDelete _ _, ?_⟩
  unfold stopSchedule
  rw [huser]
  simp only
  rw [if_neg (by rw [hfile]; decide), if_neg (by rw [hschedule]; decide), hworkflow]
  simp only
  rw [if_neg (by
    rintro ⟨h1, h2, h3⟩
    rcases hallowed with h | h | h
    · exact h1 h
    · exact h2 h
    · exact h3 h), hget]
  simp only
  rw [if_neg honprem, hdel]
  simp only
  split_ifs <;> rfl

theorem C25_delete_without_timer_removes_declaration_witness :
    deleteSchedule scheduleAdminEnv [] orphanSchedules orphanId =
        (some "Can't find the schedule.", [], assocDelete orphanSchedules orphanId) ∧
      getSchedule (assocDelete orphanSchedules orphanId) orphanId = none ∧
      (stopSchedule scheduleAdminEnv [] orphanSchedules demoId orphanId).2 =
        ([], assocDelete orphanSchedules orphanId) :=
  C25_delete_without_timer_removes_declaration scheduleAdminEnv [] orphanSchedules demoId orphanId
    { Username := "admin", Id := "admin-1", Role := "admin" }
    { ID := demoId, Owner := "owner-1", IsValid := true }
    { minuteSchedule with Id := orphanId }
    (by decide) (by decide) rfl (by decide) (by decide) rfl (by decide) (by decide) (by decide)

/-- C26: for a credential whose counters agree with its usage (and are below
the largest `int64`), `updateAppAuth` does not panic, and for every workflow
id, node id and value of `add` it either writes nothing or hands to the
datastore, under the id of the credential, a record whose counters agree with
its usage again; called again on that record with the same workflow id and node
id it writes nothing, whatever `add` is. -/
theorem C26_usage_counters_preserved (env : Env) (auths : AuthStore)
    (auth : AppAuthenticationStorage) (workflowId nodeId : String) (add : Bool)
    (hinv : usageInvariant auth)
    (hroom : auth.WorkflowCount < 2 ^ 63 - 1 ∧ auth.NodeCount < 2 ^ 63 - 1) :
    ∃ outcome : Option AppAuthenticationStorage,
      updatedAuth auth workflowId nodeId add = .ok outcome ∧
      (outcome = none → updateAppAuth env auths auth workflowId nodeId add =
        (.returned none, auths)) ∧
      ∀ written, outcome = some written →
        usageInvariant written ∧
        written.Id = auth.Id ∧
        (env.authPutError written auth.Id = none →
          updateAppAuth env auths auth workflowId nodeId add =
            (.returned none, assocPut auths auth.Id written)) ∧
        (∀ err, env.authPutError written auth.Id = some err →
          updateAppAuth env auths auth workflowId nodeId add =
            (.returned (some err), auths)) ∧
        ∀ (env' : Env) (auths' : AuthStore) (add' : Bool),
          updateAppAuth env' auths' written workflowId nodeId add' =
            (.returned none, auths') := by
  obtain ⟨hwc, hnc⟩ := hinv
  obtain ⟨hw1, hn1⟩ := hroom
  have hw0 : (0 : Int) ≤ auth.WorkflowCount := by rw [hwc]; exact Int.natCast_nonneg _
  have hn0 : (0 : Int) ≤ auth.NodeCount := by rw [hnc]; exact Int.natCast_nonneg _
  have hstore : ∀ written : AppAuthenticationStorage,
      updatedAuth auth workflowId nodeId add = .ok (some written) → written.Id = auth.Id →
      (env.authPutError written auth.Id = none →
        updateAppAuth env auths auth workflowId nodeId add =
          (.returned none, assocPut auths auth.Id written)) ∧
      (∀ err, env.authPutError written auth.Id = some err →
        updateAppAuth env auths auth workflowId nodeId add =
          (.returned (some err), auths)) := by
    intro written hupd hid
    unfold updateAppAuth setWorkflowAppAuthDatastore
    rw [hupd]
    simp only
    rw [hid]
    constructor
    · intro hput
      rw [hput]
    · intro err hput
      rw [hput]
  have hnone : updatedAuth auth workflowId nodeId add = .ok none →
      updateAppAuth env auths auth workflowId nodeId add = (.returned none, auths) := by
    intro hupd
    unfold updateAppAuth
    rw [hupd]
  cases hfind : findUsage workflowId nodeId auth.Usage 0 with
  | mk workflowFound rest =>
    obtain ⟨workflowIndex, nodeFound⟩ := rest
    by_cases hfirst : (!workflowFound && add) = true
    · have hupd : updatedAuth auth workflowId nodeId add =
          .ok (some { auth with
            Usage := auth.Usage ++ [{ WorkflowId := workflowId, Nodes := [nodeId] }]
            WorkflowCount := wrapInt64 (auth.WorkflowCount + 1)
            NodeCount := wrapInt64 (auth.NodeCount + 1) }) := by
        unfold updatedAuth
        rw [hfind]
        simp only
        rw [if_pos hfirst]
      refine ⟨_, hupd, (fun h => by cases h), ?_⟩
      intro written hwritten
      cases hwritten
      have hnot : workflowFound = false := by
        cases workflowFound <;> simp_all
      have hno := findUsage_not_found workflowId nodeId auth.Usage 0 (by rw [hfind, hnot])
      refine ⟨⟨?_, ?_⟩, rfl, (hstore _ hupd rfl).1, (hstore _ hupd rfl).2, ?_⟩
      · show wrapInt64 (auth.WorkflowCount + 1) = _
        rw [wrapInt64_succ hw0 hw1, hwc]
        simp
      · show wrapInt64 (auth.NodeCount + 1) = _
        rw [wrapInt64_succ hn0 hn1, hnc]
        simp
      · intro env' auths' add'
        exact updateAppAuth_of_found env' auths' _ workflowId nodeId add' _
          (findUsage_append_new workflowId nodeId auth.Usage 0 hno)
    · by_cases hsecond : (!nodeFound && add) = true
      · have hfound : workflowFound = true := by
          cases workflowFound <;> cases add <;> simp_all
        subst hfound
        obtain ⟨usage', _, happ, hlen, hsum, hagain⟩ :=
          findUsage_appendNode workflowId nodeId auth.Usage 0 workflowIndex nodeFound hfind
        rw [Nat.sub_zero] at happ
        have hupd : updatedAuth auth workflowId nodeId add =
            .ok (some { auth with
              Usage := usage', NodeCount := wrapInt64 (auth.NodeCount + 1) }) := by
          unfold updatedAuth
          rw [hfind]
          simp only
          rw [if_neg hfirst, if_pos hsecond, happ]
        refine ⟨_, hupd, (fun h => by cases h), ?_⟩
        intro written hwritten
        cases hwritten
        refine ⟨⟨?_, ?_⟩, rfl, (hstore _ hupd rfl).1, (hstore _ hupd rfl).2, ?_⟩
        · show auth.WorkflowCount = _
          rw [hwc, hlen]
        · show wrapInt64 (auth.NodeCount + 1) = _
          rw [wrapInt64_succ hn0 hn1, hnc, hsum]
          simp
        · intro env' auths' add'
          obtain ⟨idx', hidx'⟩ := hagain 0
          exact updateAppAuth_of_found env' auths' _ workflowId nodeId add' idx' hidx'
      · have hupd : updatedAuth auth workflowId nodeId add = .ok none := by
          unfold updatedAuth
          rw [hfind]
          simp only
          rw [if_neg hfirst, if_neg hsecond]
        exact ⟨none, hupd, fun _ => hnone hupd, fun written h => by cases h⟩

theorem C26_usage_counters_preserved_witness :
    usageInvariant usedCredential ∧
      ∃ outcome : Option AppAuthenticationStorage,
        updatedAuth usedCredential "workflow-1" "Y" true = .ok outcome ∧
        (outcome = none → updateAppAuth {} [] usedCredential "workflow-1" "Y" true =
          (.returned none, [])) ∧
        ∀ written, outcome = some written →
          usageInvariant written ∧
          written.Id = usedCredential.Id ∧
          (({} : Env).authPutError written usedCredential.Id = none →
            updateAppAuth {} [] usedCredential "workflow-1" "Y" true =
              (.returned none, assocPut [] usedCredential.Id written)) ∧
          (∀ err, ({} : Env).authPutError written usedCredential.Id = some err →
            updateAppAuth {} [] usedCredential "workflow-1" "Y" true =
              (.returned (some err), [])) ∧
          ∀ (env' : Env) (auths' : AuthStore) (add' : Bool),
            updateAppAuth env' auths' written "workflow-1" "Y" add' =
              (.returned none, auths') :=
  ⟨by decide,
    C26_usage_counters_preserved {} [] usedCredential "workflow-1" "Y" true (by decide)
      (by decide)⟩

/-- C27, the code at a failing input: the owner saves a workflow whose only
action is bound to a credential the organisation does not have.  The save is
answered 200, the stored action carries the error "App authentication doesn't
exist" and is invalid, the stored workflow lists the error, and yet the stored
workflow has `is_valid = true`: the `false` of line 2113 is overwritten by line
2219. -/
theorem C27_unknown_credential_stored_valid :
    (saveWorkflow saveEnv savedWorkflows [] demoId (some orphanAuthWorkflow)).1 = .status 200 ∧
      (checkAuth [] orphanAuthAction [] true).2.1 = false ∧
      (assocGet (saveWorkflow saveEnv savedWorkflows [] demoId (some orphanAuthWorkflow)).2
          demoId).map
        (fun workflow =>
          (workflow.IsValid, workflow.Errors,
            workflow.Actions.map fun action =>
              (action.ID, action.Errors, action.IsValid, action.AuthenticationId))) =
        some (true, ["App authentication for Shuffle Tools doesn't exist!"],
          [("Z", ["App authentication doesn't exist"], false, "")]) := by
  refine ⟨by decide, by decide, rfl⟩

/-- C28, the code at two failing inputs.  In the fan A → B, A → C the failure
of A stores SKIPPED results for B and C next to each other; when A is then
submitted with SUCCESS, the reconciliation removes the entry of B and steps
over the entry of C, which stays although its parent A is neither SKIPPED nor
FAILURE.  In the join A → C, B → C with A and B done and C and D started, the
SKIPPED result of C has two such parents: the reconciliation removes its entry
once for each, and the second removal takes the EXECUTING result of D. -/
theorem C28_reconciliation_keeps_and_drops_wrong_entries :
    storedStatuses (submitEach 6 {} [(demoId, runningFan)] [failureA]) demoId =
        [("B", "SKIPPED"), ("C", "SKIPPED"), ("A", "FAILURE")] ∧
      (handleWorkflowQueue 6 {} (submitEach 6 {} [(demoId, runningFan)] [failureA])
        successA).1 = .status 200 ∧
      storedStatuses (submitEach 6 {} [(demoId, runningFan)] [failureA, successA]) demoId =
        [("C", "SKIPPED"), ("A", "SUCCESS")] ∧
      reconcileSkipped fanWorkflow.Branches
          [skippedBelow actionB, skippedBelow actionC, successA] =
        some [skippedBelow actionC, successA] ∧
      parentNotSkipped [skippedBelow actionC, successA] "A" = true ∧
      storedStatuses
          (submitEach 6 {} [(demoId, runningSide)] [successA, successB, executingC, executingD])
          demoId =
        [("A", "SUCCESS"), ("B", "SUCCESS"), ("C", "EXECUTING"), ("D", "EXECUTING")] ∧
      (handleWorkflowQueue 6 {}
        (submitEach 6 {} [(demoId, runningSide)] [successA, successB, executingC, executingD])
        skippedC).1 = .status 200 ∧
      storedStatuses
          (submitEach 6 {} [(demoId, runningSide)]
            [successA, successB, executingC, executingD, skippedC]) demoId =
        [("A", "SUCCESS"), ("B", "SUCCESS")] ∧
      reconcileSkipped sideWorkflow.Branches [successA, successB, skippedC, executingD] =
        some [successA, successB] := by
  refine ⟨by decide, by decide, by decide, by decide, by decide, by decide, by decide,
    by decide, by decide⟩

/-- C30, the code at a failing input.  In the join A → C, B → C the results of
A and B are stored and a worker submits a SKIPPED result for C, which the merge
appends as the third entry.  The reconciliation removes it for the branch from
A, which leaves a slice of two entries, and for the branch from B evaluates
`Results[3:]` on that slice: the handler panics and stores nothing.  The same
happens when the loop reads a cell that a removal has left behind the end of
the slice, as in the fan after the failure and the success of A, when B comes
in SKIPPED. -/
theorem C30_reconciliation_panics :
    storedStatuses (submitEach 6 {} [(demoId, runningSide)] [successA, successB]) demoId =
        [("A", "SUCCESS"), ("B", "SUCCESS")] ∧
      removeResult [successA, successB, skippedC] 3 2 =
        some ([successA, successB, skippedC], 2) ∧
      removeResult [successA, successB, skippedC] 2 2 = none ∧
      reconcileSkipped sideWorkflow.Branches [successA, successB, skippedC] = none ∧
      handleWorkflowQueue 6 {} (submitEach 6 {} [(demoId, runningSide)] [successA, successB])
          skippedC =
        (.panicked, submitEach 6 {} [(demoId, runningSide)] [successA, successB]) ∧
      storedStatuses (submitEach 6 {} [(demoId, runningFan)] [failureA, successA]) demoId =
        [("C", "SKIPPED"), ("A", "SUCCESS")] ∧
      (handleWorkflowQueue 6 {} (submitEach 6 {} [(demoId, runningFan)] [failureA, successA])
        (skippedBelow actionB)).1 = .panicked := by
  refine ⟨by decide, by decide, by decide, by decide, by decide, by decide, by decide⟩

end Shuffle
